import Mathlib

/-!
# ipcoin: balance derivation, transfers and request validation

A shallow embedding of the Go packages `storage` (balance.go, transfer.go, comment.go,
glance.go, leaderboard.go) and `server` (transfer.go, comment.go, glance.go,
leaderboard.go, server.go) of MicahParks/ipcoin.

* `int64` values are integers; every `int64` operation of the source is followed by
  `wrapInt64`, the reduction into `[-2^63, 2^63)` that Go performs on overflow.
* The database handle `dbConn` is a value holding the rows of table `transfer` and the
  faults of the store; an operation that writes returns the new handle next to its result.
* A Go `(value, error)` result is an `Except error value`.
* A slice is a list; where the source or its tests tell a nil slice from an empty one, it
  is an `Option` of a list, `none` being nil.
* What a handler gets from its collaborators during one call (limiter, lock, transaction,
  `uuid.New()`) is a parameter of the handler.
* The table of address locks is a value with one expiry instant per entry; goroutines
  that call `WithLock` at the same time are a step relation on their places in the call.
-/

set_option autoImplicit false
set_option linter.dupNamespace false

/-! ## Machine integers -/

/-- Smallest `int64`. -/
def minInt64 : Int := -9223372036854775808

/-- Largest `int64`. -/
def maxInt64 : Int := 9223372036854775807

/-- Reduction of an integer into the `int64` range, as Go does on overflow. -/
def wrapInt64 (x : Int) : Int :=
  (x + 9223372036854775808) % 18446744073709551616 - 9223372036854775808

/-- The integer is representable as an `int64`. -/
def isInt64 (x : Int) : Prop := minInt64 ≤ x ∧ x ≤ maxInt64

instance (x : Int) : Decidable (isInt64 x) := by
  unfold isInt64; exact inferInstance

/-! ## Package time (the parts the repository uses) -/

namespace time

/-! A `time.Duration` is an `int64` count of nanoseconds. -/

/-- The constant `minDuration` of package time. -/
def minDuration : Int := minInt64

/-- The constant `maxDuration` of package time. -/
def maxDuration : Int := maxInt64

def Nanosecond : Int := 1
def Microsecond : Int := 1000 * Nanosecond
def Millisecond : Int := 1000 * Microsecond
def Second : Int := 1000 * Millisecond
def Minute : Int := 60 * Second
def Hour : Int := 60 * Minute

/-- A `time.Time` read through its wall clock: the instant in nanoseconds since
1970-01-01T00:00:00Z. -/
structure Time where
  unixNano : Int
deriving DecidableEq, Repr

/-- The method `t.Sub(u)`: the duration `t - u`; when it does not fit a duration the maximum
(or minimum) duration is returned. -/
def Time.Sub (t u : Time) : Int :=
  let d := t.unixNano - u.unixNano
  if d < minDuration then minDuration
  else if maxDuration < d then maxDuration
  else d

/-- The method `t.Add(d)`. -/
def Time.Add (t : Time) (d : Int) : Time := ⟨t.unixNano + d⟩

/-- The instant of the zero `time.Time`, 0001-01-01T00:00:00Z, in nanoseconds since
1970-01-01T00:00:00Z. -/
def zeroUnixNano : Int := -62135596800 * Second

/-- The method `t.Truncate(d)`: `t` rounded down to a multiple of `d` since the zero time;
`t` itself when `d` is not positive. -/
def Time.Truncate (t : Time) (d : Int) : Time :=
  if d ≤ 0 then t else ⟨t.unixNano - (t.unixNano - zeroUnixNano) % d⟩

/-- Days from 1970-01-01 to the given day of the proleptic Gregorian calendar. -/
def daysFromCivil (year month day : Int) : Int :=
  let y := if month ≤ 2 then year - 1 else year
  let era := y / 400
  let yoe := y - era * 400
  let mp := (month + 9) % 12
  let doy := (153 * mp + 2) / 5 + day - 1
  let doe := yoe * 365 + yoe / 4 - yoe / 100 + doy
  era * 146097 + doe - 719468

/-- The call `time.Date(year, month, day, hour, min, sec, nsec, time.UTC)` for arguments in
their normal ranges. -/
def Date (year month day hour min sec nsec : Int) : Time :=
  ⟨((daysFromCivil year month day * 24 + hour) * 60 + min) * 60 * Second
      + sec * Second + nsec⟩

end time

/-! ## Package netip (the parts the repository uses) -/

namespace netip

/-- One byte. -/
abbrev Byte := Fin 256

/-- A `netip.Addr`: the zero value, an IPv4 address (4 bytes), or an IPv6 address
(16 bytes and a zone). Two values are `==` exactly when they are built the same way from
the same bytes and zone, so an IPv4 address differs from its IPv4-mapped IPv6 form. -/
inductive Addr where
  | zero : Addr
  | v4 (bytes : List Byte) : Addr
  | v6 (bytes : List Byte) (zone : String) : Addr
deriving DecidableEq, Repr

/-- The function `netip.AddrFrom4`. -/
def AddrFrom4 (bytes : List Byte) : Addr := .v4 bytes

/-- The function `netip.AddrFrom16`. -/
def AddrFrom16 (bytes : List Byte) : Addr := .v6 bytes ""

/-- The function `netip.AddrFromSlice`: a 4-byte or 16-byte slice is an address, anything else is
not. -/
def AddrFromSlice (slice : List Byte) : Addr × Bool :=
  if slice.length = 4 then (AddrFrom4 slice, true)
  else if slice.length = 16 then (AddrFrom16 slice, true)
  else (Addr.zero, false)

end netip

/-! ## Package net (the parts the tests of the repository use) -/

namespace net

open netip

/-- The prefix of the 16-byte form of an IPv4 address (`v4InV6Prefix`). -/
def v4InV6Prefix : List Byte := [0, 0, 0, 0, 0, 0, 0, 0, 0, 0, 0xff, 0xff]

/-- The method `ip.To16()` of a `net.IP`: the 16-byte form of a 4-byte address (the
IPv4-mapped IPv6 address, as `net.ParseIP` returns it for dotted input), a 16-byte address
itself, nil otherwise. -/
def To16 (ip : List Byte) : List Byte :=
  if ip.length = 4 then v4InV6Prefix ++ ip
  else if ip.length = 16 then ip
  else []

end net

/-! ## Errors -/

/-- A Go `error` of package storage. -/
inductive error where
  /-- Modelled from the spec: the sentinel `storage.ErrInsufficientBalance`, whose
  declaration is not among the sources; it is the "distinguished InsufficientBalance
  condition" a caller can branch on. -/
  | ErrInsufficientBalance : error
  /-- An error reported by the database driver. -/
  | driver (msg : String) : error
  /-- The value of `fmt.Errorf(msg + ": %w", err)`. -/
  | Errorf (msg : String) (err : error) : error
deriving DecidableEq, Repr

namespace errors

/-- The function `errors.Is(err, target)`: `target` is `err` or one of the errors `err` wraps. -/
def Is : error → error → Bool
  | .Errorf msg inner, target =>
      decide (error.Errorf msg inner = target) || Is inner target
  | err, target => decide (err = target)

end errors

/-! ## Package storage -/

namespace storage

open time netip

/-- A `uuid.UUID`. -/
abbrev UUID := Nat

/-- A row of table `transfer` (transfer.go). -/
structure Transfer where
  Created : Time
  ID : UUID
  Sender : Addr
  Recipient : Addr
  Amount : Int
deriving DecidableEq, Repr

/-- A row of table `comment` (comment.go). -/
structure Comment where
  Created : Time
  ID : UUID
  Address : Addr
  Message : String
deriving DecidableEq, Repr

/-- A row of the materialized view `leaderboard_glance` (leaderboard.go). -/
structure LeaderboardGlance where
  Address : Addr
  BalanceDiff : Int
  CommentCount : Int
  TransferCount : Int
deriving DecidableEq, Repr

/-- The `dbConn` the storage functions run against: the rows of table `transfer` in
insertion order, and how the store fails: `batchFault` is the driver error with which
every batch sent through the connection fails, `execFault row` the driver error with
which the insertion of `row` fails (a lost connection, a constraint of the table). The
schema of the table is not among the sources.

Further: the rows of table `comment` and the driver error with which the insertion of a
comment fails; the rows the materialized view `leaderboard_glance` holds, the query that
defines the view (the schema is not among the sources, so the query is part of the store),
and the driver error with which refreshing the view fails. -/
structure dbConn where
  transfer : List Transfer
  batchFault : Option String := none
  execFault : Transfer → Option String := fun _ => none
  comment : List Comment := []
  commentFault : Comment → Option String := fun _ => none
  leaderboard_glance : List LeaderboardGlance := []
  leaderboardQuery : List Transfer → List Comment → List LeaderboardGlance := fun _ _ => []
  refreshFault : Option String := none

/-- The statement `SELECT COALESCE(SUM(amount), 0) FROM transfer WHERE recipient = $1`. -/
def sumAmountWhereRecipient (db : dbConn) (address : Addr) : Int :=
  ((db.transfer.filter (fun t => decide (t.Recipient = address))).map Transfer.Amount).sum

/-- The statement `SELECT COALESCE(SUM(amount), 0) FROM transfer WHERE sender = $1`. -/
def sumAmountWhereSender (db : dbConn) (address : Addr) : Int :=
  ((db.transfer.filter (fun t => decide (t.Sender = address))).map Transfer.Amount).sum

/-- The `row.Scan(&x)` of a sum into an `int64` variable. The store adds the amounts
exactly; a sum outside the `int64` range cannot be stored in the variable and is a driver
error. -/
def scanInt64 (v : Int) : Except error Int :=
  if isInt64 v then .ok v else .error (.driver "value out of range for int64")

structure GetBalanceRequest where
  Address : Addr
  Now : Time
deriving DecidableEq, Repr

def projectStarted : Time := Date 2025 8 10 21 0 0 0

/-- The source's `BalanceUntouched`: `int64(now.Sub(projectStarted) / time.Hour)`, Go's
integer division rounding toward zero. -/
def BalanceUntouched (now : Time) : Int :=
  Int.tdiv (now.Sub projectStarted) Hour

/-- The source's `addBalanceDiff`: the two statements it queues and their row callbacks,
run in queue order on the accumulator `balanceDiff` (an `atomic.Int64`); the first
callback error ends the batch. -/
def addBalanceDiff (db : dbConn) (address : Addr) (balanceDiff : Int) : Except error Int :=
  match scanInt64 (sumAmountWhereRecipient db address) with
  | .error err => .error (.Errorf "failed to check transfers of credit" err)
  | .ok credits =>
    let balanceDiff := wrapInt64 (balanceDiff + credits)
    match scanInt64 (sumAmountWhereSender db address) with
    | .error err => .error (.Errorf "failed to check transfers of debit" err)
    | .ok debits => .ok (wrapInt64 (balanceDiff + wrapInt64 (-1 * debits)))

/-- The source's `GetBalance`. -/
def GetBalance (db : dbConn) (request : GetBalanceRequest) : Except error Int :=
  match db.batchFault with
  | some msg => .error (.Errorf "failed to check transfers for balance" (.driver msg))
  | none =>
    match addBalanceDiff db request.Address 0 with
    | .error err => .error (.Errorf "failed to check transfers for balance" err)
    | .ok balanceDiff => .ok (wrapInt64 (BalanceUntouched request.Now + balanceDiff))

structure CreateTransferRequest where
  Amount : Int
  Sender : Addr
  Now : Time
  Recipient : Addr
deriving DecidableEq, Repr

structure CreateTransferResponse where
  Transfer : Transfer
  SenderBalance : Int
deriving DecidableEq, Repr

/-- The source's `CreateTransfer`; `id` is the value `uuid.New()` returns. The result is
paired with the database after the call. -/
def CreateTransfer (db : dbConn) (id : UUID) (request : CreateTransferRequest) :
    Except error CreateTransferResponse × dbConn :=
  match GetBalance db { Address := request.Sender, Now := request.Now } with
  | .error err => (.error (.Errorf "failed to check balance for transfer" err), db)
  | .ok balance =>
    let balance := wrapInt64 (balance - request.Amount)
    if balance < 0 then
      (.error (.Errorf "cannot complete transfer" .ErrInsufficientBalance), db)
    else
      let row : Transfer :=
        { Created := request.Now, ID := id, Sender := request.Sender,
          Recipient := request.Recipient, Amount := request.Amount }
      match db.execFault row with
      | some msg => (.error (.Errorf "failed to insert new transfer" (.driver msg)), db)
      | none =>
        (.ok { Transfer := row, SenderBalance := balance },
          { db with transfer := db.transfer ++ [row] })

/-! ### comment.go -/

structure CreateCommentRequest where
  Addr : Addr
  Message : String
  Now : Time
deriving DecidableEq, Repr

structure CreateCommentResponse where
  Comment : Comment
deriving DecidableEq, Repr

/-- The source's `CreateComment`; `id` is the value `uuid.New()` returns. The result is paired
with the database after the call. -/
def CreateComment (db : dbConn) (id : UUID) (request : CreateCommentRequest) :
    Except error CreateCommentResponse × dbConn :=
  let row : Comment :=
    { Created := request.Now, ID := id, Address := request.Addr, Message := request.Message }
  match db.commentFault row with
  | some msg => (.error (.Errorf "failed to insert new comment" (.driver msg)), db)
  | none => (.ok { Comment := row }, { db with comment := db.comment ++ [row] })

/-! ### glance.go -/

structure Glance where
  Address : Addr
  BalanceAvailable : Int
  CommentCount : Int
  TransferCount : Int
deriving DecidableEq, Repr

structure GetGlanceRequest where
  Address : Addr
  Now : Time
deriving DecidableEq, Repr

/-- The statement `SELECT COUNT(*) FROM comment WHERE address = $1`. -/
def countCommentWhereAddress (db : dbConn) (address : Addr) : Int :=
  ((db.comment.filter (fun c => decide (c.Address = address))).length : Int)

/-- The statement `SELECT COUNT(*) FROM transfer WHERE recipient = $1 OR sender = $1`. -/
def countTransferWhereRecipientOrSender (db : dbConn) (address : Addr) : Int :=
  ((db.transfer.filter
      (fun t => decide (t.Recipient = address) || decide (t.Sender = address))).length : Int)

/-- The source's `GetGlance`: the glance and the baseline. The batch holds the two statements
of `addBalanceDiff` and the two counts; the first callback error ends it and is returned
as it is. -/
def GetGlance (db : dbConn) (request : GetGlanceRequest) : Except error (Glance × Int) :=
  match db.batchFault with
  | some msg => .error (.driver msg)
  | none =>
    match addBalanceDiff db request.Address 0 with
    | .error err => .error err
    | .ok balanceDiff =>
      match scanInt64 (countCommentWhereAddress db request.Address) with
      | .error err => .error (.Errorf "failed to count comments" err)
      | .ok commentCount =>
        match scanInt64 (countTransferWhereRecipientOrSender db request.Address) with
        | .error err => .error (.Errorf "failed to count transfers" err)
        | .ok transferCount =>
          let balanceUntouched := BalanceUntouched request.Now
          .ok ({ Address := request.Address,
                 BalanceAvailable := wrapInt64 (balanceUntouched + balanceDiff),
                 CommentCount := commentCount,
                 TransferCount := transferCount }, balanceUntouched)

/-- The glance in the words of the specification: the balance is what `GetBalance` returns
for the address at `now` on the same ledger, the transfer count is the number of transfers
that have the address as sender or as recipient (a transfer counted once), the comment
count is the number of comments of the address, and the baseline is
`BalanceUntouched(now)`; there is none when the balance cannot be read. -/
def GetGlanceSpec (db : dbConn) (address : Addr) (now : Time) : Option (Glance × Int) :=
  match GetBalance db { Address := address, Now := now } with
  | .error _ => none
  | .ok balance =>
    some ({ Address := address,
            BalanceAvailable := balance,
            CommentCount := (db.comment.countP (fun c => decide (c.Address = address)) : Nat),
            TransferCount :=
              (db.transfer.countP
                (fun t => decide (t.Sender = address ∨ t.Recipient = address)) : Nat) },
          BalanceUntouched now)

/-! ### transfer.go: calls made one after the other -/

/-- The constant `leaderboardLimit`. -/
def leaderboardLimit : Nat := 10

structure GetLeaderboardRequest where
  Now : Time
deriving DecidableEq, Repr

/-- The two slices of the response; a nil slice is `none`, as in the zero value. -/
structure GetLeaderboardResponse where
  LeaderboardBalance : Option (List Glance) := none
  LeaderboardTransfer : Option (List Glance) := none
deriving DecidableEq, Repr

/-- The source's `RefreshLeaderboard`: the statement `REFRESH MATERIALIZED VIEW` (with or
without `CONCURRENTLY`) fails with a driver error or replaces the rows of the view by
what its query gives on the tables. -/
def RefreshLeaderboard (db : dbConn) (_concurrently : Bool) : Except error Unit × dbConn :=
  match db.refreshFault with
  | some msg => (.error (.Errorf "failed to refresh leaderboard" (.driver msg)), db)
  | none =>
    (.ok (), { db with leaderboard_glance := db.leaderboardQuery db.transfer db.comment })

/-- The glance a row callback of `GetLeaderboard` builds from a row of the view. -/
def glanceOfLeaderboardGlance (untouchedBalance : Int) (g : LeaderboardGlance) : Glance :=
  { Address := g.Address,
    BalanceAvailable := wrapInt64 (untouchedBalance + g.BalanceDiff),
    CommentCount := g.CommentCount,
    TransferCount := g.TransferCount }

/-- The statement `SELECT ... FROM leaderboard_glance ORDER BY balance_diff DESC LIMIT 10`.
Rows with equal keys come in the order of the view (the store may return them in any
order). -/
def selectLeaderboardByBalanceDiff (db : dbConn) : List LeaderboardGlance :=
  (db.leaderboard_glance.insertionSort
    (fun a b => b.BalanceDiff ≤ a.BalanceDiff)).take leaderboardLimit

/-- The statement `SELECT ... FROM leaderboard_glance ORDER BY transfer_count DESC LIMIT 10`.
Rows with equal keys come in the order of the view (the store may return them in any
order). -/
def selectLeaderboardByTransferCount (db : dbConn) : List LeaderboardGlance :=
  (db.leaderboard_glance.insertionSort
    (fun a b => b.TransferCount ≤ a.TransferCount)).take leaderboardLimit

/-- The source's `GetLeaderboard`: the response and the baseline. Each row callback makes
its slice with `make`, so the slices of a response that is returned without error are not
nil. -/
def GetLeaderboard (db : dbConn) (request : GetLeaderboardRequest) :
    Except error (GetLeaderboardResponse × Int) :=
  let untouchedBalance := BalanceUntouched request.Now
  match db.batchFault with
  | some msg => .error (.Errorf "failed to collect leaderboard" (.driver msg))
  | none =>
    .ok ({ LeaderboardBalance :=
             some ((selectLeaderboardByBalanceDiff db).map
               (glanceOfLeaderboardGlance untouchedBalance)),
           LeaderboardTransfer :=
             some ((selectLeaderboardByTransferCount db).map
               (glanceOfLeaderboardGlance untouchedBalance)) },
         untouchedBalance)

end storage

/-! ## Package netip: prefixes -/

namespace netip

/-- The big-endian value of a byte string. -/
def bytesToNat (bytes : List Byte) : Nat :=
  bytes.foldl (fun acc b => acc * 256 + b.val) 0

/-- The method `ip.BitLen()`: 0 for the zero address, 32 for IPv4, 128 for IPv6. -/
def Addr.BitLen : Addr → Nat
  | .zero => 0
  | .v4 _ => 32
  | .v6 _ _ => 128

/-- The method `ip.AsSlice()`: nil for the zero address, else the 4 or 16 bytes. -/
def Addr.AsSlice : Addr → List Byte
  | .zero => []
  | .v4 bytes => bytes
  | .v6 bytes _ => bytes

/-- The address carries an IPv6 zone. -/
def Addr.hasZone : Addr → Bool
  | .v6 _ zone => decide (zone ≠ "")
  | _ => false

/-- A `netip.Prefix` built by `netip.MustParsePrefix`: an address and a bit count. -/
structure Prefix where
  ip : Addr
  bits : Nat
deriving DecidableEq, Repr

/-- The method `p.Contains(ip)`: both are of one family, `ip` has no zone, and the first
`p.bits` bits agree. -/
def Prefix.Contains (p : Prefix) (ip : Addr) : Bool :=
  if ip.hasZone then false
  else if p.ip.BitLen = 0 ∨ ip.BitLen = 0 ∨ p.ip.BitLen ≠ ip.BitLen then false
  else if p.ip.BitLen < p.bits then false
  else
    decide ((Nat.xor (bytesToNat ip.AsSlice) (bytesToNat p.ip.AsSlice))
      >>> (ip.BitLen - p.bits) = 0)

end netip

/-! ## gRPC status, peers and metadata -/

namespace codes

/-- The gRPC status codes the server returns. -/
inductive Code where
  | OK
  | Canceled
  | InvalidArgument
  | ResourceExhausted
  | Internal
  | Unauthenticated
deriving DecidableEq, Repr

end codes

namespace status

/-- The error value of `status.Error(c, msg)`. -/
structure Status where
  code : codes.Code
  msg : String
deriving DecidableEq, Repr

/-- The function `status.Error`. -/
def Error (c : codes.Code) (msg : String) : Status := { code := c, msg := msg }

end status

namespace proto

open netip

/-- The fields of the request message read through `GetAmount` and
`GetRecipientAddress`; a nil byte slice is the empty list. -/
structure CreateTransferRequest where
  Amount : Int
  RecipientAddress : List Byte
deriving DecidableEq, Repr

structure Transfer where
  Created : time.Time
  Id : storage.UUID
  SenderAddress : List Byte
  RecipientAddress : List Byte
  Amount : Int
deriving DecidableEq, Repr

structure Balance where
  Timestamp : time.Time
  Address : List Byte
  Available : Int
deriving DecidableEq, Repr

structure CreateTransferResponse where
  Transfer : Transfer
  SenderBalance : Balance
deriving DecidableEq, Repr

/-- The field of the request message read through `GetComment`. -/
structure CreateCommentRequest where
  Comment : String
deriving DecidableEq, Repr

structure Comment where
  Created : time.Time
  Id : storage.UUID
  Address : List Byte
  Message : String
  Censored : Bool := false
deriving DecidableEq, Repr

structure CreateCommentResponse where
  Comment : Comment
deriving DecidableEq, Repr

/-- The field of the request message read through `GetAddress`; `none` is the nil slice. -/
structure GetGlanceRequest where
  Address : Option (List Byte) := none
deriving DecidableEq, Repr

structure Glance where
  Timestamp : time.Time
  Address : List Byte
  BalanceAvailable : Int
  CommentCount : Int
  TransferCount : Int
deriving DecidableEq, Repr

structure GetGlanceResponse where
  Glance : Glance
  BalanceUntouched : Int
deriving DecidableEq, Repr

/-- The request message of `GetLeaderboard`; the handlers read none of its fields. -/
structure GetLeaderboardRequest where
deriving DecidableEq, Repr

structure LeaderboardBalance where
  Entries : List Glance
deriving DecidableEq, Repr

structure LeaderboardTransfer where
  Entries : List Glance
deriving DecidableEq, Repr

structure Leaderboard where
  Timestamp : time.Time
  BalanceUntouched : Int
  LeaderboardBalance : LeaderboardBalance
  LeaderboardTransfer : LeaderboardTransfer
deriving DecidableEq, Repr

structure GetLeaderboardResponse where
  Leaderboard : Leaderboard
deriving DecidableEq, Repr

end proto

/-! ## Package server -/

namespace server

open netip

/-- The `net.Addr` a peer carries, by dynamic type. -/
inductive NetAddr where
  | TCPAddr (IP : List Byte)
  | UDPAddr (IP : List Byte)
  | other
deriving DecidableEq, Repr

/-- A `peer.Peer`. -/
structure Peer where
  Addr : NetAddr
deriving DecidableEq, Repr

/-- What the handlers read from a `context.Context`: the gRPC peer, the peer stored under
`ctxkey.TestingPeer`, the incoming metadata (key to values, as `md.Get`), whether
`ctx.Done()` is already closed when it is first polled, and whether a transaction is stored
under `ctxkey.TestingTx`. -/
structure Context where
  peer : Option Peer := none
  testingPeer : Option Peer := none
  metadata : Option (String → List String) := none
  done : Bool := false
  testingTx : Bool := false

/-- The `ipcoin.Config` of config.go. -/
structure Config where
  CloudflareRequired : Bool := false
  DBDSN : String := ""
  OpenAIAPIKey : String := ""
deriving DecidableEq, Repr

/-- What `getPeer` uses from outside the sources: `netip.ParseAddr`, and the two metadata
keys that package ipcoin declares in a file not among the sources. -/
structure Imports where
  ParseAddr : String → Option Addr
  GRPCMetadataKeyRuntimeKey : String
  GPRCMetadataCFConnectingIP : String

/-- The `Clock` of clock.go: the instant `Now()` returns during the call. -/
structure Clock where
  Now : time.Time
deriving DecidableEq, Repr

/-- The function `protoBuildGetLeaderboardResponse` of leaderboard.go; a nil slice has
length 0 and no entry to range over. -/
def protoBuildGetLeaderboardResponse (response : storage.GetLeaderboardResponse)
    (balanceUntouched : Int) (now : time.Time) : proto.GetLeaderboardResponse :=
  let entry (g : storage.Glance) : proto.Glance :=
    { Timestamp := now,
      Address := g.Address.AsSlice,
      BalanceAvailable := g.BalanceAvailable,
      CommentCount := g.CommentCount,
      TransferCount := g.TransferCount }
  { Leaderboard :=
      { Timestamp := now,
        BalanceUntouched := balanceUntouched,
        LeaderboardBalance :=
          { Entries := (response.LeaderboardBalance.getD []).map entry },
        LeaderboardTransfer :=
          { Entries := (response.LeaderboardTransfer.getD []).map entry } } }

/-- The `leaderboardMemCache` of leaderboard.go: the response it serves (a pointer, `none`
when nil). -/
structure leaderboardMemCache where
  response : Option proto.GetLeaderboardResponse
deriving DecidableEq, Repr

/-- The implementations of the interface `LeaderboardGetter` in leaderboard.go;
`leaderboardDebug` refers to the server that holds it. -/
inductive LeaderboardGetter where
  | leaderboardDebug
  | leaderboardNoOp
  | leaderboardMemCache (cache : leaderboardMemCache)
deriving DecidableEq, Repr

/-- The fields of `server` the handlers below read; `pool` is the store a transaction
begun by `s.tx` works on. -/
structure server where
  c : Config
  clock : Clock
  pool : storage.dbConn
  runtimeKey : String
  leaderboardGetter : LeaderboardGetter

/-- The list `cloudflareIPRanges` of server.go. -/
def cloudflareIPRanges : List Prefix :=
  [ ⟨.v4 [173, 245, 48, 0], 20⟩,
    ⟨.v4 [103, 21, 244, 0], 22⟩,
    ⟨.v4 [103, 22, 200, 0], 22⟩,
    ⟨.v4 [103, 31, 4, 0], 22⟩,
    ⟨.v4 [141, 101, 64, 0], 18⟩,
    ⟨.v4 [108, 162, 192, 0], 18⟩,
    ⟨.v4 [190, 93, 240, 0], 20⟩,
    ⟨.v4 [188, 114, 96, 0], 20⟩,
    ⟨.v4 [197, 234, 240, 0], 22⟩,
    ⟨.v4 [198, 41, 128, 0], 17⟩,
    ⟨.v4 [162, 158, 0, 0], 15⟩,
    ⟨.v4 [104, 16, 0, 0], 13⟩,
    ⟨.v4 [104, 24, 0, 0], 14⟩,
    ⟨.v4 [172, 64, 0, 0], 13⟩,
    ⟨.v4 [131, 0, 72, 0], 22⟩,
    ⟨.v6 [0x24, 0x00, 0xcb, 0x00, 0, 0, 0, 0, 0, 0, 0, 0, 0, 0, 0, 0] "", 32⟩,
    ⟨.v6 [0x26, 0x06, 0x47, 0x00, 0, 0, 0, 0, 0, 0, 0, 0, 0, 0, 0, 0] "", 32⟩,
    ⟨.v6 [0x28, 0x03, 0xf8, 0x00, 0, 0, 0, 0, 0, 0, 0, 0, 0, 0, 0, 0] "", 32⟩,
    ⟨.v6 [0x24, 0x05, 0xb5, 0x00, 0, 0, 0, 0, 0, 0, 0, 0, 0, 0, 0, 0] "", 32⟩,
    ⟨.v6 [0x24, 0x05, 0x81, 0x00, 0, 0, 0, 0, 0, 0, 0, 0, 0, 0, 0, 0] "", 32⟩,
    ⟨.v6 [0x2a, 0x06, 0x98, 0xc0, 0, 0, 0, 0, 0, 0, 0, 0, 0, 0, 0, 0] "", 29⟩,
    ⟨.v6 [0x2c, 0x0f, 0xf2, 0x48, 0, 0, 0, 0, 0, 0, 0, 0, 0, 0, 0, 0] "", 32⟩ ]

/-- The value of `strings.SplitN(s, ",", 2)[0]`: the part of `s` before its first comma. -/
def firstField (s : String) : String :=
  String.mk (s.toList.takeWhile (fun ch => ch ≠ ','))

/-- The source's `getPeer`. -/
def getPeer (im : Imports) (s : server) (ctx : Context) : Except status.Status Addr :=
  let resolved : Option (Peer × Bool) :=
    match ctx.peer with
    | some p => some (p, false)
    | none =>
      match ctx.testingPeer with
      | some p => some (p, true)
      | none => none
  match resolved with
  | none => .error (status.Error .Unauthenticated "no peer or metadata")
  | some (p, fromTest) =>
    let parsed : Option (Addr × Bool) :=
      match p.Addr with
      | .TCPAddr ip => some (AddrFromSlice ip)
      | .UDPAddr ip => some (AddrFromSlice ip)
      | .other => none
    match parsed with
    | none => .error (status.Error .Unauthenticated "unhandled peer address type")
    | some (sender, ok) =>
      if !ok then .error (status.Error .Unauthenticated "invalid IP address")
      else if fromTest then .ok sender
      else
        match ctx.metadata with
        | none =>
          .error (status.Error .Unauthenticated "missing required metadata in gRPC request")
        | some md =>
          match md "x-forwarded-for" with
          | [] => .error (status.Error .Unauthenticated "no x-forwarded-for in metadata")
          | xff :: _ =>
            match im.ParseAddr (firstField xff) with
            | none =>
              .error (status.Error .Unauthenticated "invalid IP address in x-forwarded-for")
            | some forwardedFor =>
              if !s.c.CloudflareRequired then .ok sender
              else if !(cloudflareIPRanges.any (fun p => p.Contains forwardedFor)) then
                .error (status.Error .Unauthenticated
                  "forwarded IP address not from Cloudflare")
              else
                match md im.GRPCMetadataKeyRuntimeKey with
                | [] =>
                  .error (status.Error .Unauthenticated
                    "no runtime key in metadata from Cloudflare")
                | key :: _ =>
                  if key ≠ s.runtimeKey then
                    .error (status.Error .Unauthenticated "invalid runtime key")
                  else
                    match md im.GPRCMetadataCFConnectingIP with
                    | [] =>
                      .error (status.Error .Unauthenticated
                        "no connecting IP in metadata from Cloudflare")
                    | cf :: _ =>
                      match im.ParseAddr (firstField cf) with
                      | none =>
                        .error (status.Error .Unauthenticated
                          "invalid IP address in metadata from Cloudflare")
                      | some connecting => .ok connecting

/-- The calls a handler makes to its collaborators, in the order it makes them;
`limiterWait` is `writeLimiter.Wait`, `readLimiterWait` is `readLimiter.Wait`. -/
inductive Call where
  | getPeer
  | limiterWait (addr : Addr)
  | withLock (addr : Addr)
  | txBegin
  | storageCreateTransfer (request : storage.CreateTransferRequest)
  | txCommit
  | txRollback
  | readLimiterWait (addr : Addr)
  | storageCreateComment (request : storage.CreateCommentRequest)
  | storageGetGlance (request : storage.GetGlanceRequest)
  | storageRefreshLeaderboard
  | storageGetLeaderboard (request : storage.GetLeaderboardRequest)
deriving DecidableEq, Repr

/-- What the collaborators of one call answer: whether the `Wait` of the limiter the
handler consults returns an error, whether the final `select` of `WithLock` gets the semaphore (rather than
`ctx.Done()`), whether `s.tx` and `tx.Commit` fail, and the value of `uuid.New()`. -/
structure Run where
  limiterErr : Bool := false
  acquired : Bool := true
  beginErr : Bool := false
  commitErr : Bool := false
  id : storage.UUID := 1
deriving DecidableEq, Repr

/-- The source's `addrLocker.WithLock` as its caller sees it: `f` is not run when the
context is already done at the first `select`, nor when the second `select` takes
`ctx.Done()`; otherwise `f` runs once, between taking and releasing the semaphore. The
table of semaphores and timers it maintains does not influence this. -/
def WithLock {σ : Type} (ctxDone acquired : Bool) (f : σ → σ) (st : σ) : σ :=
  if ctxDone then st
  else if acquired then f st
  else st

/-- The variables the function literal passed to `WithLock` in `CreateTransfer` assigns,
the store, and the calls made so far. -/
structure Locked where
  innerErr : Option status.Status
  storageResponse : storage.CreateTransferResponse
  now : time.Time
  pool : storage.dbConn
  calls : List Call

/-- The zero `time.Time`: 0001-01-01T00:00:00Z. -/
def zeroTime : time.Time := time.Date 1 1 1 0 0 0 0

/-- The zero `storage.CreateTransferResponse`. -/
def zeroCreateTransferResponse : storage.CreateTransferResponse :=
  { Transfer := { Created := zeroTime, ID := 0, Sender := .zero, Recipient := .zero,
                  Amount := 0 },
    SenderBalance := 0 }

/-- The function literal `CreateTransfer` passes to `WithLock`. A transaction works on a copy
of the store; `tx.Commit` makes the copy the store, the deferred `tx.Rollback` drops it
when it was not committed. -/
def createTransferLocked (s : server) (run : Run) (amount : Int) (sender recipient : Addr)
    (st : Locked) : Locked :=
  if run.beginErr then
    { st with innerErr := some (status.Error .Internal ""), calls := st.calls ++ [.txBegin] }
  else
    let tx := st.pool
    let now := s.clock.Now
    let dbReq : storage.CreateTransferRequest :=
      { Amount := amount, Sender := sender, Now := now, Recipient := recipient }
    let calls := st.calls ++ [.txBegin, .storageCreateTransfer dbReq]
    match storage.CreateTransfer tx run.id dbReq with
    | (.error err, _) =>
      if errors.Is err .ErrInsufficientBalance then
        { st with innerErr := some (status.Error .InvalidArgument "insufficient balance"),
                  storageResponse := zeroCreateTransferResponse, now := now,
                  calls := calls ++ [.txRollback] }
      else
        { st with innerErr := some (status.Error .Internal "unable to transfer to address"),
                  storageResponse := zeroCreateTransferResponse, now := now,
                  calls := calls ++ [.txRollback] }
    | (.ok storageResponse, tx) =>
      if run.commitErr then
        { st with innerErr := some (status.Error .Internal
                    "unable to commit database transaction"),
                  storageResponse := storageResponse, now := now,
                  calls := calls ++ [.txCommit, .txRollback] }
      else
        { innerErr := none, storageResponse := storageResponse, now := now, pool := tx,
          calls := calls ++ [.txCommit, .txRollback] }

/-- What a handler leaves behind: its result, the store after the call, and the calls
it made to its collaborators. -/
structure Outcome (α : Type) where
  result : Except status.Status α
  pool : storage.dbConn
  calls : List Call

/-- The source's `(*server).CreateTransfer`. -/
def CreateTransfer (im : Imports) (s : server) (run : Run) (ctx : Context)
    (request : proto.CreateTransferRequest) : Outcome proto.CreateTransferResponse :=
  let amount := request.Amount
  if amount < 1 then
    ⟨.error (status.Error .InvalidArgument "invalid amount"), s.pool, []⟩
  else
    let toBytes := request.RecipientAddress
    let converted : Option Addr :=
      if toBytes.length = 4 then some (AddrFrom4 toBytes)
      else if toBytes.length = 16 then some (AddrFrom16 toBytes)
      else none
    match converted with
    | none => ⟨.error (status.Error .InvalidArgument "invalid to address"), s.pool, []⟩
    | some recipient =>
      match getPeer im s ctx with
      | .error err => ⟨.error err, s.pool, [.getPeer]⟩
      | .ok sender =>
        if sender = recipient then
          ⟨.error (status.Error .InvalidArgument "cannot transfer to self"), s.pool,
            [.getPeer]⟩
        else if run.limiterErr then
          ⟨.error (status.Error .ResourceExhausted "rate limit exceeded"), s.pool,
            [.getPeer, .limiterWait sender]⟩
        else
          let st : Locked :=
            WithLock ctx.done run.acquired (createTransferLocked s run amount sender recipient)
              { innerErr := none, storageResponse := zeroCreateTransferResponse,
                now := zeroTime, pool := s.pool,
                calls := [.getPeer, .limiterWait sender, .withLock sender] }
          match st.innerErr with
          | some innerErr => ⟨.error innerErr, st.pool, st.calls⟩
          | none =>
            let pbNow := st.storageResponse.Transfer.Created
            ⟨.ok
              { Transfer :=
                  { Created := pbNow,
                    Id := st.storageResponse.Transfer.ID,
                    SenderAddress := st.storageResponse.Transfer.Sender.AsSlice,
                    RecipientAddress := st.storageResponse.Transfer.Recipient.AsSlice,
                    Amount := st.storageResponse.Transfer.Amount },
                SenderBalance :=
                  { Timestamp := pbNow,
                    Address := st.storageResponse.Transfer.Sender.AsSlice,
                    Available := st.storageResponse.SenderBalance } },
              st.pool, st.calls⟩

/-- The error of the source's `s.tx` when `Begin` fails. -/
def txError (ctx : Context) : status.Status :=
  if ctx.testingTx then
    status.Error .Internal "unable to start nested testing database transaction"
  else status.Error .Internal "unable to start database transaction"

/-! ### comment.go -/

/-- The constant `maxCommentLength`. -/
def maxCommentLength : Nat := 1000

/-- The source's `(*server).CreateComment`. Go's `len` of a string is its number of bytes
(`String.utf8ByteSize`). -/
def CreateComment (im : Imports) (s : server) (run : Run) (ctx : Context)
    (request : proto.CreateCommentRequest) : Outcome proto.CreateCommentResponse :=
  if request.Comment.utf8ByteSize = 0 then
    ⟨.error (status.Error .InvalidArgument "comment must not be empty"), s.pool, []⟩
  else if request.Comment.utf8ByteSize > maxCommentLength then
    ⟨.error (status.Error .InvalidArgument
        "comment must not be longer than 1000 characters"), s.pool, []⟩
  else
    match getPeer im s ctx with
    | .error err => ⟨.error err, s.pool, [.getPeer]⟩
    | .ok address =>
      if run.limiterErr then
        ⟨.error (status.Error .ResourceExhausted "rate limit exceeded"), s.pool,
          [.getPeer, .limiterWait address]⟩
      else if run.beginErr then
        ⟨.error (status.Error .Internal ""), s.pool,
          [.getPeer, .limiterWait address, .txBegin]⟩
      else
        let tx := s.pool
        let now := s.clock.Now
        let storageRequest : storage.CreateCommentRequest :=
          { Addr := address, Message := request.Comment, Now := now }
        let calls : List Call :=
          [.getPeer, .limiterWait address, .txBegin, .storageCreateComment storageRequest]
        match storage.CreateComment tx run.id storageRequest with
        | (.error _, _) =>
          ⟨.error (status.Error .Internal "unable to create comment"), s.pool,
            calls ++ [.txRollback]⟩
        | (.ok storageResponse, tx) =>
          if run.commitErr then
            ⟨.error (status.Error .Internal "unable to commit database transaction"),
              s.pool, calls ++ [.txCommit, .txRollback]⟩
          else
            ⟨.ok { Comment :=
                     { Created := storageResponse.Comment.Created,
                       Id := storageResponse.Comment.ID,
                       Address := storageResponse.Comment.Address.AsSlice,
                       Message := storageResponse.Comment.Message } },
              tx, calls ++ [.txCommit, .txRollback]⟩

/-! ### glance.go -/

/-- The source's `(*server).GetGlance`. -/
def GetGlance (im : Imports) (s : server) (run : Run) (ctx : Context)
    (request : proto.GetGlanceRequest) : Outcome proto.GetGlanceResponse :=
  match getPeer im s ctx with
  | .error err => ⟨.error err, s.pool, [.getPeer]⟩
  | .ok sender =>
    if run.limiterErr then
      ⟨.error (status.Error .ResourceExhausted "rate limit exceeded"), s.pool,
        [.getPeer, .readLimiterWait sender]⟩
    else
      let converted : Option Addr :=
        match request.Address with
        | none => some sender
        | some a =>
          match AddrFromSlice a with
          | (address, true) => some address
          | (_, false) => none
      match converted with
      | none =>
        ⟨.error (status.Error .InvalidArgument "invalid address"), s.pool,
          [.getPeer, .readLimiterWait sender]⟩
      | some address =>
        if run.beginErr then
          ⟨.error (txError ctx), s.pool, [.getPeer, .readLimiterWait sender, .txBegin]⟩
        else
          let tx := s.pool
          let now := s.clock.Now
          let dbReq : storage.GetGlanceRequest := { Address := address, Now := now }
          let calls : List Call :=
            [.getPeer, .readLimiterWait sender, .txBegin, .storageGetGlance dbReq]
          match storage.GetGlance tx dbReq with
          | .error _ =>
            ⟨.error (status.Error .Internal "unable to transfer to address"), s.pool,
              calls ++ [.txRollback]⟩
          | .ok (glance, balanceUntouched) =>
            if run.commitErr then
              ⟨.error (status.Error .Internal "unable to commit database transaction"),
                s.pool, calls ++ [.txCommit, .txRollback]⟩
            else
              ⟨.ok { Glance :=
                       { Timestamp := now,
                         Address := glance.Address.AsSlice,
                         BalanceAvailable := glance.BalanceAvailable,
                         CommentCount := glance.CommentCount,
                         TransferCount := glance.TransferCount },
                     BalanceUntouched := balanceUntouched },
                s.pool, calls ++ [.txCommit, .txRollback]⟩

/-! ### leaderboard.go -/

/-- The source's `leaderboardDebug.Get`, for the server `s` it refers to: it refreshes the
materialized view and reads the leaderboard from the pool. -/
def leaderboardDebug.Get (s : server) : Outcome (Option proto.GetLeaderboardResponse) :=
  let now := s.clock.Now
  let storageRequest : storage.GetLeaderboardRequest := { Now := now }
  match storage.RefreshLeaderboard s.pool false with
  | (.error _, pool) =>
    ⟨.error (status.Error .Internal "unable to refresh leaderboard"), pool,
      [.storageRefreshLeaderboard]⟩
  | (.ok _, pool) =>
    match storage.GetLeaderboard pool storageRequest with
    | .error _ =>
      ⟨.error (status.Error .Internal "unable to get leaderboard"), pool,
        [.storageRefreshLeaderboard, .storageGetLeaderboard storageRequest]⟩
    | .ok (response, balanceUntouched) =>
      ⟨.ok (some (protoBuildGetLeaderboardResponse response balanceUntouched now)), pool,
        [.storageRefreshLeaderboard, .storageGetLeaderboard storageRequest]⟩

/-- The source's `leaderboardNoOp.Get`: a nil response and no error. -/
def leaderboardNoOp.Get (s : server) : Outcome (Option proto.GetLeaderboardResponse) :=
  ⟨.ok none, s.pool, []⟩

/-- The source's `(*leaderboardMemCache).Get`: the response the cache holds and no error. -/
def leaderboardMemCache.Get (c : leaderboardMemCache) :
    Except status.Status (Option proto.GetLeaderboardResponse) :=
  .ok c.response

/-- The method `Get` of a `LeaderboardGetter` held by the server `s`. -/
def LeaderboardGetter.Get (s : server) :
    LeaderboardGetter → Outcome (Option proto.GetLeaderboardResponse)
  | .leaderboardDebug => leaderboardDebug.Get s
  | .leaderboardNoOp => leaderboardNoOp.Get s
  | .leaderboardMemCache c => ⟨c.Get, s.pool, []⟩

/-- The source's `(*server).GetLeaderboard`. -/
def GetLeaderboard (im : Imports) (s : server) (run : Run) (ctx : Context)
    (_request : proto.GetLeaderboardRequest) :
    Outcome (Option proto.GetLeaderboardResponse) :=
  match getPeer im s ctx with
  | .error err => ⟨.error err, s.pool, [.getPeer]⟩
  | .ok sender =>
    if run.limiterErr then
      ⟨.error (status.Error .ResourceExhausted "rate limit exceeded"), s.pool,
        [.getPeer, .readLimiterWait sender]⟩
    else
      let got := LeaderboardGetter.Get s s.leaderboardGetter
      ⟨got.result, got.pool, [.getPeer, .readLimiterWait sender] ++ got.calls⟩

/-- The cache `NewLeaderboardMemCache` returns; `now` is the value of `time.Now()`. -/
def NewLeaderboardMemCache (now : time.Time) : leaderboardMemCache :=
  { response := some (protoBuildGetLeaderboardResponse {} 0 now) }

/-- One pass of the loop of the goroutine `NewLeaderboardMemCache` starts, for a pass that
does not end at `ctx.Done()`: `now` is the value of `time.Now()` and `pool` the store at
the time of the read. -/
def leaderboardMemCache.refresh (cache : leaderboardMemCache) (now : time.Time)
    (pool : storage.dbConn) : leaderboardMemCache :=
  let nextRequest := (now.Truncate time.Minute).Add time.Minute
  let request : storage.GetLeaderboardRequest := { Now := nextRequest }
  match storage.GetLeaderboard pool request with
  | .error _ => cache
  | .ok (response, balanceUntouched) =>
    { response := some (protoBuildGetLeaderboardResponse response balanceUntouched
        nextRequest) }

/-- The cache after the goroutine has made the given passes, oldest first. -/
def leaderboardMemCache.refreshAll (cache : leaderboardMemCache) :
    List (time.Time × storage.dbConn) → leaderboardMemCache
  | [] => cache
  | (now, pool) :: rest => (cache.refresh now pool).refreshAll rest

/-! ### server.go -/

/-- The source's `New`: the fields the handlers read. The getter passed in is stored and
then replaced by `leaderboardDebug{s: s}`. -/
def New (c : Config) (clock : Clock) (leaderboardGetter : LeaderboardGetter)
    (pool : storage.dbConn) (runtimeKey : String) : server :=
  let s : server :=
    { c := c, clock := clock, pool := pool, runtimeKey := runtimeKey,
      leaderboardGetter := leaderboardGetter }
  { s with leaderboardGetter := .leaderboardDebug }

/-! ### server.go: the table of address locks -/

/-- The `addrLock` of server.go: its channel `ch` (capacity 1), known by the number it was
made as, and the instant, in nanoseconds, at which its `deleteTimer` fires. -/
structure addrLock where
  ch : Nat
  deleteAt : Int
deriving DecidableEq, Repr

/-- The `addrLocker` of server.go: `deleteAfter`, the map `m` (at most one entry per key),
and the channels made so far, `full` listing those that hold their token. -/
structure addrLocker where
  deleteAfter : Int
  m : List (Addr × addrLock)
  full : List Nat
  made : Nat
deriving DecidableEq, Repr

/-- The source's `newAddrLocker`. -/
def newAddrLocker (deleteAfter : Int) : addrLocker :=
  { deleteAfter := deleteAfter, m := [], full := [], made := 0 }

/-- The part of `WithLock` run under `l.mux` at instant `now`: the lock of `addr` is looked
up; when absent a lock with a new channel and a timer firing `deleteAfter` later is stored,
otherwise the timer of the stored lock is reset to fire `deleteAfter` later. -/
def addrLocker.lockFor (l : addrLocker) (now : Int) (addr : Addr) :
    addrLocker × addrLock :=
  match l.m.lookup addr with
  | none =>
    let lock : addrLock := { ch := l.made, deleteAt := now + l.deleteAfter }
    ({ l with m := (addr, lock) :: l.m, made := l.made + 1 }, lock)
  | some lock =>
    let lock : addrLock := { lock with deleteAt := now + l.deleteAfter }
    ({ l with m := (addr, lock) :: l.m.filter (fun e => decide (e.1 ≠ addr)) }, lock)

/-- The table once every `deleteTimer` due by `now` has fired and run its function literal
(`delete(l.m, addr)` under `l.mux`). -/
def addrLocker.expire (l : addrLocker) (now : Int) : addrLocker :=
  { l with m := l.m.filter (fun e => decide (now < e.2.deleteAt)) }

/-- The send `lock.ch <- struct{}{}` can proceed: the channel holds no token. -/
def addrLocker.canSend (l : addrLocker) (ch : Nat) : Bool := !l.full.contains ch

/-- The locker after the send `lock.ch <- struct{}{}`. -/
def addrLocker.send (l : addrLocker) (ch : Nat) : addrLocker :=
  { l with full := ch :: l.full }

/-- The locker after the receive `<-lock.ch`. -/
def addrLocker.receive (l : addrLocker) (ch : Nat) : addrLocker :=
  { l with full := l.full.erase ch }

/-- What one call of `WithLock` sees of its context: whether `ctx.Done()` is closed at the
first `select`; whether it is closed when the second `select` starts, and then whether Go,
finding both cases ready, picks `ctx.Done()`; and whether it closes while the second
`select` waits. -/
structure LockContext where
  done : Bool := false
  doneAtSelect : Bool := false
  pickDone : Bool := false
  doneLater : Bool := false
deriving DecidableEq, Repr

/-- How a call of `WithLock` that ends leaves things: the locker, the state `f` works on,
how many times `f` was run, and whether the call ended by the panic of `f`. -/
structure Locking (σ : Type) where
  locker : addrLocker
  state : σ
  ran : Nat
  panicked : Bool

/-- The source's `addrLocker.WithLock`, run at instant `now` with no other goroutine taking
a step meanwhile. The function `f` gives the state it leaves and whether it panicked; after
a panic the receive `<-lock.ch` that follows `f()` is not reached. The result is `none`
when the second `select` waits forever (the channel holds a token and the context never
ends). -/
def addrLocker.WithLock {σ : Type} (l : addrLocker) (now : Int) (ctx : LockContext)
    (addr : Addr) (f : σ → σ × Bool) (st : σ) : Option (Locking σ) :=
  let (l, lock) := l.lockFor now addr
  if ctx.done then
    some { locker := l, state := st, ran := 0, panicked := false }
  else if l.canSend lock.ch && !(ctx.doneAtSelect && ctx.pickDone) then
    let l := l.send lock.ch
    let (st, panicked) := f st
    if panicked then
      some { locker := l, state := st, ran := 1, panicked := true }
    else
      some { locker := l.receive lock.ch, state := st, ran := 1, panicked := false }
  else if ctx.doneAtSelect || ctx.doneLater then
    some { locker := l, state := st, ran := 0, panicked := false }
  else none

/-! ### server.go: goroutines calling `WithLock` at the same time -/

/-- Where a goroutine is in its call of `WithLock`: it has not called yet; it is at the
second `select`, with its copy of the lock of the key; it has sent on the channel and `f`
is running; or the call has returned, `f` having run or not. -/
inductive Place where
  | idle
  | waiting (addr : Addr) (lock : addrLock)
  | inFn (addr : Addr) (lock : addrLock)
  | left (ran : Bool)
deriving DecidableEq, Repr

/-- The goroutines, the locker they share, and the clock. -/
structure World where
  locker : addrLocker
  now : Int
  places : List Place
deriving DecidableEq, Repr

/-- One step of the world: goroutine `g` calls `WithLock` for `addr` (the part under the
mutex, then the first `select`, `ctxDone` telling whether it finds `ctx.Done()` closed);
goroutine `g`, at the second `select`, sends on the channel; goroutine `g`, at the second
`select`, takes `ctx.Done()`; the function of goroutine `g` returns and the goroutine
receives from the channel; or `d` nanoseconds pass and the timers due fire. -/
inductive Step where
  | call (g : Nat) (addr : Addr) (ctxDone : Bool)
  | send (g : Nat)
  | done (g : Nat)
  | ret (g : Nat)
  | sleep (d : Int)
deriving DecidableEq, Repr

/-- The world after a step; `none` when the step cannot be taken there. -/
def World.step (w : World) : Step → Option World
  | .call g addr ctxDone =>
    match w.places.get? g with
    | some .idle =>
      let (l, lock) := w.locker.lockFor w.now addr
      some { w with locker := l,
                    places := w.places.set g (if ctxDone then .left false
                                              else .waiting addr lock) }
    | _ => none
  | .send g =>
    match w.places.get? g with
    | some (.waiting addr lock) =>
      if w.locker.canSend lock.ch then
        some { w with locker := w.locker.send lock.ch,
                      places := w.places.set g (.inFn addr lock) }
      else none
    | _ => none
  | .done g =>
    match w.places.get? g with
    | some (.waiting _ _) => some { w with places := w.places.set g (.left false) }
    | _ => none
  | .ret g =>
    match w.places.get? g with
    | some (.inFn _ lock) =>
      some { w with locker := w.locker.receive lock.ch,
                    places := w.places.set g (.left true) }
    | _ => none
  | .sleep d =>
    if 0 ≤ d then
      some { w with now := w.now + d, locker := w.locker.expire (w.now + d) }
    else none

/-- The world after the steps, in order; `none` when one of them cannot be taken. -/
def World.run (w : World) : List Step → Option World
  | [] => some w
  | st :: rest =>
    match w.step st with
    | none => none
    | some w => w.run rest

/-- The world of `n` goroutines that have not called yet, around a new locker, at instant
0. -/
def World.start (deleteAfter : Int) (n : Nat) : World :=
  { locker := newAddrLocker deleteAfter, now := 0, places := List.replicate n .idle }

end server

/-! ## Values used by the tests of the repository -/

namespace storage

open time netip

/-- The address `192.168.0.1` of transfer_test.go. -/
def addr1 : Addr := .v4 [192, 168, 0, 1]

/-- The address `192.168.0.2` of transfer_test.go. -/
def addr2 : Addr := .v4 [192, 168, 0, 2]

/-- The address `192.168.0.3` of transfer_test.go. -/
def addr3 : Addr := .v4 [192, 168, 0, 3]

/-- A store with no transfer. -/
def emptyDB : dbConn := { transfer := [] }

/-- A transfer record with the given endpoints and amount, created at the project start. -/
def transferOf (id : UUID) (sender recipient : Addr) (amount : Int) : Transfer :=
  { Created := projectStarted, ID := id, Sender := sender, Recipient := recipient,
    Amount := amount }

end storage

/-! ## Facts about machine integers and time -/

theorem wrapInt64_of_isInt64 {x : Int} (h : isInt64 x) : wrapInt64 x = x := by
  unfold isInt64 minInt64 maxInt64 at h
  unfold wrapInt64
  omega

theorem wrapInt64_add_wrapInt64 (x y : Int) :
    wrapInt64 (x + wrapInt64 y) = wrapInt64 (x + y) := by
  unfold wrapInt64
  omega

theorem wrapInt64_wrapInt64_add (x y : Int) :
    wrapInt64 (wrapInt64 x + y) = wrapInt64 (x + y) := by
  unfold wrapInt64
  omega

theorem wrapInt64_wrapInt64_sub (x y : Int) :
    wrapInt64 (wrapInt64 x - y) = wrapInt64 (x - y) := by
  unfold wrapInt64
  omega

/-- The accumulator arithmetic of `addBalanceDiff` followed by the addition in `GetBalance`
is one reduction of the exact total. -/
theorem wrapInt64_balance (base credits debits : Int) :
    wrapInt64 (base + wrapInt64 (wrapInt64 (0 + credits) + wrapInt64 (-1 * debits)))
      = wrapInt64 (base + credits - debits) := by
  unfold wrapInt64
  omega

namespace time

theorem Hour_eq : Hour = 3600000000000 := by decide

/-- The project epoch 2025-08-10 21:00:00 UTC is 1754859600 seconds after 1970-01-01. -/
theorem Date_projectStarted : Date 2025 8 10 21 0 0 0 = ⟨1754859600 * Second⟩ := by decide

/-- The zero time 0001-01-01 00:00:00 UTC is 62135596800 seconds before 1970-01-01. -/
theorem Date_zero : Date 1 1 1 0 0 0 0 = ⟨zeroUnixNano⟩ := by decide

theorem Sub_isInt64 (t u : Time) : isInt64 (t.Sub u) := by
  simp only [Time.Sub, isInt64, minDuration, maxDuration, minInt64, maxInt64]
  split_ifs <;> omega

theorem Sub_mono {t1 t2 : Time} (u : Time) (h : t1.unixNano ≤ t2.unixNano) :
    t1.Sub u ≤ t2.Sub u := by
  simp only [Time.Sub, minDuration, maxDuration, minInt64, maxInt64]
  split_ifs <;> omega

end time

/-- Go's quotient rounds toward zero: it is the floor quotient for a dividend that is not
negative, and the negated floor quotient of the negated dividend otherwise. -/
theorem tdiv_Hour (d : Int) :
    Int.tdiv d time.Hour
      = if 0 ≤ d then d / 3600000000000 else -((-d) / 3600000000000) := by
  rw [time.Hour_eq]
  split_ifs with h
  · exact Int.tdiv_eq_ediv h (by decide)
  · have h2 : (0 : Int) ≤ -d := by omega
    have := Int.tdiv_eq_ediv h2 (show (0 : Int) ≤ 3600000000000 by decide)
    rw [Int.neg_tdiv] at this
    omega

/-! ## The balance engine -/

namespace storage

open time netip

theorem scanInt64_eq_ok {v w : Int} : scanInt64 v = .ok w ↔ isInt64 v ∧ w = v := by
  unfold scanInt64
  split_ifs with h
  · constructor
    · intro hv
      injection hv with hv
      exact ⟨h, hv.symm⟩
    · rintro ⟨-, rfl⟩
      rfl
  · constructor
    · intro hv
      cases hv
    · rintro ⟨h2, -⟩
      exact absurd h2 h

theorem addBalanceDiff_eq_ok {db : dbConn} {a : Addr} {v : Int} :
    addBalanceDiff db a 0 = .ok v ↔
      isInt64 (sumAmountWhereRecipient db a) ∧ isInt64 (sumAmountWhereSender db a) ∧
      v = wrapInt64 (wrapInt64 (0 + sumAmountWhereRecipient db a)
            + wrapInt64 (-1 * sumAmountWhereSender db a)) := by
  unfold addBalanceDiff scanInt64
  by_cases hc : isInt64 (sumAmountWhereRecipient db a) <;>
    by_cases hd : isInt64 (sumAmountWhereSender db a) <;>
    simp [hc, hd, eq_comm]

/-- When `GetBalance` succeeds: no connection fault, both sums fit an `int64`, and the value
is the reduction of baseline plus credits minus debits. -/
theorem GetBalance_eq_ok {db : dbConn} {a : Addr} {now : Time} {v : Int} :
    GetBalance db { Address := a, Now := now } = .ok v ↔
      db.batchFault = none ∧
      isInt64 (sumAmountWhereRecipient db a) ∧ isInt64 (sumAmountWhereSender db a) ∧
      v = wrapInt64 (BalanceUntouched now + sumAmountWhereRecipient db a
            - sumAmountWhereSender db a) := by
  unfold GetBalance
  cases hf : db.batchFault with
  | some msg => simp
  | none =>
    simp only [true_and]
    cases hd : addBalanceDiff db a 0 with
    | error err =>
      have := (@addBalanceDiff_eq_ok db a
        (wrapInt64 (wrapInt64 (0 + sumAmountWhereRecipient db a)
            + wrapInt64 (-1 * sumAmountWhereSender db a)))).not
      rw [hd] at this
      simp only [reduceCtorEq, not_false_eq_true, and_true, true_iff, not_and] at this
      simp only [reduceCtorEq, false_iff, not_and]
      intro h1 h2
      exact absurd h2 (this h1)
    | ok diff =>
      obtain ⟨h1, h2, h3⟩ := addBalanceDiff_eq_ok.mp hd
      simp only [Except.ok.injEq, h1, h2, true_and]
      rw [h3, wrapInt64_balance]
      exact eq_comm

end storage

namespace storage

open time netip

/-- C1 (counterexample): with one transfer of 9223372036854775807 to `addr2` and `now` one
hour after the project start, `GetBalance` of `addr2` returns -9223372036854775808 while
baseline plus credits minus debits is 9223372036854775808. -/
theorem GetBalance_wraps_on_overflow :
    GetBalance { transfer := [transferOf 1 addr1 addr2 9223372036854775807] }
        { Address := addr2, Now := projectStarted.Add Hour } = .ok (-9223372036854775808)
    ∧ BalanceUntouched (projectStarted.Add Hour)
        + sumAmountWhereRecipient
            { transfer := [transferOf 1 addr1 addr2 9223372036854775807] } addr2
        - sumAmountWhereSender
            { transfer := [transferOf 1 addr1 addr2 9223372036854775807] } addr2
      = 9223372036854775808 := by
  constructor
  · rfl
  · decide

/-- C1 (amended): whenever the store read succeeds, `GetBalance` returns the `int64`
reduction of `BalanceUntouched(now)` plus the amounts received minus the amounts sent, and
that number itself whenever it lies in the `int64` range. -/
theorem GetBalance_eq_baseline_plus_credits_minus_debits (db : dbConn) (a : Addr)
    (now : Time) (v : Int) (h : GetBalance db { Address := a, Now := now } = .ok v) :
    v = wrapInt64 (BalanceUntouched now + sumAmountWhereRecipient db a
          - sumAmountWhereSender db a)
    ∧ (isInt64 (BalanceUntouched now + sumAmountWhereRecipient db a
          - sumAmountWhereSender db a) →
        v = BalanceUntouched now + sumAmountWhereRecipient db a
          - sumAmountWhereSender db a) := by
  obtain ⟨-, -, -, hv⟩ := GetBalance_eq_ok.mp h
  refine ⟨hv, fun hfit => ?_⟩
  rw [hv, wrapInt64_of_isInt64 hfit]

/-- C1 (witness): after a transfer of 100 from `addr1` to `addr2`, five hours after the
project start the balance of `addr2` is 105. -/
theorem GetBalance_eq_baseline_plus_credits_minus_debits_witness :
    GetBalance { transfer := [transferOf 1 addr1 addr2 100] }
        { Address := addr2, Now := projectStarted.Add (5 * Hour) } = .ok 105
    ∧ (105 : Int) = wrapInt64 (BalanceUntouched (projectStarted.Add (5 * Hour))
          + sumAmountWhereRecipient { transfer := [transferOf 1 addr1 addr2 100] } addr2
          - sumAmountWhereSender { transfer := [transferOf 1 addr1 addr2 100] } addr2)
    ∧ (isInt64 (BalanceUntouched (projectStarted.Add (5 * Hour))
          + sumAmountWhereRecipient { transfer := [transferOf 1 addr1 addr2 100] } addr2
          - sumAmountWhereSender { transfer := [transferOf 1 addr1 addr2 100] } addr2) →
        (105 : Int) = BalanceUntouched (projectStarted.Add (5 * Hour))
          + sumAmountWhereRecipient { transfer := [transferOf 1 addr1 addr2 100] } addr2
          - sumAmountWhereSender { transfer := [transferOf 1 addr1 addr2 100] } addr2) :=
  ⟨rfl, GetBalance_eq_baseline_plus_credits_minus_debits _ _ _ _ rfl⟩

end storage

/-! ## Transfers at the storage layer -/

namespace storage

open time netip

/-- The record `CreateTransfer` inserts for a request. -/
theorem CreateTransfer_eq_ok {db : dbConn} {id : UUID} {request : CreateTransferRequest}
    {response : CreateTransferResponse} :
    (CreateTransfer db id request).1 = .ok response ↔
      ∃ balance, GetBalance db { Address := request.Sender, Now := request.Now } = .ok balance
        ∧ 0 ≤ wrapInt64 (balance - request.Amount)
        ∧ db.execFault
            { Created := request.Now, ID := id, Sender := request.Sender,
              Recipient := request.Recipient, Amount := request.Amount } = none
        ∧ response =
            { Transfer := { Created := request.Now, ID := id, Sender := request.Sender,
                            Recipient := request.Recipient, Amount := request.Amount },
              SenderBalance := wrapInt64 (balance - request.Amount) } := by
  unfold CreateTransfer
  cases hb : GetBalance db { Address := request.Sender, Now := request.Now } with
  | error err => simp
  | ok balance =>
    simp only [Except.ok.injEq, exists_eq_left']
    by_cases hneg : wrapInt64 (balance - request.Amount) < 0
    · simp only [hneg, if_true]
      constructor
      · intro h
        cases h
      · rintro ⟨h, -⟩
        omega
    · simp only [hneg, if_false]
      cases hx : db.execFault
          { Created := request.Now, ID := id, Sender := request.Sender,
              Recipient := request.Recipient, Amount := request.Amount } with
      | some msg => simp
      | none =>
        simp only [Except.ok.injEq, true_and]
        constructor
        · intro h
          exact ⟨by omega, h.symm⟩
        · rintro ⟨-, h⟩
          exact h.symm

/-- A successful `CreateTransfer` appends exactly the returned record. -/
theorem CreateTransfer_db_of_ok {db : dbConn} {id : UUID} {request : CreateTransferRequest}
    {response : CreateTransferResponse}
    (h : (CreateTransfer db id request).1 = .ok response) :
    (CreateTransfer db id request).2
      = { db with transfer := db.transfer ++ [response.Transfer] } := by
  unfold CreateTransfer at h ⊢
  cases hb : GetBalance db { Address := request.Sender, Now := request.Now } with
  | error err => rw [hb] at h; cases h
  | ok balance =>
    rw [hb] at h
    simp only at h ⊢
    by_cases hneg : wrapInt64 (balance - request.Amount) < 0
    · simp only [hneg, if_true] at h
      cases h
    · simp only [hneg, if_false] at h ⊢
      cases hx : db.execFault
          { Created := request.Now, ID := id, Sender := request.Sender,
              Recipient := request.Recipient, Amount := request.Amount } with
      | some msg => rw [hx] at h; cases h
      | none =>
        rw [hx] at h
        simp only [Except.ok.injEq] at h
        subst h
        rfl

/-- Where the subtraction `balance - amount` does not leave the `int64` range,
`CreateTransfer` rejects exactly the amounts above the balance: such a request fails with
an error wrapping `ErrInsufficientBalance` and appends nothing, and any other request
appends exactly one record when the insert statement succeeds. -/
theorem CreateTransfer_of_isInt64_sub {db : dbConn} {id : UUID}
    {request : CreateTransferRequest} {balance : Int}
    (hb : GetBalance db { Address := request.Sender, Now := request.Now } = .ok balance)
    (hfit : isInt64 (balance - request.Amount)) :
    (balance < request.Amount →
      (∃ err, (CreateTransfer db id request).1 = .error err
          ∧ errors.Is err .ErrInsufficientBalance = true)
        ∧ (CreateTransfer db id request).2 = db)
    ∧ (request.Amount ≤ balance →
        db.execFault
            { Created := request.Now, ID := id, Sender := request.Sender,
              Recipient := request.Recipient, Amount := request.Amount } = none →
      (CreateTransfer db id request).1
          = .ok { Transfer := { Created := request.Now, ID := id, Sender := request.Sender,
                                Recipient := request.Recipient, Amount := request.Amount },
                  SenderBalance := balance - request.Amount }
        ∧ (CreateTransfer db id request).2
          = { db with transfer := db.transfer ++
                [{ Created := request.Now, ID := id, Sender := request.Sender,
                   Recipient := request.Recipient, Amount := request.Amount }] }) := by
  have hw := wrapInt64_of_isInt64 hfit
  constructor
  · intro hlt
    have hneg : wrapInt64 (balance - request.Amount) < 0 := by rw [hw]; omega
    unfold CreateTransfer
    rw [hb]
    simp only [hneg, if_true]
    exact ⟨⟨_, rfl, by decide⟩, trivial⟩
  · intro hle hx
    have hnn : ¬ balance - request.Amount < 0 := by omega
    unfold CreateTransfer
    rw [hb]
    simp only [hw, hnn, if_false, hx, and_self]

end storage

namespace storage

open time netip

theorem sumAmountWhereRecipient_append (db : dbConn) (row : Transfer) (a : Addr) :
    sumAmountWhereRecipient { db with transfer := db.transfer ++ [row] } a
      = sumAmountWhereRecipient db a + (if row.Recipient = a then row.Amount else 0) := by
  unfold sumAmountWhereRecipient
  by_cases h : row.Recipient = a <;>
    simp [List.filter_append, List.filter_cons, h]

theorem sumAmountWhereSender_append (db : dbConn) (row : Transfer) (a : Addr) :
    sumAmountWhereSender { db with transfer := db.transfer ++ [row] } a
      = sumAmountWhereSender db a + (if row.Sender = a then row.Amount else 0) := by
  unfold sumAmountWhereSender
  by_cases h : row.Sender = a <;>
    simp [List.filter_append, List.filter_cons, h]

/-- C2 (failing input): on an empty ledger, two hours before the project start, the balance
of `addr3` is -2; a transfer of 9223372036854775807 from `addr3` exceeds it, yet
`CreateTransfer` returns no error and appends the record, because the `int64` subtraction
`balance - amount` wraps around to 9223372036854775807. -/
theorem CreateTransfer_commits_above_balance :
    GetBalance emptyDB { Address := addr3, Now := projectStarted.Add (-2 * Hour) } = .ok (-2)
    ∧ (-2 : Int) < 9223372036854775807
    ∧ CreateTransfer emptyDB 7
        { Amount := 9223372036854775807, Sender := addr3,
          Now := projectStarted.Add (-2 * Hour), Recipient := addr1 }
      = (.ok { Transfer := { Created := projectStarted.Add (-2 * Hour), ID := 7,
                             Sender := addr3, Recipient := addr1,
                             Amount := 9223372036854775807 },
               SenderBalance := 9223372036854775807 },
         { transfer := [{ Created := projectStarted.Add (-2 * Hour), ID := 7,
                          Sender := addr3, Recipient := addr1,
                          Amount := 9223372036854775807 }] }) := by
  refine ⟨rfl, by decide, rfl⟩

/-- C3 (failing input): on an empty ledger, two hours before the project start, the
sender's balance is -2 and the amount is 9223372036854775807, so balance minus amount is
-9223372036854775809; `CreateTransfer` succeeds and returns the sender balance
9223372036854775807. -/
theorem CreateTransfer_SenderBalance_wraps :
    GetBalance emptyDB { Address := addr3, Now := projectStarted.Add (-2 * Hour) } = .ok (-2)
    ∧ (-2 : Int) - 9223372036854775807 = -9223372036854775809
    ∧ ((CreateTransfer emptyDB 7
          { Amount := 9223372036854775807, Sender := addr3,
            Now := projectStarted.Add (-2 * Hour), Recipient := addr1 }).1.map
        CreateTransferResponse.SenderBalance) = .ok 9223372036854775807 := by
  refine ⟨rfl, by decide, rfl⟩

end storage

namespace storage

open time netip

/-- C4 (counterexample): `addr2` has received 9223372036854775806 and one hour after the
project start its balance is 9223372036854775807; a transfer of 1 from `addr1` to `addr2`
succeeds, and on the new ledger the balance of `addr2` is -9223372036854775808, not its
old value plus 1. -/
theorem CreateTransfer_recipient_balance_wraps :
    GetBalance { transfer := [transferOf 1 addr3 addr2 9223372036854775806] }
        { Address := addr2, Now := projectStarted.Add Hour } = .ok 9223372036854775807
    ∧ (CreateTransfer { transfer := [transferOf 1 addr3 addr2 9223372036854775806] } 2
        { Amount := 1, Sender := addr1, Now := projectStarted.Add Hour,
          Recipient := addr2 }).1
      = .ok { Transfer := { Created := projectStarted.Add Hour, ID := 2, Sender := addr1,
                            Recipient := addr2, Amount := 1 },
              SenderBalance := 0 }
    ∧ GetBalance
        (CreateTransfer { transfer := [transferOf 1 addr3 addr2 9223372036854775806] } 2
          { Amount := 1, Sender := addr1, Now := projectStarted.Add Hour,
            Recipient := addr2 }).2
        { Address := addr2, Now := projectStarted.Add Hour } = .ok (-9223372036854775808)
    ∧ (9223372036854775807 : Int) + 1 ≠ -9223372036854775808 := by
  refine ⟨rfl, rfl, rfl, by decide⟩

/-- C4 (amended): after a successful `CreateTransfer` of amount n from sender B to a
different recipient A at time now, every balance read that succeeds on the new ledger
gives: for A the old value plus n reduced into the `int64` range, which is the old value
plus exactly n whenever that lies in the range; for B the old value minus n reduced into
the range, which is the old value minus exactly n whenever that lies in the range; and
`GetBalance` of every third address returns what it returned before. -/
theorem CreateTransfer_moves_amount (db : dbConn) (id : UUID)
    (request : CreateTransferRequest) (response : CreateTransferResponse)
    (balanceA balanceB : Int)
    (hne : request.Sender ≠ request.Recipient)
    (hok : (CreateTransfer db id request).1 = .ok response)
    (hA : GetBalance db { Address := request.Recipient, Now := request.Now } = .ok balanceA)
    (hB : GetBalance db { Address := request.Sender, Now := request.Now } = .ok balanceB) :
    (∀ v, GetBalance (CreateTransfer db id request).2
              { Address := request.Recipient, Now := request.Now } = .ok v →
        v = wrapInt64 (balanceA + request.Amount)
        ∧ (isInt64 (balanceA + request.Amount) → v = balanceA + request.Amount))
    ∧ (∀ v, GetBalance (CreateTransfer db id request).2
              { Address := request.Sender, Now := request.Now } = .ok v →
        v = wrapInt64 (balanceB - request.Amount)
        ∧ (isInt64 (balanceB - request.Amount) → v = balanceB - request.Amount))
    ∧ (∀ c, c ≠ request.Sender → c ≠ request.Recipient →
        GetBalance (CreateTransfer db id request).2 { Address := c, Now := request.Now }
          = GetBalance db { Address := c, Now := request.Now }) := by
  have hdb := CreateTransfer_db_of_ok hok
  obtain ⟨b, -, -, -, hresp⟩ := CreateTransfer_eq_ok.mp hok
  subst hresp
  simp only at hdb
  obtain ⟨-, -, -, hbalA⟩ := GetBalance_eq_ok.mp hA
  obtain ⟨-, -, -, hbalB⟩ := GetBalance_eq_ok.mp hB
  rw [hdb]
  refine ⟨?_, ?_, ?_⟩
  · intro v hv
    obtain ⟨-, -, -, hv⟩ := GetBalance_eq_ok.mp hv
    rw [sumAmountWhereRecipient_append, sumAmountWhereSender_append] at hv
    simp only [if_true, if_neg hne] at hv
    have hw : v = wrapInt64 (balanceA + request.Amount) := by
      rw [hv, hbalA, wrapInt64_wrapInt64_add]
      congr 1
      omega
    exact ⟨hw, fun hfit => by rw [hw, wrapInt64_of_isInt64 hfit]⟩
  · intro v hv
    obtain ⟨-, -, -, hv⟩ := GetBalance_eq_ok.mp hv
    rw [sumAmountWhereRecipient_append, sumAmountWhereSender_append] at hv
    simp only [if_true, if_neg (Ne.symm hne)] at hv
    have hw : v = wrapInt64 (balanceB - request.Amount) := by
      rw [hv, hbalB, wrapInt64_wrapInt64_sub]
      congr 1
      omega
    exact ⟨hw, fun hfit => by rw [hw, wrapInt64_of_isInt64 hfit]⟩
  · intro c hcs hcr
    unfold GetBalance addBalanceDiff
    rw [sumAmountWhereRecipient_append, sumAmountWhereSender_append]
    simp only [if_neg (Ne.symm hcs), if_neg (Ne.symm hcr), add_zero]

/-- C4 (witness): the transfer of 100 from `addr1` to `addr2` of transfer_test.go, made 200
hours after the project start on an empty ledger. -/
theorem CreateTransfer_moves_amount_witness :
    (∀ v, GetBalance (CreateTransfer emptyDB 1
              { Amount := 100, Sender := addr1, Now := projectStarted.Add (200 * Hour),
                Recipient := addr2 }).2
            { Address := addr2, Now := projectStarted.Add (200 * Hour) } = .ok v →
        v = wrapInt64 (200 + 100) ∧ (isInt64 (200 + 100) → v = 200 + 100))
    ∧ (∀ v, GetBalance (CreateTransfer emptyDB 1
              { Amount := 100, Sender := addr1, Now := projectStarted.Add (200 * Hour),
                Recipient := addr2 }).2
            { Address := addr1, Now := projectStarted.Add (200 * Hour) } = .ok v →
        v = wrapInt64 (200 - 100) ∧ (isInt64 (200 - 100) → v = 200 - 100))
    ∧ (∀ c, c ≠ addr1 → c ≠ addr2 →
        GetBalance (CreateTransfer emptyDB 1
              { Amount := 100, Sender := addr1, Now := projectStarted.Add (200 * Hour),
                Recipient := addr2 }).2
            { Address := c, Now := projectStarted.Add (200 * Hour) }
          = GetBalance emptyDB { Address := c, Now := projectStarted.Add (200 * Hour) }) :=
  CreateTransfer_moves_amount emptyDB 1
    { Amount := 100, Sender := addr1, Now := projectStarted.Add (200 * Hour),
      Recipient := addr2 }
    { Transfer := { Created := projectStarted.Add (200 * Hour), ID := 1, Sender := addr1,
                    Recipient := addr2, Amount := 100 },
      SenderBalance := 100 }
    200 200 (by decide) rfl rfl rfl

end storage

/-! ## Addresses without ledger activity -/

namespace storage

open time netip

theorem sumAmountWhereRecipient_untouched {db : dbConn} {a : Addr}
    (h : ∀ t ∈ db.transfer, t.Sender ≠ a ∧ t.Recipient ≠ a) :
    sumAmountWhereRecipient db a = 0 := by
  unfold sumAmountWhereRecipient
  have : db.transfer.filter (fun t => decide (t.Recipient = a)) = [] := by
    rw [List.filter_eq_nil_iff]
    intro t ht
    simpa using (h t ht).2
  rw [this]
  rfl

theorem sumAmountWhereSender_untouched {db : dbConn} {a : Addr}
    (h : ∀ t ∈ db.transfer, t.Sender ≠ a ∧ t.Recipient ≠ a) :
    sumAmountWhereSender db a = 0 := by
  unfold sumAmountWhereSender
  have : db.transfer.filter (fun t => decide (t.Sender = a)) = [] := by
    rw [List.filter_eq_nil_iff]
    intro t ht
    simpa using (h t ht).1
  rw [this]
  rfl

/-- The baseline is between -2562047 and 2562047, the hours in the least and the greatest
duration. -/
theorem BalanceUntouched_bounds (now : Time) :
    -2562047 ≤ BalanceUntouched now ∧ BalanceUntouched now ≤ 2562047 := by
  unfold BalanceUntouched
  rw [tdiv_Hour]
  have h := Sub_isInt64 now projectStarted
  unfold isInt64 minInt64 maxInt64 at h
  split_ifs <;> omega

theorem isInt64_BalanceUntouched (now : Time) : isInt64 (BalanceUntouched now) := by
  have h := BalanceUntouched_bounds now
  unfold isInt64 minInt64 maxInt64
  omega

/-- The balance of an address without ledger activity is the baseline, whenever the
connection works. -/
theorem GetBalance_of_untouched {db : dbConn} {a : Addr} (now : Time)
    (h : ∀ t ∈ db.transfer, t.Sender ≠ a ∧ t.Recipient ≠ a)
    (hf : db.batchFault = none) :
    GetBalance db { Address := a, Now := now } = .ok (BalanceUntouched now) := by
  rw [GetBalance_eq_ok, sumAmountWhereRecipient_untouched h,
    sumAmountWhereSender_untouched h]
  refine ⟨hf, by decide, by decide, ?_⟩
  rw [add_zero, sub_zero, wrapInt64_of_isInt64 (isInt64_BalanceUntouched now)]

/-- C7: for an address that occurs in no transfer, `GetBalance` returns
`BalanceUntouched(now)` (it succeeds whenever the connection works, and every value it
returns is the baseline); hence the difference of its balances at two instants is the
difference of the baselines, and any other such address has the same balance at the same
instant. -/
theorem GetBalance_untouched_eq_BalanceUntouched (db : dbConn) (a : Addr) (now : Time)
    (h : ∀ t ∈ db.transfer, t.Sender ≠ a ∧ t.Recipient ≠ a) :
    (db.batchFault = none →
      GetBalance db { Address := a, Now := now } = .ok (BalanceUntouched now))
    ∧ (∀ v, GetBalance db { Address := a, Now := now } = .ok v → v = BalanceUntouched now)
    ∧ (∀ t1 t2 v1 v2, t1.unixNano < t2.unixNano →
        GetBalance db { Address := a, Now := t1 } = .ok v1 →
        GetBalance db { Address := a, Now := t2 } = .ok v2 →
        v2 - v1 = BalanceUntouched t2 - BalanceUntouched t1)
    ∧ (∀ b, (∀ t ∈ db.transfer, t.Sender ≠ b ∧ t.Recipient ≠ b) →
        GetBalance db { Address := a, Now := now }
          = GetBalance db { Address := b, Now := now }) := by
  have key : ∀ (c : Addr) (t : Time) (v : Int),
      (∀ r ∈ db.transfer, r.Sender ≠ c ∧ r.Recipient ≠ c) →
      GetBalance db { Address := c, Now := t } = .ok v → v = BalanceUntouched t := by
    intro c t v hc hv
    obtain ⟨hf, -, -, -⟩ := GetBalance_eq_ok.mp hv
    rw [GetBalance_of_untouched t hc hf] at hv
    injection hv with hv
    exact hv.symm
  refine ⟨GetBalance_of_untouched now h, fun v hv => key a now v h hv, ?_, ?_⟩
  · intro t1 t2 v1 v2 _ h1 h2
    rw [key a t1 v1 h h1, key a t2 v2 h h2]
  · intro b hb
    cases hf : db.batchFault with
    | none => rw [GetBalance_of_untouched now h hf, GetBalance_of_untouched now hb hf]
    | some msg =>
      unfold GetBalance
      rw [hf]

/-- C7 (witness): `addr3` takes no part in the transfer from `addr1` to `addr2`; five
hours after the project start its balance is 5. -/
theorem GetBalance_untouched_eq_BalanceUntouched_witness :
    GetBalance { transfer := [transferOf 1 addr1 addr2 100] }
        { Address := addr3, Now := projectStarted.Add (5 * Hour) } = .ok 5
    ∧ BalanceUntouched (projectStarted.Add (5 * Hour)) = 5 :=
  ⟨((GetBalance_untouched_eq_BalanceUntouched
      { transfer := [transferOf 1 addr1 addr2 100] } addr3 (projectStarted.Add (5 * Hour))
      (by decide)).1 rfl).trans rfl, by decide⟩

end storage

/-! ## The baseline grant -/

namespace storage

open time netip

/-- C8 (counterexample): thirty minutes before the project epoch the floor of the hours
elapsed since the epoch is -1, and `BalanceUntouched` is 0. -/
theorem BalanceUntouched_before_epoch_not_floor :
    BalanceUntouched (projectStarted.Add (-30 * Minute)) = 0
    ∧ Int.fdiv ((projectStarted.Add (-30 * Minute)).unixNano - projectStarted.unixNano) Hour
        = -1 := by
  constructor <;> decide

/-- C8 (amended): for a time at or after the project epoch and at most the largest
duration after it, `BalanceUntouched(now)` is the floor of the hours elapsed since the
epoch; for a time before the epoch and at most the largest duration before it, it is the
number of hours rounded toward zero, that is minus the floor of the hours from now to the
epoch; it is 0 at the epoch and 5 five hours later. -/
theorem BalanceUntouched_eq_hours (now : Time) :
    (0 ≤ now.unixNano - projectStarted.unixNano →
      now.unixNano - projectStarted.unixNano ≤ maxDuration →
      BalanceUntouched now = Int.fdiv (now.unixNano - projectStarted.unixNano) Hour)
    ∧ (now.unixNano - projectStarted.unixNano < 0 →
      minDuration ≤ now.unixNano - projectStarted.unixNano →
      BalanceUntouched now = -Int.fdiv (projectStarted.unixNano - now.unixNano) Hour)
    ∧ BalanceUntouched projectStarted = 0
    ∧ BalanceUntouched (projectStarted.Add (5 * Hour)) = 5 := by
  have hfloor : ∀ d : Int, Int.fdiv d Hour = d / 3600000000000 := by
    intro d
    rw [Hour_eq]
    exact Int.fdiv_eq_ediv d (by decide)
  refine ⟨?_, ?_, by decide, by decide⟩
  · intro h0 hmax
    unfold BalanceUntouched
    rw [tdiv_Hour, hfloor]
    simp only [Time.Sub, minDuration, maxDuration, minInt64, maxInt64] at hmax ⊢
    split_ifs <;> omega
  · intro hneg hmin
    unfold BalanceUntouched
    rw [tdiv_Hour, hfloor]
    simp only [Time.Sub, minDuration, maxDuration, minInt64, maxInt64] at hmin ⊢
    split_ifs <;> omega

/-- C8 (witness): five and a half hours after the epoch the baseline is 5. -/
theorem BalanceUntouched_eq_hours_witness :
    BalanceUntouched (projectStarted.Add (5 * Hour + 30 * Minute))
      = Int.fdiv ((projectStarted.Add (5 * Hour + 30 * Minute)).unixNano
          - projectStarted.unixNano) Hour
    ∧ Int.fdiv ((projectStarted.Add (5 * Hour + 30 * Minute)).unixNano
          - projectStarted.unixNano) Hour = 5 :=
  ⟨(BalanceUntouched_eq_hours (projectStarted.Add (5 * Hour + 30 * Minute))).1
      (by decide) (by decide), by decide⟩

/-- C9: `BalanceUntouched` is monotonically non-decreasing in time. -/
theorem BalanceUntouched_mono (t1 t2 : Time) (h : t1.unixNano ≤ t2.unixNano) :
    BalanceUntouched t1 ≤ BalanceUntouched t2 := by
  unfold BalanceUntouched
  have hs := Sub_mono projectStarted h
  rw [tdiv_Hour, tdiv_Hour]
  split_ifs <;> omega

/-- C9 (witness): from half an hour before the epoch to an hour and a half after it the
baseline goes from 0 to 1. -/
theorem BalanceUntouched_mono_witness :
    (projectStarted.Add (-30 * Minute)).unixNano ≤ (projectStarted.Add (90 * Minute)).unixNano
    ∧ BalanceUntouched (projectStarted.Add (-30 * Minute))
        ≤ BalanceUntouched (projectStarted.Add (90 * Minute)) :=
  ⟨by decide, BalanceUntouched_mono _ _ (by decide)⟩

end storage

/-! ## Conservation -/

namespace storage

open time netip

/-- Summing, over a duplicate-free list of keys that contains every key of the rows, the
amounts of the rows with that key gives the total of all amounts. -/
theorem sum_amounts_by_key (key : Transfer → Addr) (rows : List Transfer)
    (addrs : List Addr) (hnodup : addrs.Nodup) (hmem : ∀ t ∈ rows, key t ∈ addrs) :
    (addrs.map (fun a =>
        ((rows.filter (fun t => decide (key t = a))).map Transfer.Amount).sum)).sum
      = (rows.map Transfer.Amount).sum := by
  induction rows with
  | nil => simp
  | cons t rows ih =>
    have ih2 := ih (fun r hr => hmem r (List.mem_cons_of_mem _ hr))
    have ht : key t ∈ addrs := hmem t (List.mem_cons_self _ _)
    have hsplit : ∀ a : Addr,
        (((t :: rows).filter (fun r => decide (key r = a))).map Transfer.Amount).sum
          = (if key t = a then t.Amount else 0)
            + ((rows.filter (fun r => decide (key r = a))).map Transfer.Amount).sum := by
      intro a
      by_cases h : key t = a <;> simp [List.filter_cons, h]
    simp only [hsplit, List.sum_map_add, List.map_cons, List.sum_cons, ih2]
    congr 1
    rw [← List.sum_toFinset _ hnodup, Finset.sum_ite_eq]
    simp [ht]

theorem sum_map_sub_eq (f g : Addr → Int) (addrs : List Addr) :
    (addrs.map (fun a => f a - g a)).sum = (addrs.map f).sum - (addrs.map g).sum := by
  induction addrs with
  | nil => simp
  | cons a addrs ih =>
    simp only [List.map_cons, List.sum_cons, ih]
    omega

theorem sum_sumAmountWhereRecipient (db : dbConn) (addrs : List Addr)
    (hnodup : addrs.Nodup) (hmem : ∀ t ∈ db.transfer, t.Recipient ∈ addrs) :
    (addrs.map (sumAmountWhereRecipient db)).sum = (db.transfer.map Transfer.Amount).sum :=
  sum_amounts_by_key Transfer.Recipient db.transfer addrs hnodup hmem

theorem sum_sumAmountWhereSender (db : dbConn) (addrs : List Addr)
    (hnodup : addrs.Nodup) (hmem : ∀ t ∈ db.transfer, t.Sender ∈ addrs) :
    (addrs.map (sumAmountWhereSender db)).sum = (db.transfer.map Transfer.Amount).sum :=
  sum_amounts_by_key Transfer.Sender db.transfer addrs hnodup hmem

/-- Over any list of addresses whose balance reads succeed, the sum of balance minus
baseline differs from the sum of credits minus debits by a multiple of 2^64, and not at all
when no balance leaves the `int64` range. -/
theorem sum_balance_minus_baseline (db : dbConn) (now : Time) (bal : Addr → Int)
    (addrs : List Addr)
    (hread : ∀ a ∈ addrs, GetBalance db { Address := a, Now := now } = .ok (bal a)) :
    (∃ k : Int, (addrs.map (fun a => bal a - BalanceUntouched now)).sum
        = (addrs.map (fun a => sumAmountWhereRecipient db a - sumAmountWhereSender db a)).sum
          + 18446744073709551616 * k)
    ∧ ((∀ a ∈ addrs, isInt64 (BalanceUntouched now + sumAmountWhereRecipient db a
            - sumAmountWhereSender db a)) →
        (addrs.map (fun a => bal a - BalanceUntouched now)).sum
          = (addrs.map (fun a =>
              sumAmountWhereRecipient db a - sumAmountWhereSender db a)).sum) := by
  induction addrs with
  | nil => exact ⟨⟨0, by simp⟩, fun _ => rfl⟩
  | cons a addrs ih =>
    obtain ⟨⟨k, hk⟩, hexact⟩ := ih (fun c hc => hread c (List.mem_cons_of_mem _ hc))
    obtain ⟨-, -, -, ha⟩ := GetBalance_eq_ok.mp (hread a (List.mem_cons_self _ _))
    constructor
    · refine ⟨k + (BalanceUntouched now + sumAmountWhereRecipient db a
          - sumAmountWhereSender db a + 9223372036854775808) / 18446744073709551616 * (-1), ?_⟩
      simp only [List.map_cons, List.sum_cons, hk, ha]
      unfold wrapInt64
      omega
    · intro hfit
      have h1 := hexact (fun c hc => hfit c (List.mem_cons_of_mem _ hc))
      have h2 := wrapInt64_of_isInt64 (hfit a (List.mem_cons_self _ _))
      simp only [List.map_cons, List.sum_cons, h1, ha, h2]
      omega

/-- C6 (counterexample): with one transfer of 9223372036854775807 from `addr1` to `addr2`
and `now` one hour after the project start, the balances are -9223372036854775806 and
-9223372036854775808, and the sum of balance minus baseline over the two addresses is
-18446744073709551616. -/
theorem balance_sum_wraps_on_overflow :
    GetBalance { transfer := [transferOf 1 addr1 addr2 9223372036854775807] }
        { Address := addr1, Now := projectStarted.Add Hour } = .ok (-9223372036854775806)
    ∧ GetBalance { transfer := [transferOf 1 addr1 addr2 9223372036854775807] }
        { Address := addr2, Now := projectStarted.Add Hour } = .ok (-9223372036854775808)
    ∧ BalanceUntouched (projectStarted.Add Hour) = 1
    ∧ ((-9223372036854775806 : Int) - 1) + ((-9223372036854775808 : Int) - 1)
        = -18446744073709551616 := by
  refine ⟨rfl, rfl, by decide, by decide⟩

/-- C6 (amended): for every ledger, every time now and every duplicate-free list of
addresses that contains all senders and recipients of the ledger and whose balance reads
succeed, the sum of `GetBalance(addr, now) - BalanceUntouched(now)` is a multiple of 2^64,
and it is 0 whenever no balance (baseline plus credits minus debits) leaves the `int64`
range. -/
theorem balance_minus_baseline_sum_zero (db : dbConn) (now : Time) (bal : Addr → Int) (addrs : List Addr)
    (hnodup : addrs.Nodup)
    (hmem : ∀ t ∈ db.transfer, t.Sender ∈ addrs ∧ t.Recipient ∈ addrs)
    (hread : ∀ a ∈ addrs, GetBalance db { Address := a, Now := now } = .ok (bal a)) :
    (∃ k : Int, (addrs.map (fun a => bal a - BalanceUntouched now)).sum
        = 18446744073709551616 * k)
    ∧ ((∀ a ∈ addrs, isInt64 (BalanceUntouched now + sumAmountWhereRecipient db a
            - sumAmountWhereSender db a)) →
        (addrs.map (fun a => bal a - BalanceUntouched now)).sum = 0) := by
  have hzero : (addrs.map (fun a =>
      sumAmountWhereRecipient db a - sumAmountWhereSender db a)).sum = 0 := by
    rw [sum_map_sub_eq, sum_sumAmountWhereRecipient db addrs hnodup (fun t ht => (hmem t ht).2),
      sum_sumAmountWhereSender db addrs hnodup (fun t ht => (hmem t ht).1), sub_self]
  obtain ⟨⟨k, hk⟩, hexact⟩ := sum_balance_minus_baseline db now bal addrs hread
  rw [hzero] at hk hexact
  exact ⟨⟨k, by rw [hk, zero_add]⟩, hexact⟩

end storage

namespace storage

open time netip

/-- C6 (witness): after the transfer of 100 from `addr1` to `addr2`, five hours after the
project start the balances are -95 and 105 and the baseline is 5: the differences add up
to 0. -/
theorem balance_minus_baseline_sum_zero_witness :
    ([addr1, addr2].map (fun a =>
        (if a = addr1 then (-95 : Int) else 105)
          - BalanceUntouched (projectStarted.Add (5 * Hour)))).sum = 0 :=
  (balance_minus_baseline_sum_zero { transfer := [transferOf 1 addr1 addr2 100] }
      (projectStarted.Add (5 * Hour)) (fun a => if a = addr1 then (-95 : Int) else 105)
      [addr1, addr2] (by decide) (by decide)
      (by
        intro a ha
        simp only [List.mem_cons, List.mem_singleton, List.not_mem_nil, or_false] at ha
        rcases ha with rfl | rfl <;> rfl)).2
    (by decide)

end storage

/-! ## The transfer handler -/

namespace storage

open time netip

/-- A transfer of baseline plus one from an address without ledger activity: the call
fails and leaves the store as it was, and when the connection works the error is the one
wrapping `ErrInsufficientBalance`. -/
theorem CreateTransfer_baseline_plus_one {db : dbConn} (id : UUID) {sender : Addr}
    (recipient : Addr) (now : Time)
    (h : ∀ t ∈ db.transfer, t.Sender ≠ sender ∧ t.Recipient ≠ sender) :
    (∃ err, CreateTransfer db id
        { Amount := BalanceUntouched now + 1, Sender := sender, Now := now,
          Recipient := recipient } = (.error err, db))
    ∧ (db.batchFault = none →
        CreateTransfer db id
          { Amount := BalanceUntouched now + 1, Sender := sender, Now := now,
            Recipient := recipient }
        = (.error (.Errorf "cannot complete transfer" .ErrInsufficientBalance), db)) := by
  have hno : db.batchFault = none →
      CreateTransfer db id
          { Amount := BalanceUntouched now + 1, Sender := sender, Now := now,
            Recipient := recipient }
        = (.error (.Errorf "cannot complete transfer" .ErrInsufficientBalance), db) := by
    intro hf
    unfold CreateTransfer
    simp only [GetBalance_of_untouched now h hf]
    have : wrapInt64 (BalanceUntouched now - (BalanceUntouched now + 1)) = -1 := by
      have : BalanceUntouched now - (BalanceUntouched now + 1) = -1 := by omega
      rw [this]
      decide
    simp only [this]
    rfl
  refine ⟨?_, hno⟩
  cases hf : db.batchFault with
  | none => exact ⟨_, hno hf⟩
  | some msg =>
    unfold CreateTransfer GetBalance
    simp only [hf]
    exact ⟨_, rfl⟩

end storage

namespace server

open netip

/-- C10: a request whose amount is below 1, or whose recipient bytes are neither 4 nor 16
long (nil included), gets `InvalidArgument` from `CreateTransfer` whatever the context (so
also without any peer), with the store unchanged and before any collaborator is called;
a request with a valid amount and recipient but no peer gets `Unauthenticated`. -/
theorem CreateTransfer_validates_before_peer (im : Imports) (s : server) (run : Run)
    (ctx : Context) (request : proto.CreateTransferRequest) :
    ((request.Amount < 1 ∨
        (request.RecipientAddress.length ≠ 4 ∧ request.RecipientAddress.length ≠ 16)) →
      (∃ msg, (CreateTransfer im s run ctx request).result
          = .error (status.Error .InvalidArgument msg))
      ∧ (CreateTransfer im s run ctx request).pool = s.pool
      ∧ (CreateTransfer im s run ctx request).calls = [])
    ∧ (1 ≤ request.Amount →
        (request.RecipientAddress.length = 4 ∨ request.RecipientAddress.length = 16) →
        ctx.peer = none → ctx.testingPeer = none →
      (CreateTransfer im s run ctx request).result
          = .error (status.Error .Unauthenticated "no peer or metadata")
      ∧ (CreateTransfer im s run ctx request).pool = s.pool) := by
  constructor
  · intro h
    unfold CreateTransfer
    by_cases ha : request.Amount < 1
    · simp only [ha, if_true]
      refine ⟨⟨_, rfl⟩, ?_, ?_⟩ <;> trivial
    · have hl := h.resolve_left ha
      simp only [ha, if_false, hl.1, hl.2]
      refine ⟨⟨_, rfl⟩, ?_, ?_⟩ <;> trivial
  · intro ha hl hp ht
    have ha2 : ¬ request.Amount < 1 := by omega
    have hpeer : getPeer im s ctx
        = .error (status.Error .Unauthenticated "no peer or metadata") := by
      unfold getPeer
      simp only [hp, ht]
    unfold CreateTransfer
    rcases hl with hl | hl
    · simp only [ha2, if_false, hl, if_true, hpeer]
      constructor <;> trivial
    · have h4 : ¬ request.RecipientAddress.length = 4 := by omega
      simp only [ha2, if_false, hl, h4, if_true, hpeer]
      constructor <;> trivial

/-- C10 (witness): the requests of TestServer_TransferInvalidArguments in a context without
peer: amount 0 with a nil recipient is `InvalidArgument`, amount 1 with the recipient
192.168.0.1 is `Unauthenticated`. -/
theorem CreateTransfer_validates_before_peer_witness :
    ((∃ msg, (CreateTransfer ⟨fun _ => none, "", ""⟩
          ⟨{}, ⟨storage.projectStarted⟩, storage.emptyDB, "", .leaderboardNoOp⟩ {} {}
          { Amount := 0, RecipientAddress := [] }).result
        = .error (status.Error .InvalidArgument msg))
      ∧ (CreateTransfer ⟨fun _ => none, "", ""⟩
          ⟨{}, ⟨storage.projectStarted⟩, storage.emptyDB, "", .leaderboardNoOp⟩ {} {}
          { Amount := 0, RecipientAddress := [] }).pool = storage.emptyDB
      ∧ (CreateTransfer ⟨fun _ => none, "", ""⟩
          ⟨{}, ⟨storage.projectStarted⟩, storage.emptyDB, "", .leaderboardNoOp⟩ {} {}
          { Amount := 0, RecipientAddress := [] }).calls = [])
    ∧ ((CreateTransfer ⟨fun _ => none, "", ""⟩
          ⟨{}, ⟨storage.projectStarted⟩, storage.emptyDB, "", .leaderboardNoOp⟩ {} {}
          { Amount := 1, RecipientAddress := [192, 168, 0, 1] }).result
        = .error (status.Error .Unauthenticated "no peer or metadata")
      ∧ (CreateTransfer ⟨fun _ => none, "", ""⟩
          ⟨{}, ⟨storage.projectStarted⟩, storage.emptyDB, "", .leaderboardNoOp⟩ {} {}
          { Amount := 1, RecipientAddress := [192, 168, 0, 1] }).pool = storage.emptyDB) :=
  ⟨(CreateTransfer_validates_before_peer ⟨fun _ => none, "", ""⟩
        ⟨{}, ⟨storage.projectStarted⟩, storage.emptyDB, "", .leaderboardNoOp⟩ {} {}
        { Amount := 0, RecipientAddress := [] }).1 (Or.inl (by decide)),
    (CreateTransfer_validates_before_peer ⟨fun _ => none, "", ""⟩
        ⟨{}, ⟨storage.projectStarted⟩, storage.emptyDB, "", .leaderboardNoOp⟩ {} {}
        { Amount := 1, RecipientAddress := [192, 168, 0, 1] }).2
      (by decide) (Or.inl rfl) rfl rfl⟩

end server

namespace server

open netip

/-- The function literal of `CreateTransfer`, run for baseline plus one from a sender without
ledger activity: the store stays as it was and an error is set, which is
`InvalidArgument` when the transaction begins and the connection works. -/
theorem createTransferLocked_baseline_plus_one (s : server) (run : Run) {sender : Addr}
    (recipient : Addr) (st : Locked)
    (h : ∀ t ∈ st.pool.transfer, t.Sender ≠ sender ∧ t.Recipient ≠ sender) :
    (createTransferLocked s run (storage.BalanceUntouched s.clock.Now + 1) sender recipient
        st).pool = st.pool
    ∧ (∃ err, (createTransferLocked s run (storage.BalanceUntouched s.clock.Now + 1) sender
        recipient st).innerErr = some err)
    ∧ (run.beginErr = false → st.pool.batchFault = none →
        (createTransferLocked s run (storage.BalanceUntouched s.clock.Now + 1) sender
          recipient st).innerErr
          = some (status.Error .InvalidArgument "insufficient balance")) := by
  obtain ⟨⟨err, herr⟩, hno⟩ :=
    storage.CreateTransfer_baseline_plus_one run.id recipient s.clock.Now h
  unfold createTransferLocked
  cases hbegin : run.beginErr with
  | true => simp
  | false =>
    simp only [Bool.false_eq_true, if_false, herr]
    refine ⟨?_, ?_, ?_⟩
    · split_ifs <;> rfl
    · split_ifs <;> exact ⟨_, rfl⟩
    · intro _ hf
      have := hno hf
      rw [herr] at this
      injection this with h1 _
      injection h1 with h1
      subst h1
      rfl

/-- C5: a transfer of `BalanceUntouched(now) + 1` from an address with no ledger activity
fails at the storage layer and leaves the ledger unchanged, the error being the one
wrapping `ErrInsufficientBalance` whenever the connection works; the handler
`CreateTransfer` of the server, called with that amount by that address, leaves the
ledger unchanged too and, when the limiter admits the call, the lock is obtained, the
transaction begins and the connection works, reports `InvalidArgument`. -/
theorem CreateTransfer_baseline_plus_one_fails (db : storage.dbConn) (id : storage.UUID)
    (sender recipient : Addr) (now : time.Time)
    (h : ∀ t ∈ db.transfer, t.Sender ≠ sender ∧ t.Recipient ≠ sender) :
    (∃ err, storage.CreateTransfer db id
          { Amount := storage.BalanceUntouched now + 1, Sender := sender, Now := now,
            Recipient := recipient } = (.error err, db)
        ∧ (db.batchFault = none → errors.Is err .ErrInsufficientBalance = true))
    ∧ (∀ (im : Imports) (s : server) (run : Run) (ctx : Context)
          (request : proto.CreateTransferRequest),
        s.pool = db → s.clock.Now = now →
        request.Amount = storage.BalanceUntouched now + 1 →
        getPeer im s ctx = .ok sender →
        (CreateTransfer im s run ctx request).pool = db
        ∧ (run.limiterErr = false → ctx.done = false → run.acquired = true →
            run.beginErr = false → db.batchFault = none →
            ∃ msg, (CreateTransfer im s run ctx request).result
              = .error (status.Error .InvalidArgument msg))) := by
  constructor
  · obtain ⟨⟨err, herr⟩, hno⟩ := storage.CreateTransfer_baseline_plus_one id recipient now h
    refine ⟨err, herr, fun hf => ?_⟩
    have := hno hf
    rw [herr] at this
    injection this with h1 _
    injection h1 with h1
    subst h1
    decide
  · intro im s run ctx request hpool hnow hamount hpeer
    subst hpool
    subst hnow
    unfold CreateTransfer
    by_cases ha : request.Amount < 1
    · simp only [ha, if_true]
      exact ⟨trivial, fun _ _ _ _ _ => ⟨_, rfl⟩⟩
    · simp only [ha, if_false]
      split
      · exact ⟨rfl, fun _ _ _ _ _ => ⟨_, rfl⟩⟩
      · rename_i rcpt _
        simp only [hpeer]
        by_cases hself : sender = rcpt
        · simp only [hself, if_true]
          exact ⟨trivial, fun _ _ _ _ _ => ⟨_, rfl⟩⟩
        · simp only [hself, if_false]
          cases hlim : run.limiterErr with
          | true =>
            simp only [if_true]
            exact ⟨trivial, fun hc => by cases hc⟩
          | false =>
            simp only [Bool.false_eq_true, if_false]
            unfold WithLock
            cases hdone : ctx.done with
            | true =>
              simp only [if_true]
              exact ⟨trivial, fun _ hc => by cases hc⟩
            | false =>
              simp only [Bool.false_eq_true, if_false]
              cases hacq : run.acquired with
              | false =>
                simp only [Bool.false_eq_true, if_false]
                exact ⟨trivial, fun _ _ hc => by cases hc⟩
              | true =>
                simp only [if_true, hamount]
                obtain ⟨hp, ⟨err, herr⟩, hinv⟩ :=
                  createTransferLocked_baseline_plus_one s run rcpt
                    { innerErr := none, storageResponse := zeroCreateTransferResponse,
                      now := zeroTime, pool := s.pool,
                      calls := [.getPeer, .limiterWait sender, .withLock sender] } h
                constructor
                · split <;> exact hp
                · intro _ _ _ hb hf
                  rw [hinv hb hf]
                  exact ⟨_, rfl⟩

end server

namespace server

open netip

/-- C5 (witness): five hours after the project start, on an empty ledger, a transfer of 6
from 127.0.0.1 fails at the storage layer, and the handler called by the test peer
127.0.0.1 with amount 6 reports `InvalidArgument` and leaves the ledger empty. -/
theorem CreateTransfer_baseline_plus_one_fails_witness :
    (∃ err, storage.CreateTransfer storage.emptyDB 1
          { Amount := storage.BalanceUntouched (storage.projectStarted.Add (5 * time.Hour)) + 1,
            Sender := .v4 [127, 0, 0, 1],
            Now := storage.projectStarted.Add (5 * time.Hour),
            Recipient := .v4 [127, 0, 0, 2] } = (.error err, storage.emptyDB)
        ∧ (storage.emptyDB.batchFault = none →
            errors.Is err .ErrInsufficientBalance = true))
    ∧ (CreateTransfer ⟨fun _ => none, "", ""⟩
          ⟨{}, ⟨storage.projectStarted.Add (5 * time.Hour)⟩, storage.emptyDB, "", .leaderboardNoOp⟩ {}
          { testingPeer := some ⟨.TCPAddr [127, 0, 0, 1]⟩ }
          { Amount := 6, RecipientAddress := [127, 0, 0, 2] }).pool = storage.emptyDB
    ∧ (∃ msg, (CreateTransfer ⟨fun _ => none, "", ""⟩
          ⟨{}, ⟨storage.projectStarted.Add (5 * time.Hour)⟩, storage.emptyDB, "", .leaderboardNoOp⟩ {}
          { testingPeer := some ⟨.TCPAddr [127, 0, 0, 1]⟩ }
          { Amount := 6, RecipientAddress := [127, 0, 0, 2] }).result
        = .error (status.Error .InvalidArgument msg)) :=
  ⟨(CreateTransfer_baseline_plus_one_fails storage.emptyDB 1 (.v4 [127, 0, 0, 1])
      (.v4 [127, 0, 0, 2]) (storage.projectStarted.Add (5 * time.Hour)) (by decide)).1,
    ((CreateTransfer_baseline_plus_one_fails storage.emptyDB 1 (.v4 [127, 0, 0, 1])
      (.v4 [127, 0, 0, 2]) (storage.projectStarted.Add (5 * time.Hour)) (by decide)).2
      ⟨fun _ => none, "", ""⟩
      ⟨{}, ⟨storage.projectStarted.Add (5 * time.Hour)⟩, storage.emptyDB, "", .leaderboardNoOp⟩ {}
      { testingPeer := some ⟨.TCPAddr [127, 0, 0, 1]⟩ }
      { Amount := 6, RecipientAddress := [127, 0, 0, 2] } rfl rfl (by decide) rfl).1,
    ((CreateTransfer_baseline_plus_one_fails storage.emptyDB 1 (.v4 [127, 0, 0, 1])
      (.v4 [127, 0, 0, 2]) (storage.projectStarted.Add (5 * time.Hour)) (by decide)).2
      ⟨fun _ => none, "", ""⟩
      ⟨{}, ⟨storage.projectStarted.Add (5 * time.Hour)⟩, storage.emptyDB, "", .leaderboardNoOp⟩ {}
      { testingPeer := some ⟨.TCPAddr [127, 0, 0, 1]⟩ }
      { Amount := 6, RecipientAddress := [127, 0, 0, 2] } rfl rfl (by decide) rfl).2
      rfl rfl rfl rfl rfl⟩

end server

/-! ## Self-transfers and the rows the handler appends -/

namespace server

open netip

/-- The store after `CreateTransfer`: either the store before the call, or that store with one
more row, which carries the request's amount (at least 1), the caller as sender, and a
recipient different from the caller. -/
theorem CreateTransfer_pool (im : Imports) (s : server) (run : Run) (ctx : Context)
    (request : proto.CreateTransferRequest) :
    (CreateTransfer im s run ctx request).pool = s.pool
    ∨ ∃ row : storage.Transfer,
        (CreateTransfer im s run ctx request).pool
          = { s.pool with transfer := s.pool.transfer ++ [row] }
        ∧ row.Amount = request.Amount ∧ 1 ≤ row.Amount
        ∧ getPeer im s ctx = .ok row.Sender ∧ row.Sender ≠ row.Recipient := by
  unfold CreateTransfer
  by_cases ha : request.Amount < 1
  · simp only [ha, if_true]
    exact Or.inl trivial
  · simp only [ha, if_false]
    split
    · exact Or.inl rfl
    · rename_i rcpt _
      cases hpeer : getPeer im s ctx with
      | error err => exact Or.inl rfl
      | ok sender =>
        simp only
        by_cases hself : sender = rcpt
        · simp only [hself, if_true]
          exact Or.inl trivial
        · simp only [hself, if_false]
          cases hlim : run.limiterErr with
          | true => exact Or.inl rfl
          | false =>
            simp only [Bool.false_eq_true, if_false]
            unfold WithLock
            cases hdone : ctx.done with
            | true => exact Or.inl rfl
            | false =>
              simp only [Bool.false_eq_true, if_false]
              cases hacq : run.acquired with
              | false => exact Or.inl rfl
              | true =>
                simp only [if_true]
                unfold createTransferLocked
                cases hbegin : run.beginErr with
                | true => exact Or.inl rfl
                | false =>
                  simp only [Bool.false_eq_true, if_false]
                  cases hst : storage.CreateTransfer s.pool run.id
                      { Amount := request.Amount, Sender := sender, Now := s.clock.Now,
                        Recipient := rcpt } with
                  | mk res tx =>
                    cases res with
                    | error err =>
                      simp only
                      split_ifs <;> exact Or.inl rfl
                    | ok response =>
                      simp only
                      cases hcommit : run.commitErr with
                      | true => exact Or.inl rfl
                      | false =>
                        simp only [Bool.false_eq_true, if_false]
                        have hok : (storage.CreateTransfer s.pool run.id
                            { Amount := request.Amount, Sender := sender,
                              Now := s.clock.Now, Recipient := rcpt }).1 = .ok response := by
                          rw [hst]
                        have hdb := storage.CreateTransfer_db_of_ok hok
                        rw [hst] at hdb
                        obtain ⟨b, -, -, -, hresp⟩ := storage.CreateTransfer_eq_ok.mp hok
                        refine Or.inr ⟨response.Transfer, hdb, ?_, ?_, ?_, ?_⟩
                        · rw [hresp]
                        · rw [hresp]
                          show 1 ≤ request.Amount
                          omega
                        · rw [hresp]
                        · rw [hresp]
                          exact hself

end server

namespace server

open netip

/-- C11: when the recipient bytes of the request are the caller's own address,
`CreateTransfer` returns `InvalidArgument` and leaves the store as it was; and in every
call the store afterwards is the store before, or that store with one more row whose
amount is at least 1 and whose sender differs from its recipient. -/
theorem CreateTransfer_rejects_self_transfer (im : Imports) (s : server) (run : Run)
    (ctx : Context) (request : proto.CreateTransferRequest) :
    (∀ sender, getPeer im s ctx = .ok sender →
        AddrFromSlice request.RecipientAddress = (sender, true) →
        (∃ msg, (CreateTransfer im s run ctx request).result
            = .error (status.Error .InvalidArgument msg))
        ∧ (CreateTransfer im s run ctx request).pool = s.pool)
    ∧ ((CreateTransfer im s run ctx request).pool = s.pool
        ∨ ∃ row : storage.Transfer,
            (CreateTransfer im s run ctx request).pool
              = { s.pool with transfer := s.pool.transfer ++ [row] }
            ∧ 1 ≤ row.Amount ∧ row.Sender ≠ row.Recipient) := by
  constructor
  · intro sender hpeer hself
    unfold CreateTransfer
    by_cases ha : request.Amount < 1
    · simp only [ha, if_true]
      exact ⟨⟨_, rfl⟩, trivial⟩
    · simp only [ha, if_false, hpeer]
      unfold AddrFromSlice at hself
      by_cases h4 : request.RecipientAddress.length = 4
      · rw [if_pos h4] at hself
        injection hself with hself _
        subst hself
        rw [if_pos h4]
        simp only [if_true]
        exact ⟨⟨_, rfl⟩, trivial⟩
      · by_cases h16 : request.RecipientAddress.length = 16
        · rw [if_neg h4, if_pos h16] at hself
          injection hself with hself _
          subst hself
          rw [if_neg h4, if_pos h16]
          simp only [if_true]
          exact ⟨⟨_, rfl⟩, trivial⟩
        · rw [if_neg h4, if_neg h16] at hself
          injection hself with _ hfalse
          cases hfalse
  · rcases CreateTransfer_pool im s run ctx request with h | ⟨row, h1, -, h2, -, h3⟩
    · exact Or.inl h
    · exact Or.inr ⟨row, h1, h2, h3⟩

/-- C11 (witness): the request of TestServer_TransferSelf, amount 1 from the peer `::1` to
the recipient `::1`. -/
theorem CreateTransfer_rejects_self_transfer_witness :
    (∃ msg, (CreateTransfer ⟨fun _ => none, "", ""⟩
          ⟨{}, ⟨storage.projectStarted⟩, storage.emptyDB, "", .leaderboardNoOp⟩ {}
          { testingPeer := some ⟨.TCPAddr [0, 0, 0, 0, 0, 0, 0, 0, 0, 0, 0, 0, 0, 0, 0, 1]⟩ }
          { Amount := 1,
            RecipientAddress := [0, 0, 0, 0, 0, 0, 0, 0, 0, 0, 0, 0, 0, 0, 0, 1] }).result
        = .error (status.Error .InvalidArgument msg))
    ∧ (CreateTransfer ⟨fun _ => none, "", ""⟩
          ⟨{}, ⟨storage.projectStarted⟩, storage.emptyDB, "", .leaderboardNoOp⟩ {}
          { testingPeer := some ⟨.TCPAddr [0, 0, 0, 0, 0, 0, 0, 0, 0, 0, 0, 0, 0, 0, 0, 1]⟩ }
          { Amount := 1,
            RecipientAddress := [0, 0, 0, 0, 0, 0, 0, 0, 0, 0, 0, 0, 0, 0, 0, 1] }).pool
        = storage.emptyDB :=
  (CreateTransfer_rejects_self_transfer ⟨fun _ => none, "", ""⟩
      ⟨{}, ⟨storage.projectStarted⟩, storage.emptyDB, "", .leaderboardNoOp⟩ {}
      { testingPeer := some ⟨.TCPAddr [0, 0, 0, 0, 0, 0, 0, 0, 0, 0, 0, 0, 0, 0, 0, 1]⟩ }
      { Amount := 1,
        RecipientAddress := [0, 0, 0, 0, 0, 0, 0, 0, 0, 0, 0, 0, 0, 0, 0, 1] }).1
    (.v6 [0, 0, 0, 0, 0, 0, 0, 0, 0, 0, 0, 0, 0, 0, 0, 1] "") rfl rfl

/-- C14 (failing input): amount 1 from the test peer 127.0.0.1 to 127.0.0.2, the limiter
admitting the call and the second `select` of `WithLock` ending at `ctx.Done()`: the
function literal never runs, nothing is appended, and `CreateTransfer` returns a success
response, built from the zero `storage.CreateTransferResponse`. -/
theorem CreateTransfer_success_without_transfer :
    (CreateTransfer ⟨fun _ => none, "", ""⟩
        ⟨{}, ⟨storage.projectStarted.Add (5 * time.Hour)⟩, storage.emptyDB, "",
          .leaderboardNoOp⟩
        { acquired := false }
        { testingPeer := some ⟨.TCPAddr [127, 0, 0, 1]⟩ }
        { Amount := 1, RecipientAddress := [127, 0, 0, 2] }).result
      = .ok { Transfer := { Created := zeroTime, Id := 0, SenderAddress := [],
                            RecipientAddress := [], Amount := 0 },
              SenderBalance := { Timestamp := zeroTime, Address := [], Available := 0 } }
    ∧ (CreateTransfer ⟨fun _ => none, "", ""⟩
        ⟨{}, ⟨storage.projectStarted.Add (5 * time.Hour)⟩, storage.emptyDB, "",
          .leaderboardNoOp⟩
        { acquired := false }
        { testingPeer := some ⟨.TCPAddr [127, 0, 0, 1]⟩ }
        { Amount := 1, RecipientAddress := [127, 0, 0, 2] }).pool = storage.emptyDB
    ∧ (CreateTransfer ⟨fun _ => none, "", ""⟩
        ⟨{}, ⟨storage.projectStarted.Add (5 * time.Hour)⟩, storage.emptyDB, "",
          .leaderboardNoOp⟩
        { acquired := false }
        { testingPeer := some ⟨.TCPAddr [127, 0, 0, 1]⟩ }
        { Amount := 1, RecipientAddress := [127, 0, 0, 2] }).calls
      = [.getPeer, .limiterWait (.v4 [127, 0, 0, 1]), .withLock (.v4 [127, 0, 0, 1])] := by
  refine ⟨rfl, rfl, rfl⟩

end server

/-! ## The comment handler -/

namespace server

open netip

/-- Every error of `getPeer` has the code `Unauthenticated`. -/
theorem getPeer_error_code {im : Imports} {s : server} {ctx : Context} {err : status.Status}
    (h : getPeer im s ctx = .error err) : err.code = .Unauthenticated := by
  have tail : ∀ (sender : Addr) (ok fromTest : Bool),
      (if (!ok) = true then Except.error (status.Error .Unauthenticated "invalid IP address")
        else if fromTest = true then Except.ok sender
        else
          match ctx.metadata with
          | none =>
            .error (status.Error .Unauthenticated "missing required metadata in gRPC request")
          | some md =>
            match md "x-forwarded-for" with
            | [] => .error (status.Error .Unauthenticated "no x-forwarded-for in metadata")
            | xff :: _ =>
              match im.ParseAddr (firstField xff) with
              | none =>
                .error (status.Error .Unauthenticated "invalid IP address in x-forwarded-for")
              | some forwardedFor =>
                if !s.c.CloudflareRequired then .ok sender
                else if !(cloudflareIPRanges.any (fun p => p.Contains forwardedFor)) then
                  .error (status.Error .Unauthenticated
                    "forwarded IP address not from Cloudflare")
                else
                  match md im.GRPCMetadataKeyRuntimeKey with
                  | [] =>
                    .error (status.Error .Unauthenticated
                      "no runtime key in metadata from Cloudflare")
                  | key :: _ =>
                    if key ≠ s.runtimeKey then
                      .error (status.Error .Unauthenticated "invalid runtime key")
                    else
                      match md im.GPRCMetadataCFConnectingIP with
                      | [] =>
                        .error (status.Error .Unauthenticated
                          "no connecting IP in metadata from Cloudflare")
                      | cf :: _ =>
                        match im.ParseAddr (firstField cf) with
                        | none =>
                          .error (status.Error .Unauthenticated
                            "invalid IP address in metadata from Cloudflare")
                        | some connecting => .ok connecting) = Except.error err →
      err.code = .Unauthenticated := by
    intro sender ok fromTest h
    repeat' split at h
    all_goals first
      | (injection h with h; subst h; rfl)
      | cases h
  unfold getPeer at h
  cases hp : ctx.peer with
  | none =>
    cases ht : ctx.testingPeer with
    | none => rw [hp, ht] at h; injection h with h; subst h; rfl
    | some p =>
      rw [hp, ht] at h
      dsimp only at h
      cases ha : p.Addr with
      | other => rw [ha] at h; injection h with h; subst h; rfl
      | TCPAddr ip => rw [ha] at h; exact tail _ _ _ h
      | UDPAddr ip => rw [ha] at h; exact tail _ _ _ h
  | some p =>
    rw [hp] at h
    dsimp only at h
    cases ha : p.Addr with
    | other => rw [ha] at h; injection h with h; subst h; rfl
    | TCPAddr ip => rw [ha] at h; exact tail _ _ _ h
    | UDPAddr ip => rw [ha] at h; exact tail _ _ _ h

/-- The number of bytes of a string made of `n` copies of one character. -/
theorem utf8ByteSize_replicate (c : Char) (n : Nat) :
    (String.mk (List.replicate n c)).utf8ByteSize = n * c.utf8Size := by
  induction n with
  | zero => simp [String.utf8ByteSize, String.utf8ByteSize.go]
  | succ n ih =>
    simp only [List.replicate_succ, String.utf8ByteSize, String.utf8ByteSize.go] at ih ⊢
    rw [ih]
    ring

/-- What `CreateComment` checks first is the number of bytes of the message: a message of
no byte or of more than 1000 bytes gets `InvalidArgument` with the store unchanged and no
collaborator called; any other message never gets `InvalidArgument`, and is appended when
the caller is resolved, the limiter admits the call, the transaction begins and commits
and the insertion succeeds. -/
theorem CreateComment_validates_bytes (im : Imports) (s : server) (run : Run)
    (ctx : Context) (request : proto.CreateCommentRequest) :
    ((request.Comment.utf8ByteSize = 0 ∨ 1000 < request.Comment.utf8ByteSize) →
      (∃ msg, (CreateComment im s run ctx request).result
          = .error (status.Error .InvalidArgument msg))
      ∧ (CreateComment im s run ctx request).pool = s.pool
      ∧ (CreateComment im s run ctx request).calls = [])
    ∧ (1 ≤ request.Comment.utf8ByteSize → request.Comment.utf8ByteSize ≤ 1000 →
      (∀ err, (CreateComment im s run ctx request).result = .error err →
          err.code ≠ .InvalidArgument)
      ∧ (∀ address, getPeer im s ctx = .ok address → run.limiterErr = false →
          run.beginErr = false → run.commitErr = false →
          s.pool.commentFault { Created := s.clock.Now, ID := run.id, Address := address,
                                Message := request.Comment } = none →
          (CreateComment im s run ctx request).result
            = .ok { Comment := { Created := s.clock.Now, Id := run.id,
                                 Address := address.AsSlice,
                                 Message := request.Comment } }
          ∧ (CreateComment im s run ctx request).pool
            = { s.pool with comment := s.pool.comment ++
                  [{ Created := s.clock.Now, ID := run.id, Address := address,
                     Message := request.Comment }] })) := by
  constructor
  · intro h
    unfold CreateComment
    by_cases h0 : request.Comment.utf8ByteSize = 0
    · simp only [h0, if_true]
      exact ⟨⟨_, rfl⟩, trivial, trivial⟩
    · have h1 : request.Comment.utf8ByteSize > maxCommentLength := by
        unfold maxCommentLength
        omega
      simp only [h0, if_false, h1, if_true]
      exact ⟨⟨_, rfl⟩, trivial, trivial⟩
  · intro hlo hhi
    have h0 : ¬ request.Comment.utf8ByteSize = 0 := by omega
    have h1 : ¬ request.Comment.utf8ByteSize > maxCommentLength := by
      unfold maxCommentLength
      omega
    constructor
    · intro err herr
      unfold CreateComment at herr
      simp only [h0, if_false, h1] at herr
      cases hpeer : getPeer im s ctx with
      | error e =>
        simp only [hpeer] at herr
        injection herr with herr
        subst herr
        rw [getPeer_error_code hpeer]
        decide
      | ok address =>
        simp only [hpeer] at herr
        repeat' split at herr
        all_goals first
          | (injection herr with herr; subst herr; decide)
          | cases herr
    · intro address hpeer hlim hbegin hcommit hfault
      unfold CreateComment storage.CreateComment
      simp only [h0, if_false, h1, hpeer, hlim, hbegin, hcommit, hfault,
        Bool.false_eq_true]
      exact ⟨trivial, trivial⟩

/-- C12 (failing input): a message of 501 characters, each the letter e with acute accent
(U+00E9, two bytes in UTF-8), is rejected by `CreateComment` with `InvalidArgument`
"comment must not be longer than 1000 characters", whatever the context. -/
theorem CreateComment_rejects_501_characters (im : Imports) (s : server) (run : Run)
    (ctx : Context) :
    (String.mk (List.replicate 501 (Char.ofNat 233))).length = 501
    ∧ (String.mk (List.replicate 501 (Char.ofNat 233))).utf8ByteSize = 1002
    ∧ (CreateComment im s run ctx
        { Comment := String.mk (List.replicate 501 (Char.ofNat 233)) }).result
      = .error (status.Error .InvalidArgument
          "comment must not be longer than 1000 characters") := by
  have hsize : (String.mk (List.replicate 501 (Char.ofNat 233))).utf8ByteSize = 1002 := by
    rw [utf8ByteSize_replicate]
    decide
  refine ⟨?_, hsize, ?_⟩
  · exact List.length_replicate ..
  · unfold CreateComment
    simp only [hsize]
    rfl

end server

/-! ## Validation and the collaborators -/

namespace server

open netip

/-- Before it rejects the address bytes of a request, `GetGlance` has resolved the caller and
waited on the read limiter; it has begun no transaction and read nothing. -/
theorem GetGlance_invalid_address (im : Imports) (s : server) (run : Run) (ctx : Context)
    (sender : Addr) (a : List Byte)
    (hpeer : getPeer im s ctx = .ok sender) (hlim : run.limiterErr = false)
    (ha : (AddrFromSlice a).2 = false) :
    (GetGlance im s run ctx { Address := some a }).result
        = .error (status.Error .InvalidArgument "invalid address")
    ∧ (GetGlance im s run ctx { Address := some a }).calls
        = [.getPeer, .readLimiterWait sender]
    ∧ (GetGlance im s run ctx { Address := some a }).pool = s.pool := by
  unfold GetGlance
  simp only [hpeer, hlim, Bool.false_eq_true, if_false]
  cases hs : AddrFromSlice a with
  | mk address ok =>
    rw [hs] at ha
    simp only at ha
    subst ha
    exact ⟨rfl, rfl, rfl⟩

/-- The three rejections of `CreateTransfer` for a validation reason happen with the store
unchanged, before the limiter and the lock are reached; the self-transfer one after the
caller has been resolved. -/
theorem CreateTransfer_validation_calls (im : Imports) (s : server) (run : Run)
    (ctx : Context) (request : proto.CreateTransferRequest) (msg : String)
    (h : (CreateTransfer im s run ctx request).result
        = .error (status.Error .InvalidArgument msg))
    (hmsg : msg ≠ "insufficient balance") :
    ((CreateTransfer im s run ctx request).calls = []
      ∨ (CreateTransfer im s run ctx request).calls = [.getPeer])
    ∧ (CreateTransfer im s run ctx request).pool = s.pool := by
  unfold CreateTransfer at h ⊢
  by_cases ha : request.Amount < 1
  · simp only [ha, if_true]
    exact ⟨Or.inl trivial, trivial⟩
  · simp only [ha, if_false] at h ⊢
    split
    · exact ⟨Or.inl rfl, rfl⟩
    · rename_i rcpt hconv
      rw [hconv] at h
      cases hpeer : getPeer im s ctx with
      | error err =>
        exact ⟨Or.inr rfl, rfl⟩
      | ok sender =>
        simp only [hpeer] at h ⊢
        by_cases hself : sender = rcpt
        · simp only [hself, if_true]
          exact ⟨Or.inr trivial, trivial⟩
        · simp only [hself, if_false] at h ⊢
          cases hlim : run.limiterErr with
          | true =>
            simp only [hlim, if_true] at h
            injection h with h
            injection h with h1 _
            cases h1
          | false =>
            simp only [hlim, Bool.false_eq_true, if_false] at h
            unfold WithLock at h
            cases hdone : ctx.done with
            | true => simp only [hdone, if_true] at h; cases h
            | false =>
              simp only [hdone, Bool.false_eq_true, if_false] at h
              cases hacq : run.acquired with
              | false => simp only [hacq, Bool.false_eq_true, if_false] at h; cases h
              | true =>
                simp only [hacq, if_true] at h
                unfold createTransferLocked at h
                cases hbegin : run.beginErr with
                | true =>
                  simp only [hbegin, if_true] at h
                  injection h with h
                  injection h with h1 _
                  cases h1
                | false =>
                  simp only [hbegin, Bool.false_eq_true, if_false] at h
                  exfalso
                  cases hst : storage.CreateTransfer s.pool run.id
                      { Amount := request.Amount, Sender := sender, Now := s.clock.Now,
                        Recipient := rcpt } with
                  | mk res tx =>
                    simp only [hst] at h
                    cases res with
                    | error err =>
                      simp only at h
                      by_cases his : errors.Is err .ErrInsufficientBalance = true
                      · simp only [his, if_true] at h
                        injection h with h
                        injection h with h1 h2
                        exact hmsg h2.symm
                      · simp only [his, if_false] at h
                        injection h with h
                        injection h with h1 h2
                        cases h1
                    | ok response =>
                      simp only at h
                      cases hcommit : run.commitErr with
                      | true =>
                        simp only [hcommit, if_true] at h
                        injection h with h
                        injection h with h1 h2
                        cases h1
                      | false =>
                        simp only [hcommit, Bool.false_eq_true, if_false] at h
                        cases h

/-- C13 (failing input): the test peer 127.0.0.1 calls `GetGlance` with the three address
bytes 1, 2, 3. The handler returns `InvalidArgument` for the malformed address after it
has called `readLimiter.Wait` for the caller. -/
theorem GetGlance_waits_on_limiter_before_validation :
    (GetGlance ⟨fun _ => none, "", ""⟩
        ⟨{}, ⟨storage.projectStarted⟩, storage.emptyDB, "", .leaderboardNoOp⟩ {}
        { testingPeer := some ⟨.TCPAddr [127, 0, 0, 1]⟩ }
        { Address := some [1, 2, 3] }).result
      = .error (status.Error .InvalidArgument "invalid address")
    ∧ (GetGlance ⟨fun _ => none, "", ""⟩
        ⟨{}, ⟨storage.projectStarted⟩, storage.emptyDB, "", .leaderboardNoOp⟩ {}
        { testingPeer := some ⟨.TCPAddr [127, 0, 0, 1]⟩ }
        { Address := some [1, 2, 3] }).calls
      = [.getPeer, .readLimiterWait (.v4 [127, 0, 0, 1])] := by
  exact ⟨rfl, rfl⟩

end server

/-! ## The table of address locks -/

namespace server

open netip

theorem lockFor_full (l : addrLocker) (now : Int) (addr : Addr) :
    (l.lockFor now addr).1.full = l.full := by
  unfold addrLocker.lockFor
  cases l.m.lookup addr <;> rfl

theorem lockFor_deleteAfter (l : addrLocker) (now : Int) (addr : Addr) :
    (l.lockFor now addr).1.deleteAfter = l.deleteAfter := by
  unfold addrLocker.lockFor
  cases l.m.lookup addr <;> rfl

theorem lockFor_deleteAt (l : addrLocker) (now : Int) (addr : Addr) :
    (l.lockFor now addr).2.deleteAt = now + l.deleteAfter := by
  unfold addrLocker.lockFor
  cases l.m.lookup addr <;> rfl

/-- The ways a call of `WithLock` that ends can end: `f` not run and the state untouched, or
`f` run once on the state. -/
theorem WithLock_ran {σ : Type} (l : addrLocker) (now : Int) (ctx : LockContext)
    (addr : Addr) (f : σ → σ × Bool) (st : σ) (r : Locking σ)
    (h : l.WithLock now ctx addr f st = some r) :
    (r.ran = 0 ∧ r.state = st ∧ r.panicked = false)
    ∨ (r.ran = 1 ∧ r.state = (f st).1 ∧ r.panicked = (f st).2 ∧ ctx.done = false) := by
  unfold addrLocker.WithLock at h
  simp only at h
  split_ifs at h with h1 h2 h3 h4
  · injection h with h; subst h; exact Or.inl ⟨rfl, rfl, rfl⟩
  · injection h with h; subst h
    exact Or.inr ⟨rfl, rfl, h3.symm, by simpa using h1⟩
  · injection h with h; subst h
    refine Or.inr ⟨rfl, rfl, ?_, by simpa using h1⟩
    show false = (f st).2
    simpa using h3
  · injection h with h; subst h; exact Or.inl ⟨rfl, rfl, rfl⟩

/-- C15: `WithLock` called with a context that is already cancelled ends without running
`fn` (zero runs, the state untouched); called with a context that is not cancelled, for a
key whose semaphore is free, it ends after running `fn` exactly once, the state it leaves
being the one `fn` leaves; and no call that ends has run `fn` when the first check saw the
context cancelled. -/
theorem WithLock_runs_fn_once {σ : Type} (l : addrLocker) (now : Int) (ctx : LockContext)
    (addr : Addr) (f : σ → σ × Bool) (st : σ) :
    (ctx.done = true →
      ∃ r, l.WithLock now ctx addr f st = some r ∧ r.ran = 0 ∧ r.state = st
        ∧ r.panicked = false)
    ∧ (ctx.done = false → ctx.doneAtSelect = false →
        l.canSend (l.lockFor now addr).2.ch = true →
      ∃ r, l.WithLock now ctx addr f st = some r ∧ r.ran = 1 ∧ r.state = (f st).1) := by
  constructor
  · intro hdone
    unfold addrLocker.WithLock
    simp only [hdone, if_true]
    exact ⟨_, rfl, rfl, rfl, rfl⟩
  · intro hdone hsel hfree
    have hfree2 : (l.lockFor now addr).1.canSend (l.lockFor now addr).2.ch = true := by
      unfold addrLocker.canSend at hfree ⊢
      rw [lockFor_full]
      exact hfree
    unfold addrLocker.WithLock
    simp only [hdone, hsel, hfree2, Bool.false_eq_true, if_false, Bool.false_and,
      Bool.not_false, Bool.and_self, if_true]
    split_ifs
    · exact ⟨_, rfl, rfl, rfl⟩
    · exact ⟨_, rfl, rfl, rfl⟩

/-- C15 (witness): on a new locker, `WithLock` for 192.168.0.1 with a function adding one to
a counter: with a cancelled context the counter stays 0, with a live context it becomes
1 (TestAddrLocker_WithLock_ContextCancelled, TestAddrLocker_WithLock_ExecutesFunction). -/
theorem WithLock_runs_fn_once_witness :
    (∃ r, (newAddrLocker (10 * time.Millisecond)).WithLock 0 { done := true }
          storage.addr1 (fun n : Nat => (n + 1, false)) 0 = some r
        ∧ r.ran = 0 ∧ r.state = 0 ∧ r.panicked = false)
    ∧ (∃ r, (newAddrLocker (10 * time.Millisecond)).WithLock 0 {}
          storage.addr1 (fun n : Nat => (n + 1, false)) 0 = some r
        ∧ r.ran = 1 ∧ r.state = 1) :=
  ⟨(WithLock_runs_fn_once (newAddrLocker (10 * time.Millisecond)) 0 { done := true }
      storage.addr1 (fun n : Nat => (n + 1, false)) 0).1 rfl,
   (WithLock_runs_fn_once (newAddrLocker (10 * time.Millisecond)) 0 {}
      storage.addr1 (fun n : Nat => (n + 1, false)) 0).2 rfl rfl rfl⟩

end server

namespace server

open netip

/-- After a call of `WithLock` in which `f` ran and returned, the channels that hold a token
are those that held one before the call: the semaphore taken for the call is released. -/
theorem WithLock_releases_on_return {σ : Type} (l : addrLocker) (now : Int)
    (ctx : LockContext) (addr : Addr) (f : σ → σ × Bool) (st : σ) (r : Locking σ)
    (h : l.WithLock now ctx addr f st = some r) (hret : r.panicked = false) :
    r.locker.full = l.full := by
  unfold addrLocker.WithLock at h
  simp only at h
  split_ifs at h with h1 h2 h3 h4
  · injection h with h; subst h; exact lockFor_full l now addr
  · injection h with h; subst h; cases hret
  · injection h with h; subst h
    show ((l.lockFor now addr).2.ch :: (l.lockFor now addr).1.full).erase
      (l.lockFor now addr).2.ch = l.full
    rw [List.erase_cons_head, lockFor_full]
  · injection h with h; subst h; exact lockFor_full l now addr

/-- C16 (failing input): on a new locker with a TTL of two hours, `WithLock` for
192.168.0.1 runs a function that panics; the channel of the key keeps its token. One second
later a call of `WithLock` for the same key with a context that never ends waits forever,
and with a context whose deadline passes it ends without running its function. -/
theorem WithLock_keeps_semaphore_after_panic :
    (((newAddrLocker (2 * time.Hour)).WithLock 0 {} storage.addr1
        (fun n : Nat => (n, true)) 0).map (fun r => (r.panicked, r.locker.full)))
      = some (true, [0])
    ∧ ((newAddrLocker (2 * time.Hour)).WithLock 0 {} storage.addr1
        (fun n : Nat => (n, true)) 0).bind
        (fun r => (r.locker.WithLock time.Second {} storage.addr1
          (fun n : Nat => (n + 1, false)) 0).map (fun r2 => r2.ran)) = none
    ∧ ((newAddrLocker (2 * time.Hour)).WithLock 0 {} storage.addr1
        (fun n : Nat => (n, true)) 0).bind
        (fun r => (r.locker.WithLock time.Second { doneLater := true } storage.addr1
          (fun n : Nat => (n + 1, false)) 0).map (fun r2 => r2.ran)) = some 0 := by
  refine ⟨rfl, rfl, rfl⟩

/-- C17 (failing input): two goroutines and a locker with a TTL of 10 ms. Goroutine 0 calls
`WithLock` for 192.168.0.1 at instant 0, gets channel 0 and sends on it; its function is
still running when, 15 ms later, the timer of the entry has fired and goroutine 1 calls
`WithLock` for the same key: it finds no entry, makes channel 1, and its send proceeds.
Both goroutines are then inside their function for the key 192.168.0.1. -/
theorem WithLock_two_holders_after_expiry :
    (World.start (10 * time.Millisecond) 2).run
        [.call 0 storage.addr1 false, .send 0, .sleep (15 * time.Millisecond),
         .call 1 storage.addr1 false, .send 1]
      = some { locker := { deleteAfter := 10 * time.Millisecond,
                           m := [(storage.addr1, ⟨1, 25 * time.Millisecond⟩)],
                           full := [1, 0], made := 2 },
               now := 15 * time.Millisecond,
               places := [.inFn storage.addr1 ⟨0, 10 * time.Millisecond⟩,
                          .inFn storage.addr1 ⟨1, 25 * time.Millisecond⟩] }
    ∧ (World.start (10 * time.Millisecond) 2).run
        [.call 0 storage.addr1 false, .send 0, .sleep (5 * time.Millisecond),
         .call 1 storage.addr1 false, .send 1] = none := by
  decide

/-- One goroutine taking the steps of a call whose function returns leaves the locker that
`addrLocker.WithLock` leaves. -/
theorem World_run_one_call (l : addrLocker) (now : Int) (addr : netip.Addr)
    (h : l.canSend (l.lockFor now addr).2.ch = true) :
    (({ locker := l, now := now, places := [.idle] } : World).run
        [.call 0 addr false, .send 0, .ret 0]).map (fun w => (w.locker, w.places))
      = (l.WithLock now {} addr (fun x : Unit => (x, false)) ()).map
          (fun r => (r.locker, [.left (decide (r.ran = 1))])) := by
  have h2 : (l.lockFor now addr).1.canSend (l.lockFor now addr).2.ch = true := by
    unfold addrLocker.canSend at h ⊢
    rw [lockFor_full]
    exact h
  simp [World.run, World.step, addrLocker.WithLock, h2]

end server


namespace server

open netip

theorem lookup_eq_none_iff_forall (m : List (Addr × addrLock)) (addr : Addr) :
    m.lookup addr = none ↔ ∀ e ∈ m, e.1 ≠ addr := by
  induction m with
  | nil => simp
  | cons e m ih =>
    obtain ⟨k, v⟩ := e
    by_cases hk : addr = k
    · subst hk
      simp [List.lookup_cons]
    · have : (addr == k) = false := by simpa using hk
      simp only [List.lookup_cons, this, ih, List.mem_cons, forall_eq_or_imp]
      constructor
      · intro h
        exact ⟨fun h2 => hk h2.symm, h⟩
      · intro h
        exact h.2

/-- After the part of `WithLock` run under the mutex, the map holds the lock returned for
the key first, and no other entry for the key. -/
theorem lockFor_m (l : addrLocker) (now : Int) (addr : Addr) :
    ∃ rest, (l.lockFor now addr).1.m = (addr, (l.lockFor now addr).2) :: rest
      ∧ ∀ e ∈ rest, e.1 ≠ addr := by
  unfold addrLocker.lockFor
  cases h : l.m.lookup addr with
  | none => exact ⟨l.m, rfl, (lookup_eq_none_iff_forall l.m addr).mp h⟩
  | some lock =>
    refine ⟨l.m.filter (fun e => decide (e.1 ≠ addr)), rfl, ?_⟩
    intro e he
    simpa using (List.mem_filter.mp he).2

theorem lockFor_of_lookup_some {l : addrLocker} {addr : Addr} {lock : addrLock} (now : Int)
    (h : l.m.lookup addr = some lock) :
    l.lockFor now addr
      = ({ l with m := (addr, { lock with deleteAt := now + l.deleteAfter })
                    :: l.m.filter (fun e => decide (e.1 ≠ addr)) },
         { lock with deleteAt := now + l.deleteAfter }) := by
  unfold addrLocker.lockFor
  rw [h]

theorem lookup_cons_self (addr : Addr) (lock : addrLock) (rest : List (Addr × addrLock)) :
    ((addr, lock) :: rest).lookup addr = some lock := by
  simp [List.lookup_cons]

/-- An entry the timer of which has not fired by `u` is still in the map at `u`; one the
timer of which is due is not. -/
theorem expire_lookup {l : addrLocker} {addr : Addr} {lock : addrLock}
    {rest : List (Addr × addrLock)} (u : Int)
    (hm : l.m = (addr, lock) :: rest) (hrest : ∀ e ∈ rest, e.1 ≠ addr) :
    (u < lock.deleteAt → (l.expire u).m.lookup addr = some lock)
    ∧ (lock.deleteAt ≤ u → (l.expire u).m.lookup addr = none) := by
  unfold addrLocker.expire
  simp only [hm]
  constructor
  · intro hlt
    rw [List.filter_cons_of_pos (by simpa using hlt)]
    exact lookup_cons_self _ _ _
  · intro hge
    rw [List.filter_cons_of_neg (by simpa using hge)]
    rw [lookup_eq_none_iff_forall]
    intro e he
    exact hrest e (List.mem_filter.mp he).1

/-- C18: after `WithLock` has touched a key at instant t in a locker with TTL d, the entry
of the key is in the table at every instant before t + d and absent at every instant
after t + d when no `WithLock` touches the key in between; when `WithLock` touches the key
again at an instant t' before t + d, the entry is in the table, with the same channel, at
every instant before t' + d, also after t + d. -/
theorem lockFor_entry_lifetime (l : addrLocker) (t : Int) (addr : Addr) :
    (∀ u, u < t + l.deleteAfter →
      ((l.lockFor t addr).1.expire u).m.lookup addr = some (l.lockFor t addr).2)
    ∧ (∀ u, t + l.deleteAfter < u →
      ((l.lockFor t addr).1.expire u).m.lookup addr = none)
    ∧ (∀ t' u, t' < t + l.deleteAfter → u < t' + l.deleteAfter →
      ((((l.lockFor t addr).1.expire t').lockFor t' addr).1.expire u).m.lookup addr
        = some { ch := (l.lockFor t addr).2.ch, deleteAt := t' + l.deleteAfter }) := by
  obtain ⟨rest, hm, hrest⟩ := lockFor_m l t addr
  have hat := lockFor_deleteAt l t addr
  refine ⟨?_, ?_, ?_⟩
  · intro u hu
    exact (expire_lookup u hm hrest).1 (by rw [hat]; exact hu)
  · intro u hu
    exact (expire_lookup u hm hrest).2 (by rw [hat]; omega)
  · intro t' u ht' hu
    have h1 := (expire_lookup t' hm hrest).1 (by rw [hat]; exact ht')
    have hd : ((l.lockFor t addr).1.expire t').deleteAfter = l.deleteAfter :=
      lockFor_deleteAfter l t addr
    obtain ⟨rest2, hm2, hrest2⟩ := lockFor_m ((l.lockFor t addr).1.expire t') t' addr
    have hlock := lockFor_of_lookup_some t' h1
    rw [hd] at hlock
    have hsnd : (((l.lockFor t addr).1.expire t').lockFor t' addr).2
        = { ch := (l.lockFor t addr).2.ch, deleteAt := t' + l.deleteAfter } := by
      rw [hlock]
    rw [hsnd] at hm2
    exact (expire_lookup u hm2 hrest2).1 hu

/-- C18 (witness): the locker of the tests, TTL 10 ms. Touched at 0, the key 192.168.0.1 is
absent at 15 ms; touched at 0 and again at 5 ms, it is present at 13 ms. -/
theorem lockFor_entry_lifetime_witness :
    (((newAddrLocker (10 * time.Millisecond)).lockFor 0 storage.addr1).1.expire
        (15 * time.Millisecond)).m.lookup storage.addr1 = none
    ∧ (((((newAddrLocker (10 * time.Millisecond)).lockFor 0 storage.addr1).1.expire
          (5 * time.Millisecond)).lockFor (5 * time.Millisecond) storage.addr1).1.expire
        (13 * time.Millisecond)).m.lookup storage.addr1
      = some { ch := ((newAddrLocker (10 * time.Millisecond)).lockFor 0 storage.addr1).2.ch,
               deleteAt := 5 * time.Millisecond
                 + (newAddrLocker (10 * time.Millisecond)).deleteAfter } :=
  ⟨(lockFor_entry_lifetime (newAddrLocker (10 * time.Millisecond)) 0 storage.addr1).2.1
      (15 * time.Millisecond) (by decide),
   (lockFor_entry_lifetime (newAddrLocker (10 * time.Millisecond)) 0 storage.addr1).2.2
      (5 * time.Millisecond) (13 * time.Millisecond) (by decide) (by decide)⟩

end server

/-! ## The leaderboard cache -/

namespace server

open netip

theorem refreshAll_append (c : leaderboardMemCache)
    (pre post : List (time.Time × storage.dbConn)) :
    c.refreshAll (pre ++ post) = (c.refreshAll pre).refreshAll post := by
  induction pre generalizing c with
  | nil => rfl
  | cons p pre ih =>
    obtain ⟨now, pool⟩ := p
    simp only [List.cons_append, leaderboardMemCache.refreshAll]
    exact ih _

/-- A pass whose read of the leaderboard fails leaves the cache as it was. -/
theorem refresh_of_error (c : leaderboardMemCache) (now : time.Time)
    (pool : storage.dbConn) (err : error)
    (h : storage.GetLeaderboard pool
        { Now := (now.Truncate time.Minute).Add time.Minute } = .error err) :
    c.refresh now pool = c := by
  unfold leaderboardMemCache.refresh
  simp only [h]

theorem refreshAll_of_errors (c : leaderboardMemCache)
    (passes : List (time.Time × storage.dbConn))
    (h : ∀ p ∈ passes, ∃ err, storage.GetLeaderboard p.2
        { Now := (p.1.Truncate time.Minute).Add time.Minute } = .error err) :
    c.refreshAll passes = c := by
  induction passes generalizing c with
  | nil => rfl
  | cons p passes ih =>
    obtain ⟨now, pool⟩ := p
    obtain ⟨err, herr⟩ := h (now, pool) (List.mem_cons_self _ _)
    simp only [leaderboardMemCache.refreshAll, refresh_of_error c now pool err herr]
    exact ih c (fun q hq => h q (List.mem_cons_of_mem _ hq))

/-- C19: `Get` of the cache never returns an error; on the cache `NewLeaderboardMemCache`
builds it returns the empty snapshot (no entry in either list, baseline 0) after any
number of passes whose read failed; a pass whose read failed leaves the served snapshot
unchanged; and after a pass whose read succeeded, followed by any number of passes whose
read failed, it returns the snapshot built from that read, whatever came before. -/
theorem leaderboardMemCache_Get_last_success (c : leaderboardMemCache) :
    c.Get = .ok c.response
    ∧ (∀ t0 passes,
        (∀ p ∈ passes, ∃ err, storage.GetLeaderboard p.2
          { Now := (p.1.Truncate time.Minute).Add time.Minute } = .error err) →
        ((NewLeaderboardMemCache t0).refreshAll passes).Get
          = .ok (some { Leaderboard :=
              { Timestamp := t0, BalanceUntouched := 0,
                LeaderboardBalance := { Entries := [] },
                LeaderboardTransfer := { Entries := [] } } }))
    ∧ (∀ now pool err,
        storage.GetLeaderboard pool
          { Now := (now.Truncate time.Minute).Add time.Minute } = .error err →
        (c.refresh now pool).Get = c.Get)
    ∧ (∀ pre now pool post response balanceUntouched,
        storage.GetLeaderboard pool
          { Now := (now.Truncate time.Minute).Add time.Minute }
            = .ok (response, balanceUntouched) →
        (∀ p ∈ post, ∃ err, storage.GetLeaderboard p.2
          { Now := (p.1.Truncate time.Minute).Add time.Minute } = .error err) →
        (c.refreshAll (pre ++ (now, pool) :: post)).Get
          = .ok (some (protoBuildGetLeaderboardResponse response balanceUntouched
              ((now.Truncate time.Minute).Add time.Minute)))) := by
  refine ⟨rfl, ?_, ?_, ?_⟩
  · intro t0 passes h
    rw [refreshAll_of_errors _ passes h]
    rfl
  · intro now pool err h
    rw [refresh_of_error c now pool err h]
  · intro pre now pool post response balanceUntouched hok hpost
    rw [refreshAll_append]
    simp only [leaderboardMemCache.refreshAll]
    rw [refreshAll_of_errors _ post hpost]
    unfold leaderboardMemCache.refresh
    simp only [hok]
    rfl

end server

namespace server

open netip

/-- C19 (witness): a cache built at the project start; a first pass finds the store down,
a second pass, five hours and thirty seconds after the project start, reads one row for
192.168.0.1, a third pass finds the store down again. `Get` returns the snapshot of the
second pass: timestamp five hours and one minute after the project start, baseline 5. -/
theorem leaderboardMemCache_Get_last_success_witness :
    ((NewLeaderboardMemCache storage.projectStarted).refreshAll
        ([(storage.projectStarted.Add time.Minute,
            { transfer := [], batchFault := some "connection refused" })]
          ++ (storage.projectStarted.Add (5 * time.Hour + 30 * time.Second),
              { transfer := [], leaderboard_glance := [⟨storage.addr1, 5, 0, 1⟩] })
            :: [(storage.projectStarted.Add (6 * time.Hour),
                { transfer := [], batchFault := some "connection refused" })])).Get
      = .ok (some (protoBuildGetLeaderboardResponse
          { LeaderboardBalance := some [⟨storage.addr1, 10, 0, 1⟩],
            LeaderboardTransfer := some [⟨storage.addr1, 10, 0, 1⟩] } 5
          (((storage.projectStarted.Add (5 * time.Hour + 30 * time.Second)).Truncate
            time.Minute).Add time.Minute))) :=
  (leaderboardMemCache_Get_last_success (NewLeaderboardMemCache storage.projectStarted)).2.2.2
    [(storage.projectStarted.Add time.Minute,
        { transfer := [], batchFault := some "connection refused" })]
    (storage.projectStarted.Add (5 * time.Hour + 30 * time.Second))
    { transfer := [], leaderboard_glance := [⟨storage.addr1, 5, 0, 1⟩] }
    [(storage.projectStarted.Add (6 * time.Hour),
        { transfer := [], batchFault := some "connection refused" })]
    { LeaderboardBalance := some [⟨storage.addr1, 10, 0, 1⟩],
      LeaderboardTransfer := some [⟨storage.addr1, 10, 0, 1⟩] } 5 rfl
    (by
      intro p hp
      simp only [List.mem_singleton] at hp
      subst hp
      exact ⟨_, rfl⟩)

/-- C20 (failing input): whatever getter `New` is given, the server it builds holds
`leaderboardDebug`. For the server built with the cache of `NewLeaderboardMemCache` on an
empty store, five hours after the project start, `GetLeaderboard` called by the test peer
127.0.0.1 refreshes the materialized view and reads the leaderboard from the store, and
returns the snapshot of that read (baseline 5) where the cache holds the empty snapshot
built at the project start (baseline 0). -/
theorem GetLeaderboard_ignores_given_getter :
    (∀ c clock getter pool runtimeKey,
        (New c clock getter pool runtimeKey).leaderboardGetter = .leaderboardDebug)
    ∧ (GetLeaderboard ⟨fun _ => none, "", ""⟩
        (New {} ⟨storage.projectStarted.Add (5 * time.Hour)⟩
          (.leaderboardMemCache (NewLeaderboardMemCache storage.projectStarted))
          storage.emptyDB "") {}
        { testingPeer := some ⟨.TCPAddr [127, 0, 0, 1]⟩ } {}).result
      = .ok (some { Leaderboard :=
          { Timestamp := storage.projectStarted.Add (5 * time.Hour), BalanceUntouched := 5,
            LeaderboardBalance := { Entries := [] },
            LeaderboardTransfer := { Entries := [] } } })
    ∧ (GetLeaderboard ⟨fun _ => none, "", ""⟩
        (New {} ⟨storage.projectStarted.Add (5 * time.Hour)⟩
          (.leaderboardMemCache (NewLeaderboardMemCache storage.projectStarted))
          storage.emptyDB "") {}
        { testingPeer := some ⟨.TCPAddr [127, 0, 0, 1]⟩ } {}).calls
      = [.getPeer, .readLimiterWait (.v4 [127, 0, 0, 1]), .storageRefreshLeaderboard,
         .storageGetLeaderboard { Now := storage.projectStarted.Add (5 * time.Hour) }]
    ∧ (NewLeaderboardMemCache storage.projectStarted).Get
      = .ok (some { Leaderboard :=
          { Timestamp := storage.projectStarted, BalanceUntouched := 0,
            LeaderboardBalance := { Entries := [] },
            LeaderboardTransfer := { Entries := [] } } }) := by
  refine ⟨fun _ _ _ _ _ => rfl, rfl, rfl, rfl⟩

end server

namespace server

/-- The state a call of `addrLocker.WithLock` leaves, for a function that does not panic, is
the one the caller's view `WithLock` gives, the semaphore counting as obtained exactly
when the function ran. -/
theorem WithLock_caller_view {σ : Type} (l : addrLocker) (now : Int) (ctx : LockContext)
    (addr : netip.Addr) (f : σ → σ) (st : σ) (r : Locking σ)
    (h : l.WithLock now ctx addr (fun x => (f x, false)) st = some r) :
    r.state = WithLock ctx.done (decide (r.ran = 1)) f st := by
  unfold WithLock
  rcases WithLock_ran l now ctx addr _ st r h with ⟨h0, hst, -⟩ | ⟨h1, hst, -, hdone⟩
  · rw [h0, hst]
    split_ifs <;> first | rfl | contradiction
  · rw [h1, hst, hdone]
    rfl

end server

/-! ## The leaderboard handler and the leaderboard read -/

namespace server

open netip

/-- When the caller is resolved and the read limiter admits the call, `GetLeaderboard`
returns what the getter of the server returns: for a cache, the snapshot it holds and no
error. -/
theorem GetLeaderboard_of_admitted (im : Imports) (s : server) (run : Run) (ctx : Context)
    (request : proto.GetLeaderboardRequest) (sender : Addr)
    (hpeer : getPeer im s ctx = .ok sender) (hlim : run.limiterErr = false) :
    (GetLeaderboard im s run ctx request).result
        = (LeaderboardGetter.Get s s.leaderboardGetter).result
    ∧ (∀ cache, s.leaderboardGetter = .leaderboardMemCache cache →
        (GetLeaderboard im s run ctx request).result = .ok cache.response) := by
  unfold GetLeaderboard
  simp only [hpeer, hlim, Bool.false_eq_true, if_false, true_and]
  intro cache hc
  rw [hc]
  rfl

/-- C21 (failing input): the call of TestServer_GetLeaderboard_Empty, a context without peer
on the server `New` builds with `leaderboardNoOp`: `GetLeaderboard` returns
`Unauthenticated`, whatever the clock, the store and the limiter, and so it does on every
server, whatever its getter. Called by the test peer 127.0.0.1 it returns
`ResourceExhausted` when the read limiter refuses, and `Internal` when the limiter admits
the call and the store cannot refresh the materialized view. -/
theorem GetLeaderboard_returns_errors (im : Imports) (run : Run) (clock : Clock)
    (pool : storage.dbConn) (s : server) :
    (GetLeaderboard im (New {} clock .leaderboardNoOp pool "") run {} {}).result
      = .error (status.Error .Unauthenticated "no peer or metadata")
    ∧ (GetLeaderboard im s run {} {}).result
      = .error (status.Error .Unauthenticated "no peer or metadata")
    ∧ (GetLeaderboard im (New {} clock .leaderboardNoOp pool "") { limiterErr := true }
        { testingPeer := some ⟨.TCPAddr [127, 0, 0, 1]⟩ } {}).result
      = .error (status.Error .ResourceExhausted "rate limit exceeded")
    ∧ (GetLeaderboard im
        (New {} clock .leaderboardNoOp
          { transfer := [], refreshFault := some "connection refused" } "") {}
        { testingPeer := some ⟨.TCPAddr [127, 0, 0, 1]⟩ } {}).result
      = .error (status.Error .Internal "unable to refresh leaderboard") := by
  refine ⟨rfl, rfl, rfl, rfl⟩

end server

namespace storage

open time netip

/-- The first `n` rows of a list sorted by a key, largest first: with the rows left out they
are the rows of the list, they are in non-increasing order of the key, and no row left out
has a larger key than one of them. -/
theorem take_insertionSort_desc (key : LeaderboardGlance → Int)
    (rows : List LeaderboardGlance) (n : Nat) :
    (((rows.insertionSort (fun a b => key b ≤ key a)).take n)
        ++ ((rows.insertionSort (fun a b => key b ≤ key a)).drop n)).Perm rows
    ∧ ((rows.insertionSort (fun a b => key b ≤ key a)).take n).Pairwise
        (fun a b => key b ≤ key a)
    ∧ (∀ a ∈ (rows.insertionSort (fun a b => key b ≤ key a)).take n,
        ∀ b ∈ (rows.insertionSort (fun a b => key b ≤ key a)).drop n, key b ≤ key a)
    ∧ ((rows.insertionSort (fun a b => key b ≤ key a)).take n).length
        = min n rows.length := by
  haveI : IsTotal LeaderboardGlance (fun a b => key b ≤ key a) :=
    ⟨fun a b => le_total (key b) (key a)⟩
  haveI : IsTrans LeaderboardGlance (fun a b => key b ≤ key a) :=
    ⟨fun a b c h1 h2 => le_trans h2 h1⟩
  have hsorted : (rows.insertionSort (fun a b => key b ≤ key a)).Pairwise
      (fun a b => key b ≤ key a) :=
    List.sorted_insertionSort (fun a b => key b ≤ key a) rows
  have hperm := List.perm_insertionSort (fun a b => key b ≤ key a) rows
  rw [← List.take_append_drop n (rows.insertionSort (fun a b => key b ≤ key a))] at hsorted
  rw [List.pairwise_append] at hsorted
  refine ⟨?_, hsorted.1, hsorted.2.2, ?_⟩
  · rw [List.take_append_drop]
    exact hperm
  · rw [List.length_take, hperm.length_eq]

/-- C22 (counterexample): the aggregate holds a row for 192.168.0.1 with the balance
difference 9223372036854775807 (2 transfers) and a row for 192.168.0.2 with the balance
difference 0 (1 transfer). One hour after the project start the baseline is 1, and
`GetLeaderboard` returns the balance list with 192.168.0.1 first, at the balance
-9223372036854775808, before 192.168.0.2 at the balance 1: the balances increase along the
list, and the first is not the baseline plus the balance difference of its address. -/
theorem GetLeaderboard_balance_wraps :
    GetLeaderboard
        { transfer := [],
          leaderboard_glance := [⟨addr1, 9223372036854775807, 0, 2⟩, ⟨addr2, 0, 0, 1⟩] }
        { Now := projectStarted.Add Hour }
      = .ok ({ LeaderboardBalance :=
                 some [⟨addr1, -9223372036854775808, 0, 2⟩, ⟨addr2, 1, 0, 1⟩],
               LeaderboardTransfer :=
                 some [⟨addr1, -9223372036854775808, 0, 2⟩, ⟨addr2, 1, 0, 1⟩] }, 1)
    ∧ (-9223372036854775808 : Int) < 1
    ∧ BalanceUntouched (projectStarted.Add Hour) + 9223372036854775807
        ≠ -9223372036854775808 := by
  refine ⟨rfl, by decide, by decide⟩

/-- C22 (amended): whenever the store answers the batch, `GetLeaderboard` returns the
baseline `BalanceUntouched(now)` and two lists that are not nil, each of at most 10
entries and of 10 entries when the aggregate has that many rows. The balance list is made
from the rows of the aggregate with the largest balance differences, in non-increasing
order of the balance difference; the transfer list from the rows with the largest transfer
counts, and it is in non-increasing order of TransferCount. Every entry carries the
address, the comment count and the transfer count of its row, and as BalanceAvailable the
`int64` reduction of `BalanceUntouched(now)` plus the balance difference of the row. When
no such sum leaves the `int64` range, BalanceAvailable is that sum and the balance list is
in non-increasing order of BalanceAvailable. -/
theorem GetLeaderboard_top_ten (db : dbConn) (now : Time) (hf : db.batchFault = none) :
    ∃ (byBalance restBalance byTransfer restTransfer : List LeaderboardGlance)
      (balance transfer : List Glance),
      GetLeaderboard db { Now := now }
        = .ok ({ LeaderboardBalance := some balance, LeaderboardTransfer := some transfer },
               BalanceUntouched now)
      ∧ balance.length ≤ 10 ∧ transfer.length ≤ 10
      ∧ balance.length = min 10 db.leaderboard_glance.length
      ∧ transfer.length = min 10 db.leaderboard_glance.length
      ∧ balance = byBalance.map (fun row =>
          { Address := row.Address,
            BalanceAvailable := wrapInt64 (BalanceUntouched now + row.BalanceDiff),
            CommentCount := row.CommentCount, TransferCount := row.TransferCount })
      ∧ transfer = byTransfer.map (fun row =>
          { Address := row.Address,
            BalanceAvailable := wrapInt64 (BalanceUntouched now + row.BalanceDiff),
            CommentCount := row.CommentCount, TransferCount := row.TransferCount })
      ∧ (byBalance ++ restBalance).Perm db.leaderboard_glance
      ∧ (byTransfer ++ restTransfer).Perm db.leaderboard_glance
      ∧ byBalance.Pairwise (fun a b => b.BalanceDiff ≤ a.BalanceDiff)
      ∧ (∀ a ∈ byBalance, ∀ b ∈ restBalance, b.BalanceDiff ≤ a.BalanceDiff)
      ∧ (∀ a ∈ byTransfer, ∀ b ∈ restTransfer, b.TransferCount ≤ a.TransferCount)
      ∧ transfer.Pairwise (fun a b => b.TransferCount ≤ a.TransferCount)
      ∧ ((∀ row ∈ db.leaderboard_glance,
            isInt64 (BalanceUntouched now + row.BalanceDiff)) →
          balance.Pairwise (fun a b => b.BalanceAvailable ≤ a.BalanceAvailable)
          ∧ (∀ row ∈ db.leaderboard_glance,
              wrapInt64 (BalanceUntouched now + row.BalanceDiff)
                = BalanceUntouched now + row.BalanceDiff)) := by
  obtain ⟨hpB, hsB, htopB, hlenB⟩ :=
    take_insertionSort_desc LeaderboardGlance.BalanceDiff db.leaderboard_glance
      leaderboardLimit
  obtain ⟨hpT, hsT, htopT, hlenT⟩ :=
    take_insertionSort_desc LeaderboardGlance.TransferCount db.leaderboard_glance
      leaderboardLimit
  refine ⟨selectLeaderboardByBalanceDiff db,
    (db.leaderboard_glance.insertionSort
      (fun (a b : LeaderboardGlance) => b.BalanceDiff ≤ a.BalanceDiff)).drop leaderboardLimit,
    selectLeaderboardByTransferCount db,
    (db.leaderboard_glance.insertionSort
      (fun (a b : LeaderboardGlance) => b.TransferCount ≤ a.TransferCount)).drop
      leaderboardLimit,
    _, _, ?_, ?_, ?_, ?_, ?_, rfl, rfl, hpB, hpT, hsB, htopB, htopT, ?_, ?_⟩
  · unfold GetLeaderboard
    rw [hf]
    rfl
  · rw [List.length_map]
    have := hlenB
    unfold leaderboardLimit at this
    unfold selectLeaderboardByBalanceDiff leaderboardLimit
    omega
  · rw [List.length_map]
    have := hlenT
    unfold leaderboardLimit at this
    unfold selectLeaderboardByTransferCount leaderboardLimit
    omega
  · rw [List.length_map]
    exact hlenB
  · rw [List.length_map]
    exact hlenT
  · rw [List.pairwise_map]
    exact hsT
  · intro hfit
    have hw : ∀ row ∈ db.leaderboard_glance,
        wrapInt64 (BalanceUntouched now + row.BalanceDiff)
          = BalanceUntouched now + row.BalanceDiff :=
      fun row hrow => wrapInt64_of_isInt64 (hfit row hrow)
    refine ⟨?_, hw⟩
    rw [List.pairwise_map]
    have hmem : ∀ row ∈ selectLeaderboardByBalanceDiff db, row ∈ db.leaderboard_glance := by
      intro row hrow
      exact hpB.subset (List.mem_append_left _ hrow)
    have hsB2 : (selectLeaderboardByBalanceDiff db).Pairwise
        (fun a b => b.BalanceDiff ≤ a.BalanceDiff) := hsB
    refine (List.Pairwise.and_mem.mp hsB2).imp ?_
    rintro a b ⟨ha, hb, hab⟩
    show wrapInt64 (BalanceUntouched now + b.BalanceDiff)
      ≤ wrapInt64 (BalanceUntouched now + a.BalanceDiff)
    rw [hw a (hmem a ha), hw b (hmem b hb)]
    omega

/-- C22 (witness): the aggregate of TestLeaderboardEmpty has no row, and the two lists are
empty and not nil; with the rows of `::1` (balance difference 10, 10 transfers) and
192.168.0.1 (balance difference -3, 2 transfers), five hours after the project start the
lists hold `::1` with the balance 15 before 192.168.0.1 with the balance 2. -/
theorem GetLeaderboard_top_ten_witness :
    GetLeaderboard emptyDB { Now := projectStarted }
      = .ok ({ LeaderboardBalance := some [], LeaderboardTransfer := some [] }, 0)
    ∧ GetLeaderboard
        { transfer := [],
          leaderboard_glance :=
            [⟨addr1, -3, 0, 2⟩,
             ⟨.v6 [0, 0, 0, 0, 0, 0, 0, 0, 0, 0, 0, 0, 0, 0, 0, 1] "", 10, 0, 10⟩] }
        { Now := projectStarted.Add (5 * Hour) }
      = .ok ({ LeaderboardBalance :=
                 some [⟨.v6 [0, 0, 0, 0, 0, 0, 0, 0, 0, 0, 0, 0, 0, 0, 0, 1] "", 15, 0, 10⟩,
                       ⟨addr1, 2, 0, 2⟩],
               LeaderboardTransfer :=
                 some [⟨.v6 [0, 0, 0, 0, 0, 0, 0, 0, 0, 0, 0, 0, 0, 0, 0, 1] "", 15, 0, 10⟩,
                       ⟨addr1, 2, 0, 2⟩] }, 5)
    ∧ ∃ balance transfer : List Glance,
        GetLeaderboard
            { transfer := [],
              leaderboard_glance :=
                [⟨addr1, -3, 0, 2⟩,
                 ⟨.v6 [0, 0, 0, 0, 0, 0, 0, 0, 0, 0, 0, 0, 0, 0, 0, 1] "", 10, 0, 10⟩] }
            { Now := projectStarted.Add (5 * Hour) }
          = .ok ({ LeaderboardBalance := some balance, LeaderboardTransfer := some transfer },
                 BalanceUntouched (projectStarted.Add (5 * Hour)))
        ∧ balance.length ≤ 10 ∧ transfer.length ≤ 10
        ∧ transfer.Pairwise (fun a b => b.TransferCount ≤ a.TransferCount)
        ∧ balance.Pairwise (fun a b => b.BalanceAvailable ≤ a.BalanceAvailable) := by
  refine ⟨rfl, rfl, ?_⟩
  obtain ⟨-, -, -, -, balance, transfer, h, hb, ht, -, -, -, -, -, -, -, -, -, hT, hfit⟩ :=
    GetLeaderboard_top_ten
      { transfer := [],
        leaderboard_glance :=
          [⟨addr1, -3, 0, 2⟩,
           ⟨.v6 [0, 0, 0, 0, 0, 0, 0, 0, 0, 0, 0, 0, 0, 0, 0, 1] "", 10, 0, 10⟩] }
      (projectStarted.Add (5 * Hour)) rfl
  exact ⟨balance, transfer, h, hb, ht, hT, (hfit (by decide)).1⟩

end storage

namespace server

open netip

/-- C25: the response `protoBuildGetLeaderboardResponse` builds has a balance list and a
transfer list as long as the input lists; its i-th entry carries the address bytes, the
balance, the comment count and the transfer count of the i-th input entry, and the
timestamp `now`; its baseline is the given one and its timestamp is `now`. -/
theorem protoBuildGetLeaderboardResponse_entries (response : storage.GetLeaderboardResponse)
    (balanceUntouched : Int) (now : time.Time) :
    (protoBuildGetLeaderboardResponse response balanceUntouched now).Leaderboard.LeaderboardBalance.Entries.length
      = (response.LeaderboardBalance.getD []).length
    ∧ (protoBuildGetLeaderboardResponse response balanceUntouched now).Leaderboard.LeaderboardTransfer.Entries.length
      = (response.LeaderboardTransfer.getD []).length
    ∧ (∀ (i : Nat) (g : storage.Glance), (response.LeaderboardBalance.getD [])[i]? = some g →
        (protoBuildGetLeaderboardResponse response balanceUntouched now).Leaderboard.LeaderboardBalance.Entries[i]?
          = some ({ Timestamp := now, Address := g.Address.AsSlice,
                    BalanceAvailable := g.BalanceAvailable, CommentCount := g.CommentCount,
                    TransferCount := g.TransferCount } : proto.Glance))
    ∧ (∀ (i : Nat) (g : storage.Glance), (response.LeaderboardTransfer.getD [])[i]? = some g →
        (protoBuildGetLeaderboardResponse response balanceUntouched now).Leaderboard.LeaderboardTransfer.Entries[i]?
          = some ({ Timestamp := now, Address := g.Address.AsSlice,
                    BalanceAvailable := g.BalanceAvailable, CommentCount := g.CommentCount,
                    TransferCount := g.TransferCount } : proto.Glance))
    ∧ (protoBuildGetLeaderboardResponse response balanceUntouched now).Leaderboard.BalanceUntouched
      = balanceUntouched
    ∧ (protoBuildGetLeaderboardResponse response balanceUntouched now).Leaderboard.Timestamp
      = now
    ∧ (∀ e, (e ∈ (protoBuildGetLeaderboardResponse response balanceUntouched now).Leaderboard.LeaderboardBalance.Entries
          ∨ e ∈ (protoBuildGetLeaderboardResponse response balanceUntouched now).Leaderboard.LeaderboardTransfer.Entries) →
        e.Timestamp = now) := by
  refine ⟨?_, ?_, ?_, ?_, rfl, rfl, ?_⟩
  · simp only [protoBuildGetLeaderboardResponse, List.length_map]
  · simp only [protoBuildGetLeaderboardResponse, List.length_map]
  · intro i g h
    simp only [protoBuildGetLeaderboardResponse, List.getElem?_map, h, Option.map_some']
  · intro i g h
    simp only [protoBuildGetLeaderboardResponse, List.getElem?_map, h, Option.map_some']
  · intro e he
    simp only [protoBuildGetLeaderboardResponse, List.mem_map] at he
    rcases he with ⟨g, -, rfl⟩ | ⟨g, -, rfl⟩ <;> rfl

/-- C25 (witness): the response of TestServer_GetLeaderboard, built at the project start
with baseline 0: the second entry of the balance list is 192.168.0.2 with balance 1, the
first entry of the transfer list is 192.168.0.2 with 999 transfers. -/
theorem protoBuildGetLeaderboardResponse_entries_witness :
    (protoBuildGetLeaderboardResponse
        { LeaderboardBalance := some [⟨storage.addr1, 999, 0, 0⟩, ⟨storage.addr2, 1, 0, 0⟩],
          LeaderboardTransfer := some [⟨storage.addr2, 0, 0, 999⟩, ⟨storage.addr1, 0, 0, 1⟩] }
        0 storage.projectStarted).Leaderboard.LeaderboardBalance.Entries[1]?
      = some ({ Timestamp := storage.projectStarted, Address := [192, 168, 0, 2],
                BalanceAvailable := 1, CommentCount := 0, TransferCount := 0 }
              : proto.Glance)
    ∧ (protoBuildGetLeaderboardResponse
        { LeaderboardBalance := some [⟨storage.addr1, 999, 0, 0⟩, ⟨storage.addr2, 1, 0, 0⟩],
          LeaderboardTransfer := some [⟨storage.addr2, 0, 0, 999⟩, ⟨storage.addr1, 0, 0, 1⟩] }
        0 storage.projectStarted).Leaderboard.LeaderboardTransfer.Entries[0]?
      = some ({ Timestamp := storage.projectStarted, Address := [192, 168, 0, 2],
                BalanceAvailable := 0, CommentCount := 0, TransferCount := 999 }
              : proto.Glance) :=
  ⟨(protoBuildGetLeaderboardResponse_entries
      { LeaderboardBalance := some [⟨storage.addr1, 999, 0, 0⟩, ⟨storage.addr2, 1, 0, 0⟩],
        LeaderboardTransfer := some [⟨storage.addr2, 0, 0, 999⟩, ⟨storage.addr1, 0, 0, 1⟩] }
      0 storage.projectStarted).2.2.1 1 ⟨storage.addr2, 1, 0, 0⟩ rfl,
   (protoBuildGetLeaderboardResponse_entries
      { LeaderboardBalance := some [⟨storage.addr1, 999, 0, 0⟩, ⟨storage.addr2, 1, 0, 0⟩],
        LeaderboardTransfer := some [⟨storage.addr2, 0, 0, 999⟩, ⟨storage.addr1, 0, 0, 1⟩] }
      0 storage.projectStarted).2.2.2.1 0 ⟨storage.addr2, 0, 0, 999⟩ rfl⟩

end server

namespace server

open netip

theorem Minute_eq : time.Minute = 60000000000 := by decide

theorem zeroUnixNano_eq : time.zeroUnixNano = -62135596800000000000 := by decide

/-- The instant of the next refresh in nanoseconds: `now` rounded down to the minute, plus a
minute. -/
theorem nextRequest_unixNano (now : time.Time) :
    ((now.Truncate time.Minute).Add time.Minute).unixNano
      = now.unixNano - now.unixNano % 60000000000 + 60000000000 := by
  unfold time.Time.Truncate time.Time.Add
  rw [Minute_eq, zeroUnixNano_eq]
  simp only [show ¬ ((60000000000 : Int) ≤ 0) by decide, if_false]
  omega

/-- C26: for every instant `now`, the instant `now.Truncate(time.Minute).Add(time.Minute)`
of the next refresh is a whole minute, is later than `now` and at most one minute later, and
no whole minute later than `now` is earlier; a pass of the refresh loop that reads the
leaderboard stores a snapshot whose timestamp is that instant and whose baseline is
`BalanceUntouched` of that instant. -/
theorem refresh_at_next_minute (now : time.Time) :
    ((now.Truncate time.Minute).Add time.Minute).unixNano % time.Minute = 0
    ∧ now.unixNano < ((now.Truncate time.Minute).Add time.Minute).unixNano
    ∧ ((now.Truncate time.Minute).Add time.Minute).unixNano - now.unixNano ≤ time.Minute
    ∧ (∀ t : time.Time, t.unixNano % time.Minute = 0 → now.unixNano < t.unixNano →
        ((now.Truncate time.Minute).Add time.Minute).unixNano ≤ t.unixNano)
    ∧ (∀ (cache : leaderboardMemCache) (pool : storage.dbConn), pool.batchFault = none →
        ∃ response, (cache.refresh now pool).response = some response
          ∧ response.Leaderboard.Timestamp = (now.Truncate time.Minute).Add time.Minute
          ∧ response.Leaderboard.BalanceUntouched
              = storage.BalanceUntouched ((now.Truncate time.Minute).Add time.Minute)) := by
  have hn := nextRequest_unixNano now
  refine ⟨?_, ?_, ?_, ?_, ?_⟩
  · rw [hn, Minute_eq]; omega
  · rw [hn]; omega
  · rw [hn, Minute_eq]; omega
  · intro t ht hlt
    rw [Minute_eq] at ht
    rw [hn]
    omega
  · intro cache pool hf
    unfold leaderboardMemCache.refresh storage.GetLeaderboard
    simp only [hf]
    exact ⟨_, rfl, rfl, rfl⟩

/-- C26 (witness): five hours and thirty seconds after the project start the next refresh
is five hours and one minute after it; the whole minute five hours and two minutes after
the project start is not earlier. -/
theorem refresh_at_next_minute_witness :
    ((storage.projectStarted.Add (5 * time.Hour + 30 * time.Second)).Truncate
        time.Minute).Add time.Minute
      = storage.projectStarted.Add (5 * time.Hour + time.Minute)
    ∧ (((storage.projectStarted.Add (5 * time.Hour + 30 * time.Second)).Truncate
        time.Minute).Add time.Minute).unixNano
      ≤ (storage.projectStarted.Add (5 * time.Hour + 2 * time.Minute)).unixNano :=
  ⟨by decide,
   (refresh_at_next_minute
      (storage.projectStarted.Add (5 * time.Hour + 30 * time.Second))).2.2.2.1
      (storage.projectStarted.Add (5 * time.Hour + 2 * time.Minute)) (by decide) (by decide)⟩

end server

/-! ## The glance -/

namespace storage

open time netip

theorem scanInt64_natCast {n : Nat} (h : (n : Int) ≤ maxInt64) :
    scanInt64 (n : Int) = .ok (n : Int) := by
  unfold scanInt64
  have : isInt64 (n : Int) := by
    unfold isInt64 minInt64
    unfold maxInt64 at h ⊢
    omega
  rw [if_pos this]

theorem countCommentWhereAddress_eq (db : dbConn) (a : Addr) :
    countCommentWhereAddress db a
      = ((db.comment.countP (fun c => decide (c.Address = a)) : Nat) : Int) := by
  unfold countCommentWhereAddress
  rw [List.countP_eq_length_filter]

theorem countTransferWhereRecipientOrSender_eq (db : dbConn) (a : Addr) :
    countTransferWhereRecipientOrSender db a
      = ((db.transfer.countP (fun t => decide (t.Sender = a ∨ t.Recipient = a)) : Nat)
          : Int) := by
  unfold countTransferWhereRecipientOrSender
  rw [List.countP_eq_length_filter]
  congr 2
  apply List.filter_congr
  intro t _
  by_cases h1 : t.Recipient = a <;> by_cases h2 : t.Sender = a <;> simp [h1, h2]

/-- C23: whatever `GetGlance` returns for an address and a time is the glance of the
specification: the address, the balance `GetBalance` returns for that address and time on
the same ledger, the number of comments of the address, the number of transfers that have
it as sender or recipient, and `BalanceUntouched(now)` as baseline; and on tables of at
most 9223372036854775807 rows `GetGlance` returns that glance whenever `GetBalance`
returns a balance. -/
theorem GetGlance_eq_GetGlanceSpec (db : dbConn) (address : Addr) (now : Time) :
    (∀ glance baseline,
        GetGlance db { Address := address, Now := now } = .ok (glance, baseline) →
        GetGlanceSpec db address now = some (glance, baseline))
    ∧ ((db.comment.length : Int) ≤ maxInt64 → (db.transfer.length : Int) ≤ maxInt64 →
        (GetGlance db { Address := address, Now := now }).toOption
          = GetGlanceSpec db address now) := by
  have hc : ((db.comment.countP (fun c => decide (c.Address = address)) : Nat) : Int)
      ≤ (db.comment.length : Int) := by
    exact_mod_cast List.countP_le_length _
  have ht : ((db.transfer.countP
      (fun t => decide (t.Sender = address ∨ t.Recipient = address)) : Nat) : Int)
      ≤ (db.transfer.length : Int) := by
    exact_mod_cast List.countP_le_length _
  constructor
  · intro glance baseline h
    unfold GetGlance at h
    unfold GetGlanceSpec GetBalance
    cases hf : db.batchFault with
    | some msg => rw [hf] at h; cases h
    | none =>
      rw [hf] at h
      simp only at h ⊢
      cases hd : addBalanceDiff db address 0 with
      | error err => rw [hd] at h; cases h
      | ok diff =>
        rw [hd] at h
        simp only at h ⊢
        rw [countCommentWhereAddress_eq, countTransferWhereRecipientOrSender_eq] at h
        cases h1 : scanInt64 ((db.comment.countP
            (fun c => decide (c.Address = address)) : Nat) : Int) with
        | error err => rw [h1] at h; cases h
        | ok cc =>
          rw [h1] at h
          simp only at h
          cases h2 : scanInt64 ((db.transfer.countP
              (fun t => decide (t.Sender = address ∨ t.Recipient = address)) : Nat) : Int) with
          | error err => rw [h2] at h; cases h
          | ok tc =>
            rw [h2] at h
            simp only at h
            obtain ⟨-, rfl⟩ := scanInt64_eq_ok.mp h1
            obtain ⟨-, rfl⟩ := scanInt64_eq_ok.mp h2
            injection h with h
            rw [← h]
  · intro hcl htl
    unfold GetGlance GetGlanceSpec GetBalance
    cases hf : db.batchFault with
    | some msg => rfl
    | none =>
      simp only
      cases hd : addBalanceDiff db address 0 with
      | error err => rfl
      | ok diff =>
        simp only
        rw [countCommentWhereAddress_eq, countTransferWhereRecipientOrSender_eq,
          scanInt64_natCast (le_trans hc hcl), scanInt64_natCast (le_trans ht htl)]
        rfl

/-- C23 (witness): after a transfer of 100 from 192.168.0.1 to 192.168.0.2 and a comment of
192.168.0.2, five hours after the project start the glance of 192.168.0.2 holds the
balance 105, one comment and one transfer, and the baseline is 5. -/
theorem GetGlance_eq_GetGlanceSpec_witness :
    GetGlance { transfer := [transferOf 1 addr1 addr2 100],
                comment := [⟨projectStarted, 2, addr2, "hello"⟩] }
        { Address := addr2, Now := projectStarted.Add (5 * Hour) }
      = .ok (⟨addr2, 105, 1, 1⟩, 5)
    ∧ GetGlanceSpec { transfer := [transferOf 1 addr1 addr2 100],
                      comment := [⟨projectStarted, 2, addr2, "hello"⟩] }
        addr2 (projectStarted.Add (5 * Hour)) = some (⟨addr2, 105, 1, 1⟩, 5)
    ∧ GetBalance { transfer := [transferOf 1 addr1 addr2 100],
                   comment := [⟨projectStarted, 2, addr2, "hello"⟩] }
        { Address := addr2, Now := projectStarted.Add (5 * Hour) } = .ok 105 :=
  ⟨rfl,
   (GetGlance_eq_GetGlanceSpec
      { transfer := [transferOf 1 addr1 addr2 100],
        comment := [⟨projectStarted, 2, addr2, "hello"⟩] }
      addr2 (projectStarted.Add (5 * Hour))).1 ⟨addr2, 105, 1, 1⟩ 5 rfl,
   rfl⟩

end storage

/-! ## Transfers made one after the other -/

namespace storage

open time netip

end storage

/-! ## The records a transfer appends -/

namespace storage

open time netip

/-- Appending a row with an amount that is not negative: for an address other than the
sender of the row the amounts sent stay the same and the amounts received do not shrink,
and the balance read does not shrink either unless the old balance plus the amount leaves
the `int64` range. -/
theorem append_row_other_address (db : dbConn) (row : Transfer) (h0 : 0 ≤ row.Amount)
    (c : Addr) (hc : c ≠ row.Sender) :
    sumAmountWhereSender { db with transfer := db.transfer ++ [row] } c
        = sumAmountWhereSender db c
    ∧ sumAmountWhereRecipient db c
        ≤ sumAmountWhereRecipient { db with transfer := db.transfer ++ [row] } c
    ∧ (∀ now v w, GetBalance db { Address := c, Now := now } = .ok v →
        GetBalance { db with transfer := db.transfer ++ [row] } { Address := c, Now := now }
          = .ok w →
        isInt64 (v + row.Amount) → v ≤ w) := by
  have hs : sumAmountWhereSender { db with transfer := db.transfer ++ [row] } c
      = sumAmountWhereSender db c := by
    rw [sumAmountWhereSender_append, if_neg (Ne.symm hc), add_zero]
  refine ⟨hs, ?_, ?_⟩
  · rw [sumAmountWhereRecipient_append]
    split_ifs <;> omega
  · intro now v w hv hw hfit
    obtain ⟨-, -, -, hv⟩ := GetBalance_eq_ok.mp hv
    obtain ⟨-, -, -, hw⟩ := GetBalance_eq_ok.mp hw
    rw [hs, sumAmountWhereRecipient_append] at hw
    by_cases hr : row.Recipient = c
    · rw [if_pos hr] at hw
      have : w = wrapInt64 (v + row.Amount) := by
        rw [hw, hv, wrapInt64_wrapInt64_add]
        congr 1
        omega
      rw [this, wrapInt64_of_isInt64 hfit]
      omega
    · rw [if_neg hr, add_zero] at hw
      rw [hw, hv]

/-- C27 (counterexample): five hours after the project start, on an empty ledger,
`CreateTransfer` accepts the amount -5 from 192.168.0.1 to 192.168.0.2 and appends the
record; the balance of 192.168.0.2, which is not the sender, goes from 5 to 0. It also
accepts the amount 0, and the amount 1 from 192.168.0.1 to 192.168.0.1. -/
theorem CreateTransfer_appends_unchecked_record :
    CreateTransfer emptyDB 1
        { Amount := -5, Sender := addr1, Now := projectStarted.Add (5 * Hour),
          Recipient := addr2 }
      = (.ok { Transfer := { Created := projectStarted.Add (5 * Hour), ID := 1,
                             Sender := addr1, Recipient := addr2, Amount := -5 },
               SenderBalance := 10 },
         { transfer := [{ Created := projectStarted.Add (5 * Hour), ID := 1,
                          Sender := addr1, Recipient := addr2, Amount := -5 }] })
    ∧ GetBalance emptyDB { Address := addr2, Now := projectStarted.Add (5 * Hour) } = .ok 5
    ∧ GetBalance
        { transfer := [{ Created := projectStarted.Add (5 * Hour), ID := 1,
                         Sender := addr1, Recipient := addr2, Amount := -5 }] }
        { Address := addr2, Now := projectStarted.Add (5 * Hour) } = .ok 0
    ∧ (CreateTransfer emptyDB 2
        { Amount := 0, Sender := addr1, Now := projectStarted.Add (5 * Hour),
          Recipient := addr2 }).2.transfer
      = [{ Created := projectStarted.Add (5 * Hour), ID := 2, Sender := addr1,
           Recipient := addr2, Amount := 0 }]
    ∧ (CreateTransfer emptyDB 3
        { Amount := 1, Sender := addr1, Now := projectStarted.Add (5 * Hour),
          Recipient := addr1 }).2.transfer
      = [{ Created := projectStarted.Add (5 * Hour), ID := 3, Sender := addr1,
           Recipient := addr1, Amount := 1 }] := by
  refine ⟨rfl, rfl, rfl, rfl, rfl⟩

end storage

namespace server

open netip

/-- C27 (amended): `storage.CreateTransfer` appends the record of the request it accepts as
it is, with the amount, the sender and the recipient of the request; the requests with an
amount below 1 or with the caller as recipient are rejected by the handler
`CreateTransfer` of the server before it calls the storage layer. So every record the
handler appends has an amount of at least 1 and a sender different from its recipient, and
for every address other than the sender of such a record the amounts sent stay the same,
the amounts received do not shrink, and the balance read does not shrink unless the old
balance plus the amount leaves the `int64` range. -/
theorem CreateTransfer_appends_checked_record (im : Imports) (s : server) (run : Run)
    (ctx : Context) (request : proto.CreateTransferRequest) :
    (∀ (db : storage.dbConn) (id : storage.UUID) (dbReq : storage.CreateTransferRequest)
        (response : storage.CreateTransferResponse),
        (storage.CreateTransfer db id dbReq).1 = .ok response →
        (storage.CreateTransfer db id dbReq).2
          = { db with transfer := db.transfer ++
                [{ Created := dbReq.Now, ID := id, Sender := dbReq.Sender,
                   Recipient := dbReq.Recipient, Amount := dbReq.Amount }] })
    ∧ ((CreateTransfer im s run ctx request).pool = s.pool
      ∨ ∃ row : storage.Transfer,
          (CreateTransfer im s run ctx request).pool
            = { s.pool with transfer := s.pool.transfer ++ [row] }
          ∧ 1 ≤ row.Amount ∧ row.Sender ≠ row.Recipient
          ∧ ∀ c, c ≠ row.Sender →
              storage.sumAmountWhereSender (CreateTransfer im s run ctx request).pool c
                = storage.sumAmountWhereSender s.pool c
              ∧ storage.sumAmountWhereRecipient s.pool c
                ≤ storage.sumAmountWhereRecipient (CreateTransfer im s run ctx request).pool c
              ∧ (∀ now v w,
                  storage.GetBalance s.pool { Address := c, Now := now } = .ok v →
                  storage.GetBalance (CreateTransfer im s run ctx request).pool
                    { Address := c, Now := now } = .ok w →
                  isInt64 (v + row.Amount) → v ≤ w)) := by
  constructor
  · intro db id dbReq response hok
    rw [storage.CreateTransfer_db_of_ok hok]
    obtain ⟨balance, -, -, -, hresp⟩ := storage.CreateTransfer_eq_ok.mp hok
    rw [hresp]
  · rcases CreateTransfer_pool im s run ctx request with h | ⟨row, h1, -, h2, -, h3⟩
    · exact Or.inl h
    · refine Or.inr ⟨row, h1, h2, h3, fun c hc => ?_⟩
      rw [h1]
      exact storage.append_row_other_address s.pool row (by omega) c hc

/-- C27 (witness): the test peer 127.0.0.1 sends 1 to 127.0.0.2 five hours after the
project start: the handler appends the record, and the balance of 127.0.0.2 goes from 5 to
6. -/
theorem CreateTransfer_appends_checked_record_witness :
    (CreateTransfer ⟨fun _ => none, "", ""⟩
        ⟨{}, ⟨storage.projectStarted.Add (5 * time.Hour)⟩, storage.emptyDB, "",
          .leaderboardNoOp⟩ {}
        { testingPeer := some ⟨.TCPAddr [127, 0, 0, 1]⟩ }
        { Amount := 1, RecipientAddress := [127, 0, 0, 2] }).pool
      = { transfer := [{ Created := storage.projectStarted.Add (5 * time.Hour), ID := 1,
                         Sender := .v4 [127, 0, 0, 1], Recipient := .v4 [127, 0, 0, 2],
                         Amount := 1 }] }
    ∧ (storage.CreateTransfer storage.emptyDB 1
        { Amount := 1, Sender := .v4 [127, 0, 0, 1],
          Now := storage.projectStarted.Add (5 * time.Hour),
          Recipient := .v4 [127, 0, 0, 2] }).2
      = { storage.emptyDB with transfer := storage.emptyDB.transfer ++
            [{ Created := storage.projectStarted.Add (5 * time.Hour), ID := 1,
               Sender := .v4 [127, 0, 0, 1], Recipient := .v4 [127, 0, 0, 2],
               Amount := 1 }] } :=
  ⟨rfl,
   (CreateTransfer_appends_checked_record ⟨fun _ => none, "", ""⟩
      ⟨{}, ⟨storage.projectStarted.Add (5 * time.Hour)⟩, storage.emptyDB, "",
        .leaderboardNoOp⟩ {}
      { testingPeer := some ⟨.TCPAddr [127, 0, 0, 1]⟩ }
      { Amount := 1, RecipientAddress := [127, 0, 0, 2] }).1 storage.emptyDB 1
      { Amount := 1, Sender := .v4 [127, 0, 0, 1],
        Now := storage.projectStarted.Add (5 * time.Hour),
        Recipient := .v4 [127, 0, 0, 2] }
      { Transfer := { Created := storage.projectStarted.Add (5 * time.Hour), ID := 1,
                      Sender := .v4 [127, 0, 0, 1], Recipient := .v4 [127, 0, 0, 2],
                      Amount := 1 },
        SenderBalance := 4 } (by rfl)⟩

end server

/-! ## Eviction of an address lock in use -/

namespace server

open netip

/-- C28 (failing input): three goroutines and a locker with a TTL of 10 ms. Goroutine 0
calls `WithLock` for 192.168.0.1 at instant 0, gets channel 0 and sends on it: its
function runs. At 5 ms goroutine 1 calls `WithLock` for the same key, which resets the
timer to 15 ms, and waits at the send on channel 0. At 20 ms the timer has fired: the
table has no entry for the key, while goroutine 0 holds its semaphore and goroutine 1
awaits it. Goroutine 2 then calls `WithLock` for the key, gets the new channel 1 and sends
on it: goroutines 0 and 2 are inside their functions for the same key at the same time,
with different semaphores, and goroutine 1 still waits on channel 0. -/
theorem WithLock_entry_removed_while_held_and_awaited :
    (World.start (10 * time.Millisecond) 3).run
        [.call 0 storage.addr1 false, .send 0, .sleep (5 * time.Millisecond),
         .call 1 storage.addr1 false, .sleep (15 * time.Millisecond)]
      = some { locker := { deleteAfter := 10 * time.Millisecond, m := [], full := [0],
                           made := 1 },
               now := 20 * time.Millisecond,
               places := [.inFn storage.addr1 ⟨0, 10 * time.Millisecond⟩,
                          .waiting storage.addr1 ⟨0, 15 * time.Millisecond⟩,
                          .idle] }
    ∧ (World.start (10 * time.Millisecond) 3).run
        [.call 0 storage.addr1 false, .send 0, .sleep (5 * time.Millisecond),
         .call 1 storage.addr1 false, .sleep (15 * time.Millisecond),
         .call 2 storage.addr1 false, .send 2]
      = some { locker := { deleteAfter := 10 * time.Millisecond,
                           m := [(storage.addr1, ⟨1, 30 * time.Millisecond⟩)],
                           full := [1, 0], made := 2 },
               now := 20 * time.Millisecond,
               places := [.inFn storage.addr1 ⟨0, 10 * time.Millisecond⟩,
                          .waiting storage.addr1 ⟨0, 15 * time.Millisecond⟩,
                          .inFn storage.addr1 ⟨1, 30 * time.Millisecond⟩] }
    ∧ (World.start (10 * time.Millisecond) 3).run
        [.call 0 storage.addr1 false, .send 0, .sleep (5 * time.Millisecond),
         .call 1 storage.addr1 false, .sleep (15 * time.Millisecond),
         .call 2 storage.addr1 false, .send 2, .send 1] = none := by
  decide

/-- Whatever the TTL and the key: a goroutine whose function is still running when the TTL
has passed is joined inside `WithLock` by the next goroutine that calls for the key. -/
theorem World_two_holders_any_ttl (d : Nat) (addr : netip.Addr) :
    (World.start d 2).run
        [.call 0 addr false, .send 0, .sleep d, .call 1 addr false, .send 1]
      = some { locker := { deleteAfter := d, m := [(addr, ⟨1, (d : Int) + d⟩)],
                           full := [1, 0], made := 2 },
               now := d,
               places := [.inFn addr ⟨0, (0 : Int) + d⟩, .inFn addr ⟨1, (d : Int) + d⟩] } := by
  simp [World.start, World.run, World.step, newAddrLocker, addrLocker.lockFor,
    addrLocker.canSend, addrLocker.send, addrLocker.expire, List.lookup]

end server

/-! ## The two forms of an IPv4 address -/

namespace server

open netip

/-- A call of `CreateTransfer` with an amount of at least 1 and recipient bytes that are an
address gets the error "cannot transfer to self" exactly when the caller `getPeer` resolves
and the recipient are the same `netip.Addr`. -/
theorem CreateTransfer_self_error_iff (im : Imports) (s : server) (run : Run) (ctx : Context)
    (request : proto.CreateTransferRequest) (sender recipient : Addr)
    (hpeer : getPeer im s ctx = .ok sender) (ha : 1 ≤ request.Amount)
    (hr : AddrFromSlice request.RecipientAddress = (recipient, true)) :
    (CreateTransfer im s run ctx request).result
        = .error (status.Error .InvalidArgument "cannot transfer to self")
      ↔ sender = recipient := by
  have ha2 : ¬ request.Amount < 1 := by omega
  have hconv : (if request.RecipientAddress.length = 4
        then some (AddrFrom4 request.RecipientAddress)
      else if request.RecipientAddress.length = 16
        then some (AddrFrom16 request.RecipientAddress)
      else none) = some recipient := by
    unfold AddrFromSlice at hr
    split_ifs at hr ⊢ with h4 h16
    · injection hr with hr _; rw [hr]
    · injection hr with hr _; rw [hr]
    · injection hr with _ hr; cases hr
  unfold CreateTransfer
  simp only [ha2, if_false, hconv, hpeer]
  by_cases hself : sender = recipient
  · simp only [hself, if_true]
  · simp only [hself, if_false, iff_false]
    intro h
    cases hlim : run.limiterErr with
    | true =>
      simp only [hlim, if_true] at h
      injection h with h
      exact absurd h (by decide)
    | false =>
      simp only [hlim, Bool.false_eq_true, if_false] at h
      unfold WithLock at h
      cases hdone : ctx.done with
      | true => simp only [hdone, if_true] at h; cases h
      | false =>
        simp only [hdone, Bool.false_eq_true, if_false] at h
        cases hacq : run.acquired with
        | false => simp only [hacq, Bool.false_eq_true, if_false] at h; cases h
        | true =>
          simp only [hacq, if_true] at h
          unfold createTransferLocked at h
          cases hbegin : run.beginErr with
          | true =>
            simp only [hbegin, if_true] at h
            injection h with h
            exact absurd h (by decide)
          | false =>
            simp only [hbegin, Bool.false_eq_true, if_false] at h
            cases hst : storage.CreateTransfer s.pool run.id
                { Amount := request.Amount, Sender := sender, Now := s.clock.Now,
                  Recipient := recipient } with
            | mk res tx =>
              simp only [hst] at h
              cases res with
              | error err =>
                simp only at h
                by_cases his : errors.Is err .ErrInsufficientBalance = true
                · simp only [his, if_true] at h
                  injection h with h
                  exact absurd h (by decide)
                · simp only [his, if_false] at h
                  injection h with h
                  exact absurd h (by decide)
              | ok response =>
                simp only at h
                cases hcommit : run.commitErr with
                | true =>
                  simp only [hcommit, if_true] at h
                  injection h with h
                  exact absurd h (by decide)
                | false =>
                  simp only [hcommit, Bool.false_eq_true, if_false] at h
                  cases h

/-- C29 (counterexample): the IPv4 address 192.168.0.1. From the 16-byte peer IP
`::ffff:192.168.0.1` `getPeer` derives an IPv6 address, from the 4 recipient bytes
`CreateTransfer` derives an IPv4 address, and the two are not equal: five hours after the
project start the transfer of 1 between the two forms is not rejected, it commits. -/
theorem CreateTransfer_between_mapped_forms_commits :
    net.To16 [192, 168, 0, 1] = [0, 0, 0, 0, 0, 0, 0, 0, 0, 0, 255, 255, 192, 168, 0, 1]
    ∧ getPeer ⟨fun _ => none, "", ""⟩
        ⟨{}, ⟨storage.projectStarted.Add (5 * time.Hour)⟩, storage.emptyDB, "",
          .leaderboardNoOp⟩
        { testingPeer := some ⟨.TCPAddr (net.To16 [192, 168, 0, 1])⟩ }
      = .ok (.v6 [0, 0, 0, 0, 0, 0, 0, 0, 0, 0, 255, 255, 192, 168, 0, 1] "")
    ∧ AddrFromSlice [192, 168, 0, 1] = (.v4 [192, 168, 0, 1], true)
    ∧ (Addr.v6 [0, 0, 0, 0, 0, 0, 0, 0, 0, 0, 255, 255, 192, 168, 0, 1] "")
        ≠ .v4 [192, 168, 0, 1]
    ∧ (CreateTransfer ⟨fun _ => none, "", ""⟩
        ⟨{}, ⟨storage.projectStarted.Add (5 * time.Hour)⟩, storage.emptyDB, "",
          .leaderboardNoOp⟩ {}
        { testingPeer := some ⟨.TCPAddr (net.To16 [192, 168, 0, 1])⟩ }
        { Amount := 1, RecipientAddress := [192, 168, 0, 1] }).result
      = .ok { Transfer :=
                { Created := storage.projectStarted.Add (5 * time.Hour), Id := 1,
                  SenderAddress := [0, 0, 0, 0, 0, 0, 0, 0, 0, 0, 255, 255, 192, 168, 0, 1],
                  RecipientAddress := [192, 168, 0, 1], Amount := 1 },
              SenderBalance :=
                { Timestamp := storage.projectStarted.Add (5 * time.Hour),
                  Address := [0, 0, 0, 0, 0, 0, 0, 0, 0, 0, 255, 255, 192, 168, 0, 1],
                  Available := 4 } }
    ∧ (CreateTransfer ⟨fun _ => none, "", ""⟩
        ⟨{}, ⟨storage.projectStarted.Add (5 * time.Hour)⟩, storage.emptyDB, "",
          .leaderboardNoOp⟩ {}
        { testingPeer := some ⟨.TCPAddr (net.To16 [192, 168, 0, 1])⟩ }
        { Amount := 1, RecipientAddress := [192, 168, 0, 1] }).pool.transfer
      = [{ Created := storage.projectStarted.Add (5 * time.Hour), ID := 1,
           Sender := .v6 [0, 0, 0, 0, 0, 0, 0, 0, 0, 0, 255, 255, 192, 168, 0, 1] "",
           Recipient := .v4 [192, 168, 0, 1], Amount := 1 }] := by
  refine ⟨rfl, rfl, rfl, by decide, rfl, rfl⟩

/-- C29 (amended): `getPeer` and `CreateTransfer` keep the form of the bytes they are given:
4 bytes are an IPv4 address, 16 bytes an IPv6 address, also when these are the 16-byte form
of an IPv4 address. So an IPv4 address and its 16-byte form are two ledger accounts: for
every IPv4 address the caller derived from the 16-byte peer IP differs from the recipient
derived from the 4 bytes, and a transfer between the two forms is never rejected as a
self-transfer. A request with a valid amount and recipient is rejected as a self-transfer
exactly when the recipient bytes give the very `netip.Addr` of the caller. -/
theorem CreateTransfer_self_transfer_same_form (im : Imports) (s : server) (run : Run)
    (amount : Int) (b : List Byte) (hb : b.length = 4) :
    getPeer im s { testingPeer := some ⟨.TCPAddr (net.To16 b)⟩ }
      = .ok (.v6 (net.v4InV6Prefix ++ b) "")
    ∧ AddrFromSlice b = (.v4 b, true)
    ∧ (Addr.v6 (net.v4InV6Prefix ++ b) "") ≠ .v4 b
    ∧ (CreateTransfer im s run { testingPeer := some ⟨.TCPAddr (net.To16 b)⟩ }
        { Amount := amount, RecipientAddress := b }).result
      ≠ .error (status.Error .InvalidArgument "cannot transfer to self")
    ∧ (∀ (ctx : Context) (request : proto.CreateTransferRequest) (sender recipient : Addr),
        getPeer im s ctx = .ok sender → 1 ≤ request.Amount →
        AddrFromSlice request.RecipientAddress = (recipient, true) →
        ((CreateTransfer im s run ctx request).result
            = .error (status.Error .InvalidArgument "cannot transfer to self")
          ↔ sender = recipient)) := by
  have h16 : (net.To16 b).length = 16 := by
    unfold net.To16 net.v4InV6Prefix
    rw [if_pos hb, List.length_append, hb]
    rfl
  have hto : net.To16 b = net.v4InV6Prefix ++ b := by
    unfold net.To16
    rw [if_pos hb]
  have hpeer : getPeer im s { testingPeer := some ⟨.TCPAddr (net.To16 b)⟩ }
      = .ok (.v6 (net.v4InV6Prefix ++ b) "") := by
    unfold getPeer AddrFromSlice
    simp only [h16, show ¬ (16 = 4) by decide, if_false, if_true, Bool.not_true,
      Bool.false_eq_true]
    rw [hto]
    rfl
  have hrec : AddrFromSlice b = (.v4 b, true) := by
    unfold AddrFromSlice
    rw [if_pos hb]
    rfl
  refine ⟨hpeer, hrec, (fun h => by cases h), ?_,
    fun ctx request sender recipient hp ha hr =>
      CreateTransfer_self_error_iff im s run ctx request sender recipient hp ha hr⟩
  by_cases ha : 1 ≤ amount
  · intro h
    have := (CreateTransfer_self_error_iff im s run
      { testingPeer := some ⟨.TCPAddr (net.To16 b)⟩ }
      { Amount := amount, RecipientAddress := b } _ _ hpeer ha hrec).mp h
    cases this
  · intro h
    unfold CreateTransfer at h
    simp only [show amount < 1 by omega, if_true] at h
    injection h with h
    exact absurd h (by decide)

/-- C29 (witness): the transfer of TestServer_TransferSelf from `::1` to `::1` is rejected
as a self-transfer, and for 192.168.0.1 the caller derived from the 16-byte form is not
the recipient derived from the 4 bytes. -/
theorem CreateTransfer_self_transfer_same_form_witness :
    (Addr.v6 (net.v4InV6Prefix ++ [192, 168, 0, 1]) "") ≠ .v4 [192, 168, 0, 1]
    ∧ ((CreateTransfer ⟨fun _ => none, "", ""⟩
          ⟨{}, ⟨storage.projectStarted⟩, storage.emptyDB, "", .leaderboardNoOp⟩ {}
          { testingPeer := some ⟨.TCPAddr [0, 0, 0, 0, 0, 0, 0, 0, 0, 0, 0, 0, 0, 0, 0, 1]⟩ }
          { Amount := 1,
            RecipientAddress := [0, 0, 0, 0, 0, 0, 0, 0, 0, 0, 0, 0, 0, 0, 0, 1] }).result
        = .error (status.Error .InvalidArgument "cannot transfer to self")
      ↔ (Addr.v6 [0, 0, 0, 0, 0, 0, 0, 0, 0, 0, 0, 0, 0, 0, 0, 1] "")
          = .v6 [0, 0, 0, 0, 0, 0, 0, 0, 0, 0, 0, 0, 0, 0, 0, 1] "") :=
  ⟨(CreateTransfer_self_transfer_same_form ⟨fun _ => none, "", ""⟩
      ⟨{}, ⟨storage.projectStarted⟩, storage.emptyDB, "", .leaderboardNoOp⟩ {} 1
      [192, 168, 0, 1] rfl).2.2.1,
   (CreateTransfer_self_transfer_same_form ⟨fun _ => none, "", ""⟩
      ⟨{}, ⟨storage.projectStarted⟩, storage.emptyDB, "", .leaderboardNoOp⟩ {} 1
      [192, 168, 0, 1] rfl).2.2.2.2
      { testingPeer := some ⟨.TCPAddr [0, 0, 0, 0, 0, 0, 0, 0, 0, 0, 0, 0, 0, 0, 0, 1]⟩ }
      { Amount := 1,
        RecipientAddress := [0, 0, 0, 0, 0, 0, 0, 0, 0, 0, 0, 0, 0, 0, 0, 1] }
      (.v6 [0, 0, 0, 0, 0, 0, 0, 0, 0, 0, 0, 0, 0, 0, 0, 1] "")
      (.v6 [0, 0, 0, 0, 0, 0, 0, 0, 0, 0, 0, 0, 0, 0, 0, 1] "")
      rfl (by decide) rfl⟩

end server

/-! ## Peers -/

namespace server

open netip

/-- The result of `getPeer` for a peer that `peer.FromContext` gives and that carries the
bytes `ip` in a TCP or UDP address, on a server with `CloudflareRequired` set. -/
theorem getPeer_of_peer (im : Imports) (s : server) (ctx : Context) (p : Peer)
    (ip : List Byte) (hp : ctx.peer = some p)
    (ha : p.Addr = .TCPAddr ip ∨ p.Addr = .UDPAddr ip)
    (hcf : s.c.CloudflareRequired = true) :
    getPeer im s ctx
      = if (AddrFromSlice ip).2 = false then
          .error (status.Error .Unauthenticated "invalid IP address")
        else
          match ctx.metadata with
          | none =>
            .error (status.Error .Unauthenticated "missing required metadata in gRPC request")
          | some md =>
            match md "x-forwarded-for" with
            | [] => .error (status.Error .Unauthenticated "no x-forwarded-for in metadata")
            | xff :: _ =>
              match im.ParseAddr (firstField xff) with
              | none =>
                .error (status.Error .Unauthenticated "invalid IP address in x-forwarded-for")
              | some forwardedFor =>
                if cloudflareIPRanges.any (fun r => r.Contains forwardedFor) = false then
                  .error (status.Error .Unauthenticated
                    "forwarded IP address not from Cloudflare")
                else
                  match md im.GRPCMetadataKeyRuntimeKey with
                  | [] =>
                    .error (status.Error .Unauthenticated
                      "no runtime key in metadata from Cloudflare")
                  | key :: _ =>
                    if key ≠ s.runtimeKey then
                      .error (status.Error .Unauthenticated "invalid runtime key")
                    else
                      match md im.GPRCMetadataCFConnectingIP with
                      | [] =>
                        .error (status.Error .Unauthenticated
                          "no connecting IP in metadata from Cloudflare")
                      | cf :: _ =>
                        match im.ParseAddr (firstField cf) with
                        | none =>
                          .error (status.Error .Unauthenticated
                            "invalid IP address in metadata from Cloudflare")
                        | some connecting => .ok connecting := by
  unfold getPeer
  rw [hp]
  rcases ha with ha | ha <;>
    simp only [ha, hcf, Bool.not_true, Bool.false_eq_true, if_false, Bool.not_eq_true']

/-- What a successful `getPeer` has checked for a peer that is not a test peer, on a server
with `CloudflareRequired` set. -/
theorem getPeer_of_peer_ok (im : Imports) (s : server) (ctx : Context) (p : Peer)
    (ip : List Byte) (addr : Addr) (hp : ctx.peer = some p)
    (ha : p.Addr = .TCPAddr ip ∨ p.Addr = .UDPAddr ip)
    (hcf : s.c.CloudflareRequired = true) (h : getPeer im s ctx = .ok addr) :
    ∃ md xff xffs forwardedFor key keys cf cfs,
      (AddrFromSlice ip).2 = true
      ∧ ctx.metadata = some md
      ∧ md "x-forwarded-for" = xff :: xffs
      ∧ im.ParseAddr (firstField xff) = some forwardedFor
      ∧ (∃ r ∈ cloudflareIPRanges, r.Contains forwardedFor = true)
      ∧ md im.GRPCMetadataKeyRuntimeKey = key :: keys
      ∧ key = s.runtimeKey
      ∧ md im.GPRCMetadataCFConnectingIP = cf :: cfs
      ∧ im.ParseAddr (firstField cf) = some addr := by
  rw [getPeer_of_peer im s ctx p ip hp ha hcf] at h
  by_cases hip : (AddrFromSlice ip).2 = false
  · rw [if_pos hip] at h
    cases h
  · rw [if_neg hip] at h
    cases hmd : ctx.metadata with
    | none => rw [hmd] at h; cases h
    | some md =>
      rw [hmd] at h
      simp only at h
      cases hxff : md "x-forwarded-for" with
      | nil => rw [hxff] at h; cases h
      | cons xff xffs =>
        rw [hxff] at h
        simp only at h
        cases hfwd : im.ParseAddr (firstField xff) with
        | none => rw [hfwd] at h; cases h
        | some forwardedFor =>
          rw [hfwd] at h
          simp only at h
          by_cases hany : cloudflareIPRanges.any (fun r => r.Contains forwardedFor) = false
          · rw [if_pos hany] at h
            cases h
          · rw [if_neg hany] at h
            cases hkey : md im.GRPCMetadataKeyRuntimeKey with
            | nil => rw [hkey] at h; cases h
            | cons key keys =>
              rw [hkey] at h
              simp only at h
              by_cases hkeq : key ≠ s.runtimeKey
              · rw [if_pos hkeq] at h
                cases h
              · rw [if_neg hkeq] at h
                cases hcfv : md im.GPRCMetadataCFConnectingIP with
                | nil => rw [hcfv] at h; cases h
                | cons cf cfs =>
                  rw [hcfv] at h
                  simp only at h
                  cases hparse : im.ParseAddr (firstField cf) with
                  | none => rw [hparse] at h; cases h
                  | some connecting =>
                    rw [hparse] at h
                    simp only at h
                    injection h with h
                    subst h
                    refine ⟨md, xff, xffs, forwardedFor, key, keys, cf, cfs, ?_, rfl, hxff,
                      hfwd, ?_, hkey, ?_, hcfv, hparse⟩
                    · simpa using hip
                    · exact List.any_eq_true.mp (by simpa using hany)
                    · simpa using hkeq

/-- C30: for a peer that is not a test peer, on a server with `CloudflareRequired` set,
`getPeer` returns an address exactly when the peer carries a valid IP, the first field of
the first `x-forwarded-for` value parses to an address inside one of the prefixes of
`cloudflareIPRanges`, the first runtime-key value is the runtime key of the server, and
the first field of the first CF-Connecting-IP value parses, and the address returned is
that parsed address. Every error of `getPeer`, for any context, has the code
`Unauthenticated`; without a peer and without a test peer it returns `Unauthenticated`, and
so it does for a peer, test peer or not, whose IP is not valid. -/
theorem getPeer_valid_peers_only (im : Imports) (s : server) (ctx : Context) :
    (∀ p addr, ctx.peer = some p → s.c.CloudflareRequired = true →
      (getPeer im s ctx = .ok addr ↔
        ∃ ip md xff xffs forwardedFor key keys cf cfs,
          (p.Addr = .TCPAddr ip ∨ p.Addr = .UDPAddr ip)
          ∧ (AddrFromSlice ip).2 = true
          ∧ ctx.metadata = some md
          ∧ md "x-forwarded-for" = xff :: xffs
          ∧ im.ParseAddr (firstField xff) = some forwardedFor
          ∧ (∃ r ∈ cloudflareIPRanges, r.Contains forwardedFor = true)
          ∧ md im.GRPCMetadataKeyRuntimeKey = key :: keys
          ∧ key = s.runtimeKey
          ∧ md im.GPRCMetadataCFConnectingIP = cf :: cfs
          ∧ im.ParseAddr (firstField cf) = some addr))
    ∧ (∀ err, getPeer im s ctx = .error err → err.code = .Unauthenticated)
    ∧ (ctx.peer = none → ctx.testingPeer = none →
        getPeer im s ctx = .error (status.Error .Unauthenticated "no peer or metadata"))
    ∧ (∀ p ip, (ctx.peer = some p ∨ (ctx.peer = none ∧ ctx.testingPeer = some p)) →
        (p.Addr = .TCPAddr ip ∨ p.Addr = .UDPAddr ip) → (AddrFromSlice ip).2 = false →
        getPeer im s ctx = .error (status.Error .Unauthenticated "invalid IP address")) := by
  refine ⟨?_, fun err h => getPeer_error_code h, ?_, ?_⟩
  · intro p addr hp hcf
    constructor
    · intro h
      cases ha : p.Addr with
      | other =>
        unfold getPeer at h
        rw [hp] at h
        simp only [ha] at h
        cases h
      | TCPAddr ip =>
        obtain ⟨md, xff, xffs, forwardedFor, key, keys, cf, cfs, hrest⟩ :=
          getPeer_of_peer_ok im s ctx p ip addr hp (Or.inl ha) hcf h
        exact ⟨ip, md, xff, xffs, forwardedFor, key, keys, cf, cfs, Or.inl rfl, hrest⟩
      | UDPAddr ip =>
        obtain ⟨md, xff, xffs, forwardedFor, key, keys, cf, cfs, hrest⟩ :=
          getPeer_of_peer_ok im s ctx p ip addr hp (Or.inr ha) hcf h
        exact ⟨ip, md, xff, xffs, forwardedFor, key, keys, cf, cfs, Or.inr rfl, hrest⟩
    · rintro ⟨ip, md, xff, xffs, forwardedFor, key, keys, cf, cfs, ha, hip, hmd, hxff, hfwd,
        ⟨r, hr, hin⟩, hkey, hkeq, hcfv, hparse⟩
      rw [getPeer_of_peer im s ctx p ip hp ha hcf]
      have hany : cloudflareIPRanges.any (fun r => r.Contains forwardedFor) = true :=
        List.any_eq_true.mpr ⟨r, hr, hin⟩
      simp only [hip, hmd, hxff, hfwd, hany, hkey, hkeq, hcfv, hparse, Bool.true_eq_false,
        if_false, ne_eq, not_true_eq_false]
  · intro hp ht
    unfold getPeer
    simp only [hp, ht]
  · intro p ip hp ha hip
    unfold getPeer
    rcases hp with hp | ⟨hp, ht⟩
    · rcases ha with ha | ha <;> simp only [hp, ha, hip, Bool.not_false, if_true]
    · rcases ha with ha | ha <;> simp only [hp, ht, ha, hip, Bool.not_false, if_true]

/-- C30 (witness): a request relayed for 203.0.113.7 by the Cloudflare address
173.245.48.9, with the runtime key of the server, is answered with 203.0.113.7; the peer of
Test_getPeer, whose IP is nil, gets `Unauthenticated`. -/
theorem getPeer_valid_peers_only_witness :
    getPeer
        ⟨fun str => if str = "173.245.48.9" then some (.v4 [173, 245, 48, 9])
          else if str = "203.0.113.7" then some (.v4 [203, 0, 113, 7]) else none,
         "runtime-key", "cf-connecting-ip"⟩
        ⟨{ CloudflareRequired := true }, ⟨storage.projectStarted⟩, storage.emptyDB, "k1",
          .leaderboardNoOp⟩
        { peer := some ⟨.TCPAddr [127, 0, 0, 1]⟩,
          metadata := some (fun key =>
            if key = "x-forwarded-for" then ["173.245.48.9,10.0.0.1"]
            else if key = "runtime-key" then ["k1"]
            else if key = "cf-connecting-ip" then ["203.0.113.7"]
            else []) }
      = .ok (.v4 [203, 0, 113, 7])
    ∧ getPeer ⟨fun _ => none, "", ""⟩
        ⟨{}, ⟨storage.projectStarted⟩, storage.emptyDB, "", .leaderboardNoOp⟩
        { testingPeer := some ⟨.TCPAddr []⟩ }
      = .error (status.Error .Unauthenticated "invalid IP address") :=
  ⟨((getPeer_valid_peers_only
        ⟨fun str => if str = "173.245.48.9" then some (.v4 [173, 245, 48, 9])
          else if str = "203.0.113.7" then some (.v4 [203, 0, 113, 7]) else none,
         "runtime-key", "cf-connecting-ip"⟩
        ⟨{ CloudflareRequired := true }, ⟨storage.projectStarted⟩, storage.emptyDB, "k1",
          .leaderboardNoOp⟩
        { peer := some ⟨.TCPAddr [127, 0, 0, 1]⟩,
          metadata := some (fun key =>
            if key = "x-forwarded-for" then ["173.245.48.9,10.0.0.1"]
            else if key = "runtime-key" then ["k1"]
            else if key = "cf-connecting-ip" then ["203.0.113.7"]
            else []) }).1 ⟨.TCPAddr [127, 0, 0, 1]⟩ (.v4 [203, 0, 113, 7]) rfl rfl).mpr
      ⟨[127, 0, 0, 1], _, "173.245.48.9,10.0.0.1", [], .v4 [173, 245, 48, 9], "k1", [],
        "203.0.113.7", [], Or.inl rfl, rfl, rfl, by decide, by decide,
        ⟨⟨.v4 [173, 245, 48, 0], 20⟩, by decide, by decide⟩, by decide, rfl, by decide,
        by decide⟩,
   (getPeer_valid_peers_only ⟨fun _ => none, "", ""⟩
        ⟨{}, ⟨storage.projectStarted⟩, storage.emptyDB, "", .leaderboardNoOp⟩
        { testingPeer := some ⟨.TCPAddr []⟩ }).2.2.2 ⟨.TCPAddr []⟩ []
      (Or.inr ⟨rfl, rfl⟩) (Or.inl rfl) rfl⟩

end server
